import Mathlib

/-!
# ASIONE agent: a verification development

A shallow embedding of the Go sources of the agent (`main.go`, `memory/`, `search/`,
`api/`) together with theorems about them.

## Modelling conventions

* A Go `string` is modelled by the list of its runes (`Str`).  Every string the program
  handles is taken to be valid UTF-8 text; lengths and offsets are counted in bytes of the
  UTF-8 encoding, as Go counts them (`strings.len`, `strings.Index`, slices).
* A Go `panic` is a value of `Fault` returned through `Except`.  One value of `Fault` is
  no panic: `Fault.splitRune` marks a byte slice that cuts a rune in two, after which the
  Go program goes on with text that is not valid UTF-8 and the model stops.
* Standard input is read through a `bufio.Scanner`, modelled with the limit of 64 KiB on
  the length of a line (`bufio.Scanner.Scan`).
* What lives outside the repository (the Unicode case tables, the clock, the JSON codec,
  the network, child processes) is a parameter of the definitions that use it, gathered
  in `Host`; what the program reads and changes (standard output, files, environment) is
  the state `World`, passed along explicitly.
-/

set_option autoImplicit false

namespace Asione

/-! ## Part I. Definitions -/

/-- A Go string, as the sequence of its runes. -/
abbrev Str := List Char

/-- Run-time failures of the Go program that the model tracks. -/
inductive Fault where
  /-- The Go panic "slice bounds out of range". -/
  | sliceBounds
  /-- The Go panic "index out of range". -/
  | indexRange
  /-- The Go panic "invalid memory address or nil pointer dereference". -/
  | nilDereference
  /-- A slice offset falls strictly inside a multi-byte rune: the Go program goes on with
  a string that is not valid UTF-8, which the rune-level model does not follow. -/
  | splitRune
  deriving DecidableEq, Repr

deriving instance DecidableEq for Except

namespace unicode

/-- The Go predicate `unicode.IsSpace`: the white-space runes of Unicode. -/
def IsSpace (c : Char) : Bool :=
  let n := c.toNat
  (0x09 ≤ n && n ≤ 0x0D) || n == 0x20 || n == 0x85 || n == 0xA0 || n == 0x1680 ||
    (0x2000 ≤ n && n ≤ 0x200A) || n == 0x2028 || n == 0x2029 || n == 0x202F ||
    n == 0x205F || n == 0x3000

/-- A lower-casing of runes that agrees with Go's `unicode.ToLower` on Basic Latin and on
the Latin-1 Supplement, and leaves every other rune alone.  It is used to evaluate the
model on concrete texts of that repertoire; the theorems quantify over the mapping. -/
def toLowerLatin1 (c : Char) : Char :=
  let n := c.toNat
  if (0x41 ≤ n && n ≤ 0x5A) || (0xC0 ≤ n && n ≤ 0xDE && n != 0xD7) then Char.ofNat (n + 32)
  else c

end unicode

namespace strings

/-- The Go builtin `len(s)`: the number of bytes of the UTF-8 encoding. -/
def len : Str → Nat
  | [] => 0
  | c :: s => c.utf8Size + len s

/-- The Go function `strings.HasPrefix`. -/
def HasPrefix (s pre : Str) : Bool := pre.isPrefixOf s

/-- The Go function `strings.HasSuffix`. -/
def HasSuffix (s suf : Str) : Bool := suf.isSuffixOf s

/-- Byte offset of the first occurrence of `sub` in `s`, if there is one. -/
def indexOf : Str → Str → Option Nat
  | [], sub => if sub.isEmpty then some 0 else none
  | c :: s, sub =>
    if HasPrefix (c :: s) sub then some 0
    else (indexOf s sub).map (· + c.utf8Size)

/-- The Go function `strings.Index`: the byte offset of the first occurrence of `sub` in
`s`, or `-1`. -/
def Index (s sub : Str) : Int :=
  match indexOf s sub with
  | some i => (i : Int)
  | none => -1

/-- The Go function `strings.Contains`, which is `Index(s, substr) >= 0`. -/
def Contains (s sub : Str) : Bool := decide (0 ≤ Index s sub)

/-- The Go function `strings.ToLower`: every rune is sent through the lower-case mapping
`lo` of the Go runtime (`unicode.ToLower`). -/
def ToLower (lo : Char → Char) (s : Str) : Str := s.map lo

/-- The Go function `strings.TrimSpace`: leading and trailing white space removed. -/
def TrimSpace (s : Str) : Str := (s.dropWhile unicode.IsSpace).rdropWhile unicode.IsSpace

/-- The Go function `strings.Trim`: leading and trailing runes of `cutset` removed. -/
def Trim (s cutset : Str) : Str :=
  (s.dropWhile (fun c => cutset.contains c)).rdropWhile (fun c => cutset.contains c)

/-- The Go function `strings.TrimPrefix`. -/
def TrimPrefix (s pre : Str) : Str := if HasPrefix s pre then s.drop pre.length else s

/-- Worker of `Fields`: `cur` is the field being read. -/
def fieldsAux : Str → Str → List Str
  | [], cur => if cur.isEmpty then [] else [cur]
  | c :: s, cur =>
    if unicode.IsSpace c then
      (if cur.isEmpty then fieldsAux s [] else cur :: fieldsAux s [])
    else fieldsAux s (cur ++ [c])

/-- The Go function `strings.Fields`: the maximal runs of non-space runes. -/
def Fields (s : Str) : List Str := fieldsAux s []

/-- Worker of `ReplaceAll` for a non-empty `old`: `skip` runes of a match just replaced
are still to be passed over. -/
def replaceAux (old new : Str) : Nat → Str → Str
  | _, [] => []
  | skip + 1, _ :: s => replaceAux old new skip s
  | 0, c :: s =>
    if HasPrefix (c :: s) old then new ++ replaceAux old new (old.length - 1) s
    else c :: replaceAux old new 0 s

/-- The Go function `strings.ReplaceAll`: the non-overlapping occurrences of `old`, found
from the left, are replaced by `new`; an empty `old` matches before every rune and at the
end. -/
def ReplaceAll (s old new : Str) : Str :=
  if old.isEmpty then new ++ s.flatMap (fun c => c :: new) else replaceAux old new 0 s

/-- The Go function `strings.Join`. -/
def Join (parts : List Str) (sep : Str) : Str := sep.intercalate parts

/-- Worker of `Split` for a non-empty `sep`: `cur` is the piece being read, `skip` runes
of a separator just met are still to be passed over. -/
def splitAux (sep : Str) : Nat → Str → Str → List Str
  | _, cur, [] => [cur]
  | skip + 1, cur, _ :: s => splitAux sep skip cur s
  | 0, cur, c :: s =>
    if HasPrefix (c :: s) sep then cur :: splitAux sep (sep.length - 1) [] s
    else splitAux sep 0 (cur ++ [c]) s

/-- The Go function `strings.Split`: the pieces of `s` between the occurrences of `sep`;
an empty `sep` splits after every rune. -/
def Split (s sep : Str) : List Str :=
  if sep.isEmpty then s.map (fun c => [c]) else splitAux sep 0 [] s

/-- Runes of `s` from byte offset `off` on, for an offset known to be within `s`. -/
def dropBytes : Str → Nat → Except Fault Str
  | s, 0 => .ok s
  | [], _ + 1 => .error .sliceBounds
  | c :: s, off + 1 =>
    if off + 1 < c.utf8Size then .error .splitRune else dropBytes s (off + 1 - c.utf8Size)

/-- Runes of `s` before byte offset `n`. -/
def takeBytes : Str → Nat → Except Fault Str
  | _, 0 => .ok []
  | [], _ + 1 => .error .sliceBounds
  | c :: s, n + 1 =>
    if n + 1 < c.utf8Size then .error .splitRune
    else (takeBytes s (n + 1 - c.utf8Size)).map (c :: ·)

/-- The Go slice expression `s[a:]`; it panics unless `0 ≤ a ≤ len(s)`. -/
def sliceFrom (s : Str) (a : Int) : Except Fault Str :=
  if a < 0 ∨ (len s : Int) < a then .error .sliceBounds else dropBytes s a.toNat

/-- The Go slice expression `s[a:b]`; it panics unless `0 ≤ a ≤ b ≤ len(s)`. -/
def slice (s : Str) (a b : Int) : Except Fault Str :=
  if a < 0 ∨ b < a ∨ (len s : Int) < b then .error .sliceBounds
  else (dropBytes s a.toNat).bind (fun t => takeBytes t (b - a).toNat)

end strings

namespace strconv

/-- The Go function `strconv.Atoi`: an optional sign and decimal digits, within the range
of a 64-bit integer; `none` stands for an error. -/
def Atoi (s : Str) : Option Int :=
  let neg := s.head? = some '-'
  let ds := if s.head? = some '-' ∨ s.head? = some '+' then s.drop 1 else s
  if ds = [] ∨ ¬ ds.all Char.isDigit = true then none
  else
    let n : Nat := ds.foldl (fun acc c => 10 * acc + (c.toNat - 48)) 0
    let v : Int := if neg then -(n : Int) else (n : Int)
    if v < -(2 ^ 63) ∨ 2 ^ 63 - 1 < v then none else some v

end strconv

/-- The Go verb `%d` for an integer: its decimal rendering. -/
def decimal (n : Int) : Str :=
  if n < 0 then '-' :: Nat.toDigits 10 n.natAbs else Nat.toDigits 10 n.natAbs

/-- A `float64` of Go, by the 64 bits of its IEEE 754 representation.  Two floats are the
same value here exactly when they have the same bits: `0.0` and `-0.0` are two values,
as they are for the verb `%.2f`, which prints `0.00` and `-0.00`. -/
structure Float64 where
  bits : Nat
  deriving DecidableEq, Repr

/-- A reading of the clock (`time.Now()`), through the renderings the program uses. -/
structure Time where
  /-- The result of `Format("20060102150405")`: year, month, day, hour, minute, second. -/
  stamp : Str
  /-- The result of `UnixNano()`. -/
  unixNano : Int
  /-- The text `MarshalJSON` renders the reading with (layout RFC 3339, nanoseconds). -/
  rfc3339Nano : Str
  deriving DecidableEq, Repr, Inhabited

namespace types

/-- A message of a conversation (`types.Message`). -/
structure Message where
  Role : Str
  Content : Str
  deriving DecidableEq, Repr

/-- The request of a chat completion (`types.ChatRequest`); the temperature, a float in
the source, is kept as the rational it denotes. -/
structure ChatRequest where
  Model : Str
  Messages : List Message
  MaxTokens : Int
  Temperature : Rat
  deriving DecidableEq

/-- One answer of the API (`types.Choice`). -/
structure Choice where
  Index : Int
  Message : Message
  FinishReason : Str
  deriving DecidableEq, Repr

/-- Token accounting (`types.Usage`). -/
structure Usage where
  PromptTokens : Int
  CompletionTokens : Int
  TotalTokens : Int
  deriving DecidableEq, Repr

/-- The answer of the API to a chat completion (`types.ChatResponse`). -/
structure ChatResponse where
  ID : Str
  Object : Str
  Created : Int
  Model : Str
  Choices : List Choice
  Usage : Usage
  deriving DecidableEq, Repr

end types

/-- What an HTTP exchange (`http.NewRequestWithContext`, `http.Client.Do`, then
`io.ReadAll`) can yield. -/
inductive HTTPOutcome where
  /-- The request could not be built: `NewRequestWithContext` returned the error with
  this text. -/
  | invalid (err : Str)
  /-- The request could not be sent: `Do` returned the error with this text. -/
  | transport (err : Str)
  /-- A response arrived but reading its body failed with this error text. -/
  | unreadable (status : Str) (code : Int) (err : Str)
  /-- A response with status line `status`, status code `code` and body `body`. -/
  | response (status : Str) (code : Int) (body : Str)
  deriving DecidableEq

namespace memory

/-- An entry of the knowledge base (`memory.KnowledgeEntry`).  `Metadata` is a Go map,
`none` being the nil map. -/
structure KnowledgeEntry where
  ID : Str
  Timestamp : Time
  Category : Str
  Key : Str
  Value : Str
  Metadata : Option (List (Str × Str))
  deriving DecidableEq, Repr, Inhabited

/-- The knowledge base (`memory.KnowledgeBase`).  The Go map `entries` is the list of its
bindings, one per key; the order of the list has no counterpart in Go. -/
structure KnowledgeBase where
  entries : List (Str × KnowledgeEntry)
  filePath : Str
  deriving DecidableEq, Repr

end memory

namespace search

/-- One search result (`search.SearchItem`), with the fields the program reads. -/
structure SearchItem where
  Title : Str
  Link : Str
  Snippet : Str
  deriving DecidableEq, Repr

/-- The answer of the search provider (`search.SearchResults`), with the fields the
program reads; the search time is a `float64`. -/
structure SearchResults where
  SearchTime : Float64
  FormattedTotalResults : Str
  Items : List SearchItem
  deriving DecidableEq

/-- The search client (`search.WebSearcher`). -/
structure WebSearcher where
  apiKey : Str
  engine : Str
  deriving DecidableEq, Repr

end search

namespace api

/-- The chat client (`api.Client`). -/
structure Client where
  baseURL : Str
  apiKey : Str
  model : Str
  deriving DecidableEq, Repr

end api

/-- A message handed to the mail server: the address dialled, whether the connection is
TLS from the start (`sendMailSSL`) or upgraded (`smtp.SendMail`), the credentials of the
plain authentication, the envelope and the text. -/
structure Mail where
  addr : Str
  ssl : Bool
  username : Str
  password : Str
  host : Str
  sender : Str
  recipients : List Str
  msg : Str
  deriving DecidableEq, Repr

/-- The steps of `sendMailSSL` that can fail. -/
inductive SMTPStep where
  | dial
  | newClient
  | auth
  | mail
  | rcpt
  | data
  | write
  | close
  | quit
  deriving DecidableEq, Repr

/-- What the program obtains from outside the repository: the Go runtime and library, the
operating system and the network. -/
structure Host where
  /-- The rune mapping `unicode.ToLower`. -/
  lower : Char → Char
  /-- The successive readings of the clock: `now k` is what call number `k` of
  `time.Now()` returns. -/
  now : Nat → Time
  /-- The text `json.Encoder.Encode` produces for the map of entries (indented). -/
  encodeEntries : List (Str × memory.KnowledgeEntry) → Str
  /-- The outcome of `json.Decoder.Decode` on a non-empty input, into a map of entries
  that holds `into` before the call. -/
  decodeEntries : (input : Str) → (into : List (Str × memory.KnowledgeEntry)) →
    Except Str (List (Str × memory.KnowledgeEntry))
  /-- The outcome of `exec.Cmd.Run` for the given argument vector: `none` when the child
  exits with status 0, the text of the error otherwise. -/
  run : List Str → Option Str
  /-- The outcome of `exec.Cmd.Output` for the given argument vector: the standard
  output of the child, or the text of the error. -/
  output : List Str → Except Str Str
  /-- The Go verb `%.2f` of package `fmt` on a `float64`. -/
  formatFixed2 : Float64 → Str
  /-- The Go function `filepath.Join`. -/
  pathJoin : List Str → Str
  /-- The outcome of `json.Marshal` on a chat request. -/
  encodeChat : types.ChatRequest → Except Str Str
  /-- The outcome of `json.Unmarshal` into a chat response. -/
  decodeChat : Str → Except Str types.ChatResponse
  /-- The outcome of `json.Unmarshal` into search results. -/
  decodeSearch : Str → Except Str search.SearchResults
  /-- The authenticated POST of `body` to `url` with bearer token `key`. -/
  post : (url key body : Str) → HTTPOutcome
  /-- The GET of `endpoint` with the given query parameters. -/
  get : (endpoint : Str) → (params : List (Str × Str)) → HTTPOutcome
  /-- The outcome of `smtp.SendMail`: `none` for nil, else the text of the error. -/
  sendMail : Mail → Option Str
  /-- The dialogue of `sendMailSSL` with the server: `none` when every step succeeds, else
  the first step that fails and the text of its error. -/
  smtpSSL : Mail → Option (SMTPStep × Str)

/-- The part of the machine the program acts on. -/
structure World where
  /-- The chunks written to standard output, oldest first. -/
  stdout : List Str
  /-- The argument vectors of the child processes started, oldest first. -/
  procs : List (List Str)
  /-- The content of every file that exists. -/
  files : Str → Option Str
  /-- The paths at which `os.Create` and `os.Open` fail. -/
  denied : Str → Bool
  /-- The number of calls of `time.Now()` made so far. -/
  tick : Nat
  /-- The environment variables of the process. -/
  env : Str → Option Str
  /-- The messages handed to the mail server, oldest first. -/
  mails : List Mail

/-- Writing a chunk to standard output (`fmt.Print` and its kin). -/
def World.print (w : World) (chunk : Str) : World :=
  { w with stdout := w.stdout ++ [chunk] }

/-- Reading the clock (`time.Now()`). -/
def World.timeNow (H : Host) (w : World) : Time × World :=
  (H.now w.tick, { w with tick := w.tick + 1 })

namespace os

/-- The Go function `os.Stat`, as far as the program looks at it: whether it returns no
error, that is, whether the file exists. -/
def Stat (w : World) (path : Str) : Bool := (w.files path).isSome

/-- The Go function `os.Create`: the file is created or truncated, unless the path is
denied. -/
def Create (w : World) (path : Str) : Except Str World :=
  if w.denied path then .error ("open ".toList ++ path ++ ": permission denied".toList)
  else .ok { w with files := fun q => if q = path then some [] else w.files q }

/-- The Go function `os.Open`, with the content of the file opened. -/
def Open (w : World) (path : Str) : Except Str Str :=
  if w.denied path then .error ("open ".toList ++ path ++ ": permission denied".toList)
  else
    match w.files path with
    | some content => .ok content
    | none => .error ("open ".toList ++ path ++ ": no such file or directory".toList)

/-- The Go function `os.Getenv`: the value of the variable, empty when it is not set. -/
def Getenv (w : World) (key : Str) : Str := (w.env key).getD []

/-- The Go function `os.Setenv`; it fails, and leaves the environment alone, on an empty
key and on a key or value with `=` or a NUL where it may not stand. -/
def Setenv (w : World) (key value : Str) : World :=
  if key = [] ∨ '=' ∈ key ∨ '\x00' ∈ key ∨ '\x00' ∈ value then w
  else { w with env := fun q => if q = key then some value else w.env q }

/-- Bytes reaching an open file through `File.Write`: they are appended to it. -/
def write (w : World) (path : Str) (p : Str) : World :=
  { w with files := fun q => if q = path then some ((w.files path).getD [] ++ p) else w.files q }

end os

namespace bufio

/-- The Go constant `bufio.defaultBufSize`, the size of the buffer of `NewWriter`. -/
def defaultBufSize : Nat := 4096

/-- The Go method `bufio.Writer.Write(p)` on a writer whose buffer is empty, as it is at
the only call in the repository: a `p` longer than the buffer is handed to the underlying
writer at once; any other `p` is copied into the buffer, where it stays until `Flush`.
The result is the pair of the bytes handed over and the bytes left in the buffer. -/
def Write (p : Str) : Str × Str :=
  if defaultBufSize < strings.len p then (p, []) else ([], p)

/-- The Go constant `bufio.MaxScanTokenSize`: the size of the buffer of a `Scanner`, which
a line has to fit in together with its line feed. -/
def MaxScanTokenSize : Nat := 64 * 1024

/-- The Go function `bufio.dropCR`: a carriage return that ends the data is dropped. -/
def dropCR (data : Str) : Str :=
  if data.getLast? = some '\r' then data.dropLast else data

/-- The first `n` bytes of a text, as the buffer of a `Scanner` holds them when a line
overflows it.  The bytes of a rune cut by the limit are kept as one U+FFFD each, which is
how Go reads them (`utf8.RuneError`). -/
def firstBytes : Nat → Str → Str
  | _, [] => []
  | n, c :: s =>
    if c.utf8Size ≤ n then c :: firstBytes (n - c.utf8Size) s
    else List.replicate n (Char.ofNat 0xFFFD)

/-- A `bufio.Scanner` with the split function `ScanLines`, as `bufio.NewScanner` builds
it.  `lines` holds the lines of the input not read yet, each without its line feed;
`held` holds, once a line has overflowed the buffer, the bytes left in the buffer. -/
structure Scanner where
  lines : List Str
  held : Option Str
  deriving DecidableEq, Repr

/-- The Go function `bufio.NewScanner`, over an input given by its lines. -/
def NewScanner (input : List Str) : Scanner := { lines := input, held := none }

/-- The Go method `Scanner.Scan`, paired with `Scanner.Text`: the token read, `none` when
`Scan` returns false, and the scanner afterwards.  A line shorter than the buffer is
delivered without its carriage return.  On a line of `MaxScanTokenSize` bytes or more the
buffer fills up before a line feed is seen: `Scan` fails with `ErrTooLong` and reads no
further; the call after that delivers the bytes held in the buffer, and every later call
fails.  At the end of the input `Scan` fails. -/
def Scanner.Scan (s : Scanner) : Option Str × Scanner :=
  match s.held with
  | some data => (some (dropCR data), { lines := [], held := none })
  | none =>
    match s.lines with
    | [] => (none, s)
    | line :: rest =>
      if strings.len line < MaxScanTokenSize then
        (some (dropCR line), { lines := rest, held := none })
      else (none, { lines := [], held := some (firstBytes MaxScanTokenSize line) })

end bufio

/-- The system information detected at start-up (`SystemInfo`). -/
structure SystemInfo where
  OSName : Str
  OSVersion : Str
  OSID : Str
  OSBuild : Str
  KernelVersion : Str
  Architecture : Str
  deriving DecidableEq, Repr

/-- The field `APIConfig` of the agent. -/
structure APIConfig where
  BaseURL : Str
  APIKey : Str
  Model : Str
  deriving DecidableEq, Repr

/-- The field `SMTPConfig` of the agent. -/
structure SMTPConfig where
  Host : Str
  Port : Int
  Username : Str
  Password : Str
  From : Str
  deriving DecidableEq, Repr

/-- The agent (`Agent`).  `scanner` is the scanner over standard input.  The
pointers `knowledgeBase` and `knowledgeIntegrator` are set together and reach the same
base: `knowledge` is that base, `none` when both are nil. -/
structure Agent where
  APIConfig : APIConfig
  SMTPConfig : SMTPConfig
  apiClient : Option api.Client
  webSearcher : Option search.WebSearcher
  scanner : bufio.Scanner
  messages : List types.Message
  knowledge : Option memory.KnowledgeBase
  systemInfo : SystemInfo
  deriving DecidableEq

namespace memory

open strings

/-- The keys of the map `stopWords` of `extractKeywords`, all bound to `true`. -/
def stopWords : List Str :=
  ["le", "la", "les", "un", "une", "des",
   "et", "ou", "mais", "donc", "or", "ni", "car",
   "à", "de", "en", "dans", "par", "pour", "avec",
   "sur", "sous", "entre", "avant", "après", "pendant",
   "comme", "que", "qui", "quoi", "quand", "où", "comment",
   "quel", "quelle", "quels", "quelles", "ce", "cette", "ces",
   "il", "elle", "ils", "elles", "nous", "vous", "je", "tu",
   "me", "te", "se", "lui", "leur",
   "y", "ci", "là", "ici", "là-bas"].map String.toList

/-- The punctuation `extractKeywords` trims off a word. -/
def punctuation : Str := ".,;:!?\"'()[]\x7b\x7d".toList

/-- Body of the loop of `extractKeywords`: `word` is trimmed of its punctuation and
appended to `keywords` when it is longer than 3 bytes, is no stop word and is not among
the keywords yet. -/
def keywordStep (keywords : List Str) (word : Str) : List Str :=
  let word := Trim word punctuation
  if len word > 3 ∧ ¬ stopWords.contains word = true then
    let found := keywords.any (fun k => k == word)
    if ¬ found = true then keywords ++ [word] else keywords
  else keywords

/-- The Go function `memory.extractKeywords`. -/
def extractKeywords (lo : Char → Char) (text : Str) : List Str :=
  let words := Fields (ToLower lo text)
  words.foldl keywordStep []

end memory

namespace memory

open strings

/-- The Go assignment `m[k] = v` on a map: the binding of `k` is replaced when there is
one, added otherwise. -/
def mapSet (m : List (Str × KnowledgeEntry)) (k : Str) (v : KnowledgeEntry) :
    List (Str × KnowledgeEntry) :=
  if m.any (fun b => b.1 == k) then m.map (fun b => if b.1 == k then (k, v) else b)
  else m ++ [(k, v)]

/-- The Go expression `m[k]` with its presence flag. -/
def mapGet (m : List (Str × KnowledgeEntry)) (k : Str) : Option KnowledgeEntry :=
  (m.find? (fun b => b.1 == k)).map Prod.snd

/-- The Go method `KnowledgeBase.save`: the file is created, the map is encoded into a
buffered writer over it, and the file is closed; the writer is never flushed.  The result
is the error returned (`none` for nil) and the world afterwards. -/
def save (H : Host) (kb : KnowledgeBase) (w : World) : Option Str × World :=
  match os.Create w kb.filePath with
  | .error err => (some err, w)
  | .ok w =>
    let written := (bufio.Write (H.encodeEntries kb.entries)).1
    (none, os.write w kb.filePath written)

/-- The Go method `KnowledgeBase.load`: the file is opened and decoded into the map; an
input without any byte makes `Decode` fail with `io.EOF`. -/
def load (H : Host) (kb : KnowledgeBase) (w : World) : Except Str KnowledgeBase :=
  match os.Open w kb.filePath with
  | .error err => .error err
  | .ok content =>
    if content = [] then .error "EOF".toList
    else
      match H.decodeEntries content kb.entries with
      | .error err => .error err
      | .ok entries => .ok { kb with entries := entries }

/-- The Go function `memory.NewKnowledgeBase`. -/
def NewKnowledgeBase (H : Host) (w : World) (filePath : Str) : Except Str KnowledgeBase :=
  let kb : KnowledgeBase := { entries := [], filePath := filePath }
  if os.Stat w filePath then load H kb w else .ok kb

/-- The Go function `memory.generateID`: the second of a first reading of the clock, a
dash, and the letter numbered by the nanoseconds of a second reading modulo 26. -/
def generateID (H : Host) (w : World) : Str × World :=
  let (t1, w) := w.timeNow H
  let (t2, w) := w.timeNow H
  (t1.stamp ++ "-".toList ++ [Char.ofNat (Int.tmod t2.unixNano 26 + 97).toNat], w)

/-- The Go method `KnowledgeBase.Add`; the error of `save` is dropped, as in the
source. -/
def Add (H : Host) (kb : KnowledgeBase) (w : World) (category key value : Str)
    (metadata : Option (List (Str × Str))) : KnowledgeBase × World :=
  let (id, w) := generateID H w
  let (now, w) := w.timeNow H
  let entry : KnowledgeEntry :=
    { ID := id, Timestamp := now, Category := category, Key := key, Value := value,
      Metadata := metadata }
  let kb := { kb with entries := mapSet kb.entries entry.ID entry }
  (kb, (save H kb w).2)

/-- The Go method `KnowledgeIntegrator.Remember`, on the base the integrator wraps. -/
def Remember (H : Host) (kb : KnowledgeBase) (w : World) (category key value : Str)
    (metadata : Option (List (Str × Str))) : KnowledgeBase × World :=
  Add H kb w category key value metadata

/-- The Go method `KnowledgeIntegrator.LearnFromInteraction`, on the base the integrator
wraps. -/
def LearnFromInteraction (H : Host) (kb : KnowledgeBase) (w : World)
    (userInput aiResponse : Str) : KnowledgeBase × World :=
  let metadata : Option (List (Str × Str)) :=
    some [("input".toList, userInput), ("source".toList, "interaction".toList)]
  let keywords := extractKeywords H.lower (userInput ++ " ".toList ++ aiResponse)
  keywords.foldl
    (fun (st : KnowledgeBase × World) keyword =>
      Add H st.1 st.2 "interaction".toList keyword aiResponse metadata)
    (kb, w)

end memory

namespace Agent

open strings

/-- Opening of the first part of `extractCommandFromResponse`: the offset of the fence,
looked for as a fence tagged `bash`, then `sh`, then as any fence. -/
def fenceStart (response : Str) : Int :=
  let start := Index response "```bash".toList
  let start := if start = -1 then Index response "```sh".toList else start
  let start := if start = -1 then Index response "```".toList else start
  start

/-- First part of `extractCommandFromResponse`: the fenced code block.  `none` when the
source falls through to the next part. -/
def fencedBlock (response : Str) : Except Fault (Option Str) :=
  let start := fenceStart response
  if start ≠ -1 then
    let start := start + (len "```".toList : Int)
    (sliceFrom response start).bind fun rest =>
      let end_ := Index rest "```".toList
      if end_ ≠ -1 then
        (slice response start (start + end_)).bind fun block =>
          let codeBlock := TrimSpace block
          let codeBlock := TrimPrefix codeBlock "bash".toList
          let codeBlock := TrimPrefix codeBlock "sh".toList
          let codeBlock := TrimSpace codeBlock
          .ok (some codeBlock)
      else .ok none
  else .ok none

/-- Second part of `extractCommandFromResponse`: the text after `commande :`. -/
def inlineCommand (lo : Char → Char) (response : Str) : Except Fault (Option Str) :=
  let lowerResp := ToLower lo response
  if Contains lowerResp "commande :".toList then
    let start := Index lowerResp "commande :".toList + (len "commande :".toList : Int)
    (sliceFrom response start).bind fun rest =>
      let end_ := Index rest "\n".toList
      let end_ :=
        if end_ = -1 then (len response : Int) - start
        else end_ + Index response rest + start - start
      (slice response start end_).bind fun cmd =>
        let cmd := TrimSpace cmd
        if cmd ≠ [] then .ok (some cmd) else .ok none
  else .ok none

/-- The phrases after which `extractCommandFromResponse` looks for a block. -/
def indicators : List Str :=
  ["voici la commande".toList, "vous pouvez utiliser".toList,
   "utilise cette commande".toList, "commande pour".toList,
   "exécute cette commande".toList]

/-- Third part of `extractCommandFromResponse`: the loop over the indicator phrases. -/
def indicatorBlock (lo : Char → Char) (response : Str) : List Str → Except Fault (Option Str)
  | [] => .ok none
  | indicator :: more =>
    let lowerResp := ToLower lo response
    let idx := Index lowerResp indicator
    if idx ≠ -1 then
      let cmdStart := idx + (len indicator : Int)
      (sliceFrom response cmdStart).bind fun rest =>
        let nextCode := Index rest "```".toList
        if nextCode ≠ -1 then
          let cmdStart := cmdStart + (nextCode + 3)
          (sliceFrom response cmdStart).bind fun rest2 =>
            let endCode := Index rest2 "```".toList
            if endCode ≠ -1 then
              (slice response cmdStart (cmdStart + endCode)).bind fun cmd =>
                let cmd := TrimSpace cmd
                if cmd ≠ [] then .ok (some cmd) else indicatorBlock lo response more
            else indicatorBlock lo response more
        else indicatorBlock lo response more
    else indicatorBlock lo response more

/-- The Go method `Agent.extractCommandFromResponse`: the command held by a reply of the
model and whether one was found; a `Fault` when the Go code panics. -/
def extractCommandFromResponse (lo : Char → Char) (response : Str) :
    Except Fault (Str × Bool) :=
  (fencedBlock response).bind fun r1 =>
    match r1 with
    | some codeBlock => .ok (codeBlock, true)
    | none =>
      (inlineCommand lo response).bind fun r2 =>
        match r2 with
        | some cmd => .ok (cmd, true)
        | none =>
          (indicatorBlock lo response indicators).bind fun r3 =>
            match r3 with
            | some cmd => .ok (cmd, true)
            | none => .ok ([], false)

/-- The test `needsSudo` of `executeCommand`. -/
def needsSudo (lo : Char → Char) (cmd : Str) : Bool :=
  Contains (ToLower lo cmd) "sudo".toList || Contains (ToLower lo cmd) "/etc/".toList ||
    Contains (ToLower lo cmd) "apt".toList || Contains (ToLower lo cmd) "yum".toList ||
    Contains (ToLower lo cmd) "systemctl".toList

/-- The error `executeCommand` returns when standard input ends at a prompt. -/
def errInterrupted : Str := "lecture de l'entrée utilisateur interrompue".toList

/-- The error `executeCommand` returns when the user declines. -/
def errCancelled : Str := "exécution de la commande annulée par l'utilisateur".toList

/-- End of `executeCommand`: `command.Run()` and the report of its outcome.  The child
is recorded in `procs`; it is taken to leave the pending lines of standard input alone. -/
def runCommand (H : Host) (a : Agent) (w : World) (command : List Str) :
    Option Str × Agent × World :=
  let w := { w with procs := w.procs ++ [command] }
  match H.run command with
  | some err => (some err, a, w.print ("❌ La commande a échoué : ".toList ++ err ++ "\n".toList))
  | none => (none, a, w.print "✅ Commande exécutée avec succès.\n".toList)

/-- The Go method `Agent.executeCommand`: the error returned (`none` for nil), the agent
and the world afterwards. -/
def executeCommand (H : Host) (a : Agent) (w : World) (cmd : Str) :
    Option Str × Agent × World :=
  let w := w.print "\nJe m'apprête à exécuter la commande suivante :\n".toList
  let w := w.print ("$ ".toList ++ cmd ++ "\n".toList)
  let w := w.print "Voulez-vous que je l'exécute ? (oui/non) [ENTRÉE pour 'oui'] ".toList
  match a.scanner.Scan with
  | (none, scanner) => (some errInterrupted, { a with scanner := scanner }, w)
  | (some input, scanner) =>
    let a := { a with scanner := scanner }
    let response := ToLower H.lower (TrimSpace input)
    let w := if response = [] then w.print "✅ (confirmation par défaut)\n".toList else w
    let response := if response = [] then "oui".toList else response
    if response ≠ "oui".toList ∧ response ≠ "yes".toList ∧ response ≠ "y".toList then
      (some errCancelled, a, w)
    else if needsSudo H.lower cmd then
      let w := w.print "\n⚠️  Cette commande nécessite des privilèges administrateur (sudo).\n".toList
      let w := w.print "Confirmer l'exécution avec sudo ? (oui/non) [ENTRÉE pour 'oui'] ".toList
      match a.scanner.Scan with
      | (none, scanner) => (some errInterrupted, { a with scanner := scanner }, w)
      | (some input, scanner) =>
        let a := { a with scanner := scanner }
        let response := ToLower H.lower (TrimSpace input)
        let w := if response = [] then w.print "✅ (confirmation par défaut)\n".toList else w
        let response := if response = [] then "oui".toList else response
        if response ≠ "oui".toList ∧ response ≠ "yes".toList ∧ response ≠ "y".toList then
          (some errCancelled, a, w)
        else
          let cmd := ReplaceAll cmd "sudo ".toList []
          let w := w.print ("🔐 Exécution avec sudo -S : ".toList ++ cmd ++ "\n".toList)
          runCommand H a w ["sudo".toList, "-S".toList, "sh".toList, "-c".toList, cmd]
    else
      let w := w.print ("➡️  Exécution : ".toList ++ cmd ++ "\n".toList)
      runCommand H a w ["sh".toList, "-c".toList, cmd]

/-- The Go method `Agent.enableAutoConfirm`: a system message is appended to the
transcript; nothing else changes. -/
def enableAutoConfirm (a : Agent) (enabled : Bool) : Agent :=
  if enabled then
    { a with messages := a.messages ++ [{
        Role := "system".toList
        Content := "L'utilisateur a activé le mode 'oui à tout'. Les commandes critiques doivent être exécutées sans confirmation.".toList }] }
  else
    { a with messages := a.messages ++ [{
        Role := "system".toList
        Content := "Le mode 'oui à tout' a été désactivé. Toutes les commandes doivent être confirmées manuellement.".toList }] }

/-- Body of the loop of `Agent.extractKeywords`; the stop words and the punctuation are
those of `memory.extractKeywords`, written out a second time in `main.go`. -/
def keywordStep (keywords : List Str) (word : Str) : List Str :=
  let word := Trim word memory.punctuation
  if len word > 3 ∧ ¬ memory.stopWords.contains word = true then
    let found := keywords.any (fun k => k == word)
    if ¬ found = true then keywords ++ [word] else keywords
  else keywords

/-- The Go method `Agent.extractKeywords`. -/
def extractKeywords (lo : Char → Char) (text : Str) : List Str :=
  let words := Fields (ToLower lo text)
  words.foldl keywordStep []

end Agent

namespace search

/-- The Go function `search.NewWebSearcher`. -/
def NewWebSearcher (apiKey engine : Str) : WebSearcher :=
  { apiKey := apiKey, engine := if engine = [] then "google".toList else engine }

/-- The Go method `WebSearcher.Search`, on a receiver that may be nil (`none`): a `Fault`
when the Go code panics, else the results or the text of the error returned. -/
def Search (H : Host) (w : Option WebSearcher) (query : Str) :
    Except Fault (Except Str SearchResults) :=
  match w with
  | none => .error .nilDereference
  | some w =>
    if w.apiKey = [] then .ok (.error "clé API de recherche non configurée".toList)
    else
      let params := [("q".toList, query), ("api_key".toList, w.apiKey),
        ("engine".toList, w.engine), ("num".toList, "10".toList)]
      match H.get "https://serpapi.com/search".toList params with
      | .invalid err =>
        .ok (.error ("erreur lors de la création de la requête: ".toList ++ err))
      | .transport err =>
        .ok (.error ("erreur lors de l'envoi de la requête: ".toList ++ err))
      | .unreadable _ _ err =>
        .ok (.error ("erreur lors de la lecture de la réponse: ".toList ++ err))
      | .response status code body =>
        if code ≠ 200 then
          .ok (.error ("erreur de recherche: ".toList ++ status ++ " (code: ".toList ++
            decimal code ++ ")".toList))
        else
          match H.decodeSearch body with
          | .error err =>
            .ok (.error ("erreur lors de la désérialisation de la réponse: ".toList ++ err))
          | .ok searchResp => .ok (.ok searchResp)

/-- The block `FormatSearchResults` writes for the item of index `i`. -/
def formatItem (i : Nat) (item : SearchItem) : Str :=
  decimal (i + 1) ++ ". ".toList ++ item.Title ++ "\n".toList ++
    "   ".toList ++ item.Snippet ++ "\n".toList ++
    "   [".toList ++ item.Link ++ "]\n\n".toList

/-- The Go function `search.FormatSearchResults`, on a pointer that may be nil. -/
def FormatSearchResults (H : Host) (results : Option SearchResults) : Str :=
  match results with
  | none => "Aucun résultat trouvé pour cette recherche.".toList
  | some results =>
    if results.Items.length = 0 then "Aucun résultat trouvé pour cette recherche.".toList
    else
      "Résultats de recherche:\n".toList ++
        ("Temps de recherche: ".toList ++ H.formatFixed2 results.SearchTime ++
          " secondes\n".toList) ++
        ("Résultats totaux: ".toList ++ results.FormattedTotalResults ++ "\n\n".toList) ++
        (((results.Items.take 5).enum.map fun p => formatItem p.1 p.2).foldl (· ++ ·) [])

end search

namespace api

/-- The token cap of `ChatCompletion`: 8192, or the variable `MAX_TOKENS` when it is set
to an integer. -/
def maxTokens (w : World) : Int :=
  match w.env "MAX_TOKENS".toList with
  | some val =>
    (match strconv.Atoi val with
      | some parsedVal => parsedVal
      | none => 8192)
  | none => 8192

/-- The request `ChatCompletion` builds. -/
def requestBody (w : World) (c : Client) (messages : List types.Message) :
    types.ChatRequest :=
  { Model := c.model, Messages := messages, MaxTokens := maxTokens w, Temperature := 7 / 10 }

/-- The Go method `Client.ChatCompletion`, on a receiver that may be nil (`none`): a
`Fault` when the Go code panics, else the response or the text of the error returned. -/
def ChatCompletion (H : Host) (w : World) (c : Option Client)
    (messages : List types.Message) : Except Fault (Except Str types.ChatResponse) :=
  match c with
  | none => .error .nilDereference
  | some c =>
    let requestBody := requestBody w c messages
    match H.encodeChat requestBody with
    | .error err =>
      .ok (.error ("erreur lors de la sérialisation de la requête: ".toList ++ err))
    | .ok jsonBody =>
      match H.post (c.baseURL ++ "/chat/completions".toList) c.apiKey jsonBody with
      | .invalid err =>
        .ok (.error ("erreur lors de la création de la requête: ".toList ++ err))
      | .transport err =>
        .ok (.error ("erreur lors de l'envoi de la requête: ".toList ++ err))
      | .unreadable _ _ err =>
        .ok (.error ("erreur lors de la lecture de la réponse: ".toList ++ err))
      | .response status code respBody =>
        if code ≠ 200 then
          .ok (.error ("erreur API: ".toList ++ status ++ " (code: ".toList ++
            decimal code ++ ") - ".toList ++ respBody))
        else
          match H.decodeChat respBody with
          | .error err =>
            .ok (.error ("erreur lors de la désérialisation de la réponse: ".toList ++ err ++
              " - ".toList ++ respBody))
          | .ok chatResp => .ok (.ok chatResp)

end api

namespace Agent

open strings

/-- The Go method `Agent.rememberInteraction`. -/
def rememberInteraction (H : Host) (a : Agent) (w : World) (userInput aiResponse : Str) :
    Agent × World :=
  match a.knowledge with
  | some kb =>
    let r := memory.LearnFromInteraction H kb w userInput aiResponse
    ({ a with knowledge := some r.1 }, r.2)
  | none => (a, w)

/-- The terms `extractSearchQuery` removes from a task. -/
def searchTerms : List Str :=
  ["cherche".toList, "recherche".toList, "trouve".toList, "informations sur".toList,
   "dernières nouvelles sur".toList, "qu'est-ce que".toList]

/-- The Go method `Agent.extractSearchQuery`. -/
def extractSearchQuery (lo : Char → Char) (task : Str) : Str :=
  let lowerTask := ToLower lo task
  let result := searchTerms.foldl
    (fun result term => if Contains lowerTask term then ReplaceAll result term [] else result)
    task
  TrimSpace result

/-- End of `processWithAI` and of `processWithAIBasedOnSearch`: the command of the reply,
if one is found, goes through `executeCommand`; `tail` is the end of the message printed
on an error, which differs between the two. -/
def runExtracted (H : Host) (a : Agent) (w : World) (content tail : Str) :
    Except Fault (Agent × World) :=
  match extractCommandFromResponse H.lower content with
  | .error f => .error f
  | .ok (cmd, found) =>
    if found then
      match executeCommand H a w cmd with
      | (some err, a, w) =>
        .ok (a, w.print ("\nErreur lors de l'exécution de la commande: ".toList ++ err ++ tail))
      | (none, a, w) => .ok (a, w.print "\nCommande exécutée avec succès.\n\n".toList)
    else .ok (a, w)

/-- The Go method `Agent.processWithAIBasedOnSearch`. -/
def processWithAIBasedOnSearch (H : Host) (a : Agent) (w : World) (task searchResults : Str) :
    Except Fault (Agent × World) :=
  if a.APIConfig.APIKey = [] then
    .ok (a, w.print "\nErreur: Clé API non configurée. Veuillez configurer votre clé API avec 'set-api-key'.\n\n".toList)
  else
    let w := w.print "\n[AI] Analyse des résultats de recherche et exécution de la tâche...\n".toList
    let a := { a with messages := a.messages ++ [{
      Role := "user".toList
      Content := "Tâche: ".toList ++ task ++ "\n\nRésultats de recherche:\n".toList ++
        searchResults }] }
    match api.ChatCompletion H w a.apiClient a.messages with
    | .error f => .error f
    | .ok (.error err) =>
      .ok (a, w.print ("\nErreur lors de l'appel API: ".toList ++ err ++ "\n".toList))
    | .ok (.ok resp) =>
      match resp.Choices with
      | [] => .error .indexRange
      | choice :: _ =>
        let w := w.print ("\n".toList ++ choice.Message.Content ++ "\n\n".toList)
        let a := { a with messages := a.messages ++ [{
          Role := "assistant".toList, Content := choice.Message.Content }] }
        runExtracted H a w choice.Message.Content "\n\n".toList

end Agent

namespace Agent

open strings

/-- The Go method `Agent.performWebSearch`. -/
def performWebSearch (H : Host) (a : Agent) (w : World) (task : Str) :
    Except Fault (Agent × World) :=
  let w := w.print ("\nRecherche sur Internet pour: ".toList ++ task ++ "\n".toList)
  let query := extractSearchQuery H.lower task
  match search.Search H a.webSearcher query with
  | .error f => .error f
  | .ok (.error err) =>
    .ok (a, w.print ("Erreur lors de la recherche: ".toList ++ err ++ "\n\n".toList))
  | .ok (.ok results) =>
    let w := w.print (search.FormatSearchResults H (some results) ++ "\n".toList)
    let w := w.print "Voulez-vous utiliser ces informations pour compléter votre tâche ? (oui/non) [ENTRÉE pour 'oui']\n".toList
    let w := w.print ">".toList
    match a.scanner.Scan with
    | (none, scanner) => .ok ({ a with scanner := scanner }, w)
    | (some input, scanner) =>
      let a := { a with scanner := scanner }
      let response := ToLower H.lower (TrimSpace input)
      let w := if response = [] then w.print "✅ (confirmation par défaut)\n".toList else w
      let response := if response = [] then "oui".toList else response
      if response = "oui".toList ∨ response = "yes".toList ∨ response = "y".toList then
        processWithAIBasedOnSearch H a w task (search.FormatSearchResults H (some results))
      else .ok (a, w)

/-- The Go method `Agent.processWithAI`. -/
def processWithAI (H : Host) (a : Agent) (w : World) (task : Str) :
    Except Fault (Agent × World) :=
  if a.APIConfig.APIKey = [] then
    .ok (a, w.print "\nErreur: Clé API non configurée. Veuillez configurer votre clé API avec 'set-api-key'.\n\n".toList)
  else
    let w := w.print "\n[AI] Analyse et exécution de la tâche...\n".toList
    let a := { a with messages := a.messages ++ [{ Role := "user".toList, Content := task }] }
    match api.ChatCompletion H w a.apiClient a.messages with
    | .error f => .error f
    | .ok (.error err) =>
      if Contains err "503".toList ∨ Contains err "engine_overloaded".toList then
        let w := w.print "\nLe service d'IA est temporairement surchargé. Tentative de récupération avec recherche...\n".toList
        performWebSearch H a w task
      else .ok (a, w.print ("\nErreur lors de l'appel API: ".toList ++ err ++ "\n".toList))
    | .ok (.ok resp) =>
      match resp.Choices with
      | [] => .error .indexRange
      | choice :: _ =>
        let a := { a with messages := a.messages ++ [{
          Role := "assistant".toList, Content := choice.Message.Content }] }
        let r := rememberInteraction H a w task choice.Message.Content
        let a := r.1
        let w := r.2
        let w := w.print ("\n".toList ++ choice.Message.Content ++ "\n\n".toList)
        let w := w.print ("\n".toList ++ choice.Message.Content ++ "\n\n".toList)
        runExtracted H a w choice.Message.Content "\n".toList

/-- The Go method `Agent.processTask`. -/
def processTask (H : Host) (a : Agent) (w : World) (task : Str) :
    Except Fault (Agent × World) :=
  if Contains (ToLower H.lower task) "cherche".toList ∨
      Contains (ToLower H.lower task) "recherche".toList ∨
      Contains (ToLower H.lower task) "trouve".toList then
    performWebSearch H a w task
  else
    let needsRecentInfo : Bool :=
      Contains (ToLower H.lower task) "récemment".toList ||
        Contains (ToLower H.lower task) "dernières".toList ||
        Contains (ToLower H.lower task) "2024".toList ||
        Contains (ToLower H.lower task) "2025".toList
    if needsRecentInfo = true ∨ a.APIConfig.APIKey = [] then
      performWebSearch H a w task
    else
      processWithAI H a w task

/-- The Go function `detectSystemInfo`. -/
def detectSystemInfo (H : Host) (w : World) : SystemInfo × World :=
  let info : SystemInfo :=
    { OSName := [], OSVersion := [], OSID := [], OSBuild := [], KernelVersion := [],
      Architecture := [] }
  match os.Open w "/etc/os-release".toList with
  | .error err =>
    (info, w.print ("Avertissement: Impossible de lire /etc/os-release: ".toList ++ err ++
      "\n".toList))
  | .ok data =>
    let lines := Split data "\n".toList
    let info := lines.foldl
      (fun (info : SystemInfo) line =>
        if HasPrefix line "NAME=".toList then
          { info with OSName := Trim (TrimPrefix line "NAME=".toList) "\"".toList }
        else if HasPrefix line "VERSION=".toList then
          { info with OSVersion := Trim (TrimPrefix line "VERSION=".toList) "\"".toList }
        else if HasPrefix line "ID=".toList then
          { info with OSID := Trim (TrimPrefix line "ID=".toList) "\"".toList }
        else if HasPrefix line "BUILD_ID=".toList then
          { info with OSBuild := Trim (TrimPrefix line "BUILD_ID=".toList) "\"".toList }
        else info)
      info
    match H.output ["uname".toList, "-srm".toList] with
    | .error err =>
      (info, w.print ("Avertissement: Impossible d'exécuter uname: ".toList ++ err ++
        "\n".toList))
    | .ok out =>
      let parts := Fields (TrimSpace out)
      if parts.length ≥ 3 then
        ({ info with KernelVersion := parts.getD 2 [], Architecture := parts.getD 1 [] }, w)
      else (info, w)

/-- The path of the file `.env` that `NewAgent` reads. -/
def envPath : Str := "/home/arch/Desktop/asione-agent/.env".toList

/-- Body of the loop of `NewAgent` over the lines of the file `.env`. -/
def loadEnvLine (w : World) (line : Str) : Except Fault World :=
  let line := TrimSpace line
  if line = [] ∨ HasPrefix line "#".toList = true then .ok w
  else
    let i := Index line "=".toList
    if i ≠ -1 then
      (strings.slice line 0 i).bind fun key =>
        (sliceFrom line (i + 1)).bind fun value =>
          let value := Trim value "\"'".toList
          .ok (os.Setenv w key value)
    else .ok w

/-- First part of `NewAgent`: the file `.env` is read into the environment. -/
def loadEnvFile (w : World) : Except Fault World :=
  match os.Open w envPath with
  | .error err =>
    let w := w.print ("Erreur: Impossible de lire le fichier .env: ".toList ++ err ++
      "\n".toList)
    .ok (w.print "Les variables d'environnement seront chargées depuis les valeurs par défaut ou définies manuellement.\n".toList)
  | .ok content =>
    ((Split content "\n".toList).foldlM loadEnvLine w).bind fun w =>
      .ok (w.print "✅ Fichier .env chargé avec succès\n".toList)

end Agent

namespace memory

/-- The configuration of the memory (`memory.Config`). -/
structure Config where
  StoragePath : Str
  RetentionDays : Int
  MaxEntries : Int
  Enabled : Bool
  deriving DecidableEq, Repr

/-- The Go function `memory.DefaultConfig`; `os.UserHomeDir` is the variable `HOME` and
fails when it is empty. -/
def DefaultConfig (H : Host) (w : World) : Config :=
  let homeDir := if os.Getenv w "HOME".toList = [] then "/home/user".toList
    else os.Getenv w "HOME".toList
  { StoragePath := H.pathJoin [homeDir, ".cline".toList, "knowledge_base.json".toList]
    RetentionDays := 365
    MaxEntries := 10000
    Enabled := true }

/-- The text of a `ConfigError` (its method `Error`). -/
def configError (field message : Str) : Str :=
  "erreur de configuration: champ '".toList ++ field ++ "': ".toList ++ message

/-- The Go method `Config.Validate`: the text of the error, `none` for nil. -/
def Validate (c : Config) : Option Str :=
  if c.StoragePath = [] then
    some (configError "StoragePath".toList
      "le chemin de stockage ne peut pas être vide".toList)
  else if c.RetentionDays ≤ 0 then
    some (configError "RetentionDays".toList
      "le temps de rétention doit être supérieur à zéro".toList)
  else if c.MaxEntries ≤ 0 then
    some (configError "MaxEntries".toList
      "le nombre maximal d'entrées doit être supérieur à zéro".toList)
  else none

end memory

namespace Agent

open strings

/-- The system message `NewAgent` seeds the transcript with. -/
def systemMessage (systemInfo : SystemInfo) : types.Message :=
  { Role := "system".toList
    Content :=
      "Vous êtes un agent AI puissant qui aide l'utilisateur à accomplir ses tâches. ".toList ++
      "Répondez de manière concise et directe. Utilisez des listes à puces pour les étapes. ".toList ++
      "Si la tâche nécessite des commandes shell, ajoutez un bloc de code avec la commande à exécuter. ".toList ++
      "Pour les opérations sur le système de fichiers, fournissez les commandes appropriées. ".toList ++
      "Vous allez générer des commandes qui seront exécutées par l'agent.\n\n".toList ++
      "Contexte système:\n".toList ++
      ("  - Distribution: ".toList ++ systemInfo.OSName ++ " (ID: ".toList ++ systemInfo.OSID ++
        ")\n".toList) ++
      ("  - Version: ".toList ++ systemInfo.OSVersion ++ "\n".toList) ++
      ("  - Kernel: ".toList ++ systemInfo.KernelVersion ++ "\n".toList) ++
      ("  - Architecture: ".toList ++ systemInfo.Architecture ++ "\n".toList) ++
      "Utilisez cette information pour adapter les commandes système en conséquence.".toList }

/-- End of `NewAgent`: the knowledge base is opened. -/
def initKnowledge (H : Host) (a : Agent) (w : World) : Agent × World :=
  let kbConfig := memory.DefaultConfig H w
  match memory.Validate kbConfig with
  | some err =>
    (a, w.print ("Avertissement: Configuration de la mémoire invalide: ".toList ++ err ++
      "\n".toList))
  | none =>
    match memory.NewKnowledgeBase H w kbConfig.StoragePath with
    | .error err =>
      (a, w.print ("Avertissement: Impossible d'initialiser la base de connaissances: ".toList ++
        err ++ "\n".toList))
    | .ok kb => ({ a with knowledge := some kb }, w)

/-- The Go function `NewAgent`; `stdin` holds the lines standard input will deliver. -/
def NewAgent (H : Host) (w : World) (stdin : List Str) : Except Fault (Agent × World) :=
  (loadEnvFile w).bind fun w =>
    let baseURL := os.Getenv w "API_BASE_URL".toList
    let apiKey := os.Getenv w "API_KEY".toList
    let model := os.Getenv w "MODEL_NAME".toList
    let baseURL := if baseURL = [] then "https://inference.asicloud.cudos.org/v1".toList
      else baseURL
    let model := if model = [] then "asi1-mini".toList else model
    let apiKey := if apiKey = [] then os.Getenv w "API_KEY".toList else apiKey
    let r := detectSystemInfo H w
    let systemInfo := r.1
    let w := r.2
    let w := w.print ("Système détecté: ".toList ++ systemInfo.OSName ++ " ".toList ++
      systemInfo.OSVersion ++ " (".toList ++ systemInfo.OSID ++ ")\n".toList)
    let w := w.print ("Kernel: ".toList ++ systemInfo.KernelVersion ++
      ", Architecture: ".toList ++ systemInfo.Architecture ++ "\n\n".toList)
    let agent : Agent :=
      { APIConfig := { BaseURL := baseURL, APIKey := apiKey, Model := model }
        SMTPConfig :=
          { Host := os.Getenv w "SMTP_HOST".toList
            Port := 587
            Username := os.Getenv w "SMTP_USERNAME".toList
            Password := os.Getenv w "SMTP_PASSWORD".toList
            From := os.Getenv w "SMTP_FROM".toList }
        apiClient := none
        webSearcher := none
        scanner := bufio.NewScanner stdin
        messages := [systemMessage systemInfo]
        knowledge := none
        systemInfo := systemInfo }
    let searchAPIKey := os.Getenv w "SEARCH_API_KEY".toList
    let agent :=
      if searchAPIKey ≠ [] then
        { agent with webSearcher := some (search.NewWebSearcher searchAPIKey "google".toList) }
      else { agent with webSearcher := none }
    let w :=
      if searchAPIKey ≠ [] then w
      else w.print "Avertissement: Aucune clé API de recherche configurée ou échec du chargement du fichier .env. Les fonctionnalités de recherche seront limitées.\n".toList
    let configDir := H.pathJoin [os.Getenv w "HOME".toList, ".cline".toList]
    let w :=
      if w.denied configDir then
        w.print ("Avertissement: Impossible de créer le répertoire de configuration: ".toList ++
          ("mkdir ".toList ++ configDir ++ ": permission denied".toList) ++ "\n".toList)
      else w
    .ok (initKnowledge H agent w)

end Agent

namespace memory

open strings

/-- The Go method `KnowledgeBase.GetByKey`: the loop over the map appends the entries
whose key is `key`.  The map is ranged over in the order of the list; Go fixes no order. -/
def GetByKey (kb : KnowledgeBase) (key : Str) : List KnowledgeEntry :=
  kb.entries.foldl
    (fun results b => if b.2.Key = key then results ++ [b.2] else results) []

/-- The Go method `KnowledgeBase.GetByCategory`. -/
def GetByCategory (kb : KnowledgeBase) (category : Str) : List KnowledgeEntry :=
  kb.entries.foldl
    (fun results b => if b.2.Category = category then results ++ [b.2] else results) []

/-- The Go method `KnowledgeBase.GetAll`. -/
def GetAll (kb : KnowledgeBase) : List KnowledgeEntry :=
  kb.entries.foldl (fun results b => results ++ [b.2]) []

/-- The Go method `KnowledgeIntegrator.Recall`, on the base the integrator wraps. -/
def Recall (kb : KnowledgeBase) (key : Str) : List KnowledgeEntry := GetByKey kb key

/-- The Go method `KnowledgeIntegrator.RecallByCategory`. -/
def RecallByCategory (kb : KnowledgeBase) (category : Str) : List KnowledgeEntry :=
  GetByCategory kb category

/-- The Go method `KnowledgeIntegrator.SearchKnowledge`, on the base the integrator
wraps. -/
def SearchKnowledge (lo : Char → Char) (kb : KnowledgeBase) (query : Str) :
    List KnowledgeEntry :=
  (GetAll kb).foldl
    (fun results entry =>
      if Contains (ToLower lo entry.Value) (ToLower lo query) ||
          Contains (ToLower lo entry.Key) (ToLower lo query) then results ++ [entry]
      else results) []

end memory

namespace api

/-- The Go method `Client.SetCredentials`, on a receiver that may be nil. -/
def SetCredentials (c : Option Client) (baseURL apiKey model : Str) :
    Except Fault (Option Client) :=
  match c with
  | none => .error .nilDereference
  | some _ => .ok (some { baseURL := baseURL, apiKey := apiKey, model := model })

end api

namespace Agent

open strings

/-- The Go function `maskString`: the length and the two slices count bytes. -/
def maskString (s : Str) : Except Fault Str :=
  if len s ≤ 8 then .ok "********".toList
  else
    (strings.slice s 0 4).bind fun head =>
      (sliceFrom s ((len s : Int) - 4)).bind fun tail =>
        .ok (head ++ "...".toList ++ tail)

/-- The Go method `Agent.showHelp`. -/
def showHelp (w : World) : World :=
  let w := w.print "\nCommandes disponibles :\n".toList
  let w := w.print "  help                     - Affiche cette aide\n".toList
  let w := w.print "  exit/quit                - Quitte l'agent\n".toList
  let w := w.print "  config                   - Affiche la configuration\n".toList
  let w := w.print "  set-api-key <key>        - Définit la clé API\n".toList
  let w := w.print "  set-base-url <url>       - Définit l'URL de base du fournisseur\n".toList
  let w := w.print "  set-model <model>        - Définit le modèle à utiliser\n".toList
  let w := w.print "  <tâche>                  - Exécute une tâche (ex: coder, chercher, etc.)\n".toList
  w.print "\n".toList

/-- The Go method `Agent.showConfig`. -/
def showConfig (a : Agent) (w : World) : Except Fault World :=
  let w := w.print "\nConfiguration actuelle :\n".toList
  let w := w.print ("  Base URL: ".toList ++ a.APIConfig.BaseURL ++ "\n".toList)
  (maskString a.APIConfig.APIKey).bind fun masked =>
    let w := w.print ("  API Key: ".toList ++ masked ++ "\n".toList)
    let w := w.print ("  Model: ".toList ++ a.APIConfig.Model ++ "\n".toList)
    .ok (w.print "\n".toList)

/-- The Go method `Agent.setAPIKey`. -/
def setAPIKey (a : Agent) (w : World) (key : Str) : Except Fault (Agent × World) :=
  let a := { a with APIConfig := { a.APIConfig with APIKey := TrimSpace key } }
  (api.SetCredentials a.apiClient a.APIConfig.BaseURL a.APIConfig.APIKey
      a.APIConfig.Model).bind fun client =>
    let a := { a with apiClient := client }
    let w := w.print "\nClé API définie avec succès\n\n".toList
    if Contains a.APIConfig.BaseURL "serpapi".toList then
      let searcher := search.NewWebSearcher a.APIConfig.APIKey "google".toList
      .ok ({ a with webSearcher := some searcher }, w)
    else .ok (a, w)

/-- The Go method `Agent.setBaseURL`. -/
def setBaseURL (a : Agent) (w : World) (url : Str) : Except Fault (Agent × World) :=
  let url := TrimSpace url
  if url ≠ [] then
    let a := { a with APIConfig := { a.APIConfig with BaseURL := url } }
    (api.SetCredentials a.apiClient a.APIConfig.BaseURL a.APIConfig.APIKey
        a.APIConfig.Model).bind fun client =>
      let a := { a with apiClient := client }
      let w := w.print "\nURL de base définie avec succès\n\n".toList
      if Contains url "serpapi".toList ∨ Contains url "googleapis".toList then
        let searcher := search.NewWebSearcher a.APIConfig.APIKey "google".toList
        .ok ({ a with webSearcher := some searcher }, w)
      else .ok (a, w)
  else .ok (a, w.print "\nURL invalide\n\n".toList)

/-- The Go method `Agent.setModel`. -/
def setModel (a : Agent) (w : World) (model : Str) : Except Fault (Agent × World) :=
  let model := TrimSpace model
  if model ≠ [] then
    let a := { a with APIConfig := { a.APIConfig with Model := model } }
    (api.SetCredentials a.apiClient a.APIConfig.BaseURL a.APIConfig.APIKey
        a.APIConfig.Model).bind fun client =>
      let a := { a with apiClient := client }
      .ok (a, w.print "\nModèle défini avec succès\n\n".toList)
  else .ok (a, w.print "\nModèle invalide\n\n".toList)

end Agent

namespace Agent

open strings

/-- The Go method `Agent.sendMailSSL`: each step of the dialogue that fails is reported
under its own heading; the error of the final `Quit` is returned as it is. -/
def sendMailSSL (H : Host) (m : Mail) : Option Str :=
  match H.smtpSSL m with
  | none => none
  | some (.dial, err) => some ("erreur de connexion TLS: ".toList ++ err)
  | some (.newClient, err) => some ("erreur création client SMTP: ".toList ++ err)
  | some (.auth, err) => some ("erreur d'authentification: ".toList ++ err)
  | some (.mail, err) => some ("erreur MAIL FROM: ".toList ++ err)
  | some (.rcpt, err) => some ("erreur RCPT TO: ".toList ++ err)
  | some (.data, err) => some ("erreur DATA: ".toList ++ err)
  | some (.write, err) => some ("erreur écriture message: ".toList ++ err)
  | some (.close, err) => some ("erreur fermeture DATA: ".toList ++ err)
  | some (.quit, err) => some err

/-- The Go method `Agent.sendMessage`: the error returned (`none` for nil) and the world,
in which the message handed to the server is recorded. -/
def sendMessage (H : Host) (a : Agent) (w : World) (recipient subject body : Str) :
    Option Str × World :=
  if a.SMTPConfig.Host = [] ∨ a.SMTPConfig.Username = [] ∨ a.SMTPConfig.Password = [] then
    (some "configuration SMTP incomplète".toList, w)
  else
    let message := "From: ".toList ++ a.SMTPConfig.From ++ "\r\n".toList ++
      "To: ".toList ++ recipient ++ "\r\n".toList ++
      "Subject: ".toList ++ subject ++ "\r\n".toList ++
      "MIME-Version: 1.0\r\n".toList ++
      "Content-Type: text/plain; charset=utf-8\r\n\r\n".toList ++
      body
    let addr := a.SMTPConfig.Host ++ ":".toList ++ decimal a.SMTPConfig.Port
    let mail : Mail :=
      { addr := addr, ssl := decide (a.SMTPConfig.Port = 465)
        username := a.SMTPConfig.Username, password := a.SMTPConfig.Password
        host := a.SMTPConfig.Host, sender := a.SMTPConfig.From, recipients := [recipient]
        msg := message }
    let w := { w with mails := w.mails ++ [mail] }
    if a.SMTPConfig.Port = 465 then (sendMailSSL H mail, w)
    else (H.sendMail mail, w)

/-- The Go method `Agent.sendEmail`. -/
def sendEmail (H : Host) (a : Agent) (w : World) (recipient subject body : Str) : World :=
  if a.SMTPConfig.Host = [] ∨ a.SMTPConfig.Username = [] ∨ a.SMTPConfig.Password = [] then
    let w := w.print "\n❌ Configuration SMTP incomplète. Veuillez configurer les variables d'environnement:\n".toList
    w.print "SMTP_HOST, SMTP_USERNAME, SMTP_PASSWORD\n\n".toList
  else
    let w := w.print ("\n📧 Envoi d'email à ".toList ++ recipient ++ "...\n".toList)
    match sendMessage H a w recipient subject body with
    | (some err, w) =>
      w.print ("\n❌ Échec de l'envoi de l'email: ".toList ++ err ++ "\n\n".toList)
    | (none, w) =>
      w.print ("\n✅ Email envoyé avec succès à ".toList ++ recipient ++ "\n\n".toList)

/-- The loop of `handleEmailCommand` that looks for the end of a quoted subject: the
index of the first field, from index `i` on, that ends with a double quote. -/
def quoteEnd (i : Nat) : List Str → Option Nat
  | [] => none
  | part :: parts => if HasSuffix part "\"".toList then some i else quoteEnd (i + 1) parts

/-- The recipient, the subject and the body `handleEmailCommand` reads off the fields of
its argument, at least three of them. -/
def emailFields (parts : List Str) : Str × Str × Str :=
  let recipient := parts.getD 0 []
  if parts.length > 2 ∧ HasPrefix (parts.getD 1 []) "\"".toList = true then
    let subjectEnd := (quoteEnd 2 (parts.drop 2)).getD 2
    let subjectParts := (parts.take (subjectEnd + 1)).drop 1
    let subject := Trim (Join subjectParts " ".toList) "\"".toList
    let bodyStart := subjectEnd + 1
    let body := if bodyStart < parts.length then Join (parts.drop bodyStart) " ".toList else []
    (recipient, subject, body)
  else
    let subject := parts.getD 1 []
    let body := if parts.length > 2 then Join (parts.drop 2) " ".toList else []
    (recipient, subject, body)

/-- The Go method `Agent.handleEmailCommand`. -/
def handleEmailCommand (H : Host) (a : Agent) (w : World) (emailArgs : Str) : World :=
  let parts := Fields emailArgs
  if parts.length < 3 then
    w.print "\nUsage: email <destinataire> <sujet> <corps>\n\n".toList
  else
    let r := emailFields parts
    sendEmail H a w r.1 r.2.1 r.2.2

/-- How the handling of a command ends when it does not return. -/
inductive Stop where
  /-- The Go code panics. -/
  | panic (f : Fault)
  /-- The process ends through `os.Exit` with the given status. -/
  | exit (code : Int) (w : World)

/-- A result that may be a `Fault`, as a result that may be a `Stop`. -/
def orPanic {α : Type} (r : Except Fault α) : Except Stop α :=
  match r with
  | .ok x => .ok x
  | .error f => .error (.panic f)

/-- The Go method `Agent.handleCommand`. -/
def handleCommand (H : Host) (a : Agent) (w : World) (input : Str) :
    Except Stop (Agent × World) :=
  let lowerInput := ToLower H.lower input
  if lowerInput = "help".toList then .ok (a, showHelp w)
  else if lowerInput = "exit".toList ∨ lowerInput = "quit".toList then
    .error (.exit 0 (w.print "Arrêt de ASIONE Agent...\n".toList))
  else if lowerInput = "config".toList then
    orPanic ((showConfig a w).map fun w => (a, w))
  else if lowerInput = "yes-to-all".toList ∨ lowerInput = "oui à tout".toList then
    .ok (enableAutoConfirm a true, w.print "\n✅ Confirmation automatique activée. Toutes les commandes seront exécutées sans confirmation.\n\n".toList)
  else if lowerInput = "no-to-all".toList ∨ lowerInput = "non à tout".toList then
    .ok (enableAutoConfirm a false, w.print "\n✅ Confirmation automatique désactivée. Toutes les commandes doivent être confirmées manuellement.\n\n".toList)
  else if HasPrefix lowerInput "email ".toList then
    orPanic ((sliceFrom input 6).map fun rest => (a, handleEmailCommand H a w rest))
  else if HasPrefix lowerInput "set-api-key ".toList then
    orPanic ((sliceFrom input 12).bind fun rest => setAPIKey a w rest)
  else if HasPrefix lowerInput "set-base-url ".toList then
    orPanic ((sliceFrom input 13).bind fun rest => setBaseURL a w rest)
  else if HasPrefix lowerInput "set-model ".toList then
    orPanic ((sliceFrom input 10).bind fun rest => setModel a w rest)
  else orPanic (processTask H a w input)

end Agent

/-! ### A sample host

A concrete instance of what the program obtains from outside, on which the model is
evaluated. -/

namespace Sample

/-- A string as JSON text, for a string that needs no escaping. -/
def quote (s : Str) : Str := '"' :: (s ++ ['"'])

/-- A map of strings in the indented layout of `encoding/json`, at depth 2. -/
def encodeMetadata (m : List (Str × Str)) : Str :=
  "\x7b\n".toList ++
    ",\n".toList.intercalate
      (m.map fun b => "      ".toList ++ quote b.1 ++ ": ".toList ++ quote b.2) ++
    "\n    \x7d".toList

/-- An entry in the indented layout of `encoding/json`, at depth 1; empty metadata are
left out (`omitempty`). -/
def encodeEntry (e : memory.KnowledgeEntry) : Str :=
  "\x7b\n".toList ++
    "    \"id\": ".toList ++ quote e.ID ++ ",\n".toList ++
    "    \"timestamp\": ".toList ++ quote e.Timestamp.rfc3339Nano ++ ",\n".toList ++
    "    \"category\": ".toList ++ quote e.Category ++ ",\n".toList ++
    "    \"key\": ".toList ++ quote e.Key ++ ",\n".toList ++
    "    \"value\": ".toList ++ quote e.Value ++
    (match e.Metadata with
      | none => []
      | some [] => []
      | some (b :: m) => ",\n    \"metadata\": ".toList ++ encodeMetadata (b :: m)) ++
    "\n  \x7d".toList

/-- The map of entries in the indented layout of `encoding/json`, followed by a line
break, for strings that need no escaping. -/
def encodeEntries (m : List (Str × memory.KnowledgeEntry)) : Str :=
  match m with
  | [] => "\x7b\x7d\n".toList
  | b :: m =>
    "\x7b\n".toList ++
      ",\n".toList.intercalate
        ((b :: m).map fun b => "  ".toList ++ quote b.1 ++ ": ".toList ++ encodeEntry b.2) ++
      "\n\x7d\n".toList

/-- Nine decimal digits of a number of nanoseconds below one second. -/
def nanoDigits (n : Nat) : Str :=
  let ds := Nat.toDigits 10 n
  List.replicate (9 - ds.length) '0' ++ ds

/-- Readings of the clock within the second 2024-01-01 12:00:00 UTC: 130 ns lie between
two readings and 104 µs more between two groups of three. -/
def clock (k : Nat) : Time :=
  { stamp := "20240101120000".toList
    unixNano := 1704110400000000000 + 130 * (k : Int) + 104000 * ((k / 3 : Nat) : Int)
    rfc3339Nano :=
      if k = 0 then "2024-01-01T12:00:00Z".toList
      else "2024-01-01T12:00:00.".toList ++
        List.rdropWhile (fun c => c == '0') (nanoDigits (130 * k + 104000 * (k / 3))) ++
        "Z".toList }

/-- The float `0.25`. -/
def quarter : Float64 := { bits := 0x3FD0000000000000 }

/-- The float `-0.0`. -/
def negZero : Float64 := { bits := 0x8000000000000000 }

/-- The verb `%.2f` on the floats the samples use: `0.25`, `-0.0` and `0.0`. -/
def formatFixed2 (x : Float64) : Str :=
  if x = quarter then "0.25".toList
  else if x = negZero then "-0.00".toList
  else "0.00".toList

/-- The sample host: the clock above, the Latin-1 case mapping, children that exit with
status 0, a network that cannot be reached, a mail server that accepts everything. -/
def host : Host :=
  { lower := unicode.toLowerLatin1
    now := clock
    encodeEntries := encodeEntries
    decodeEntries := fun _ _ => .error "invalid character".toList
    run := fun _ => none
    output := fun _ => .ok "Linux 6.1.0 x86_64\n".toList
    formatFixed2 := formatFixed2
    pathJoin := fun parts => "/".toList.intercalate parts
    encodeChat := fun _ => .ok "\x7b\x7d".toList
    decodeChat := fun _ => .error "unexpected end of JSON input".toList
    decodeSearch := fun _ => .error "unexpected end of JSON input".toList
    post := fun _ _ _ => .transport "dial tcp: connection refused".toList
    get := fun _ _ => .transport "dial tcp: connection refused".toList
    sendMail := fun _ => none
    smtpSSL := fun _ => none }

/-- A host like the sample host, except that the chat endpoint answers every request
with status 503 and the search endpoint with status 429, each with a body. -/
def busyHost : Host :=
  { host with
    post := fun _ _ _ =>
      .response "503 Service Unavailable".toList 503 "engine_overloaded".toList
    get := fun _ _ => .response "429 Too Many Requests".toList 429 "quota exhausted".toList }

/-- A chat client. -/
def client : api.Client :=
  { baseURL := "https://inference.asicloud.cudos.org/v1".toList, apiKey := "ABC123".toList,
    model := "asi1-mini".toList }

/-- A search client with a key. -/
def searcher : search.WebSearcher := { apiKey := "k1".toList, engine := "google".toList }

/-- The path of the knowledge file. -/
def path : Str := "/home/user/.cline/knowledge_base.json".toList

/-- A world with no file, nothing printed, no process started, the clock never read and
no environment variable set. -/
def world : World :=
  { stdout := [], procs := [], files := fun _ => none, denied := fun _ => false, tick := 0,
    env := fun _ => none, mails := [] }

/-- An empty knowledge base over the knowledge file. -/
def kb : memory.KnowledgeBase := { entries := [], filePath := path }

/-- The agent `NewAgent` builds on the sample host in the sample world, where no search
key is configured, and the world it leaves. -/
def started : Agent × World :=
  match Agent.NewAgent host world [] with
  | .ok r => r
  | .error _ =>
    ({ APIConfig := { BaseURL := [], APIKey := [], Model := [] }
       SMTPConfig := { Host := [], Port := 0, Username := [], Password := [], From := [] }
       apiClient := none, webSearcher := none, scanner := bufio.NewScanner []
       messages := []
       knowledge := none
       systemInfo := { OSName := [], OSVersion := [], OSID := [], OSBuild := [],
                       KernelVersion := [], Architecture := [] } }, world)

/-- The started agent with a mail account configured. -/
def mailer : Agent :=
  { started.1 with
    SMTPConfig :=
      { Host := "smtp.x.org".toList, Port := 587, Username := "u".toList,
        Password := "p".toList, From := "me@x.org".toList } }

/-- The started agent with an API key and a chat client. -/
def ready : Agent :=
  { started.1 with
    APIConfig := { started.1.APIConfig with APIKey := "ABC123".toList }
    apiClient := some client }

/-- A host like the sample host, except that the search endpoint answers with one result
and the chat endpoint with one choice, which holds a command. -/
def answeringHost : Host :=
  { host with
    get := fun _ _ => .response "200 OK".toList 200 "results".toList
    decodeSearch := fun _ =>
      .ok { SearchTime := quarter, FormattedTotalResults := "1".toList
            Items := [{ Title := "Go".toList, Link := "https://go.dev".toList,
                        Snippet := "The Go language".toList }] }
    post := fun _ _ _ => .response "200 OK".toList 200 "completion".toList
    decodeChat := fun _ =>
      .ok { ID := "c1".toList, Object := "chat.completion".toList, Created := 0
            Model := "asi1-mini".toList
            Choices := [{ Index := 0
                          Message := { Role := "assistant".toList
                                       Content := "```bash\nsudo ls\n```".toList }
                          FinishReason := "stop".toList }]
            Usage := { PromptTokens := 1, CompletionTokens := 1, TotalTokens := 2 } } }

/-- The agent `ready` with a search client. -/
def searching : Agent := { ready with webSearcher := some searcher }

/-- The sample world, except that the knowledge file may not be opened for writing. -/
def lockedWorld : World := { world with denied := fun q => decide (q = path) }

/-- The sample world with a file `/etc/os-release`. -/
def linuxWorld : World :=
  { world with
    files := fun q =>
      if q = "/etc/os-release".toList then
        some "NAME=\"Arch Linux\"\nID=arch\nBUILD_ID=rolling\n".toList
      else none }

/-- The sample world with a mail account in the environment, the port 465 among its
variables. -/
def sslWorld : World :=
  { world with
    env := fun k =>
      if k = "SMTP_HOST".toList then some "smtp.x.org".toList
      else if k = "SMTP_PORT".toList then some "465".toList
      else if k = "SMTP_USERNAME".toList then some "u".toList
      else if k = "SMTP_PASSWORD".toList then some "p".toList
      else if k = "SMTP_FROM".toList then some "me@x.org".toList
      else none }

/-- A host like the sample host, except that the chat endpoint answers with status 200
and a body that decodes into a response without any choice. -/
def emptyChoicesHost : Host :=
  { host with
    post := fun _ _ _ => .response "200 OK".toList 200 "\x7b\"choices\":[]\x7d".toList
    decodeChat := fun _ =>
      .ok { ID := "c1".toList, Object := "chat.completion".toList, Created := 0
            Model := "asi1-mini".toList, Choices := []
            Usage := { PromptTokens := 1, CompletionTokens := 0, TotalTokens := 1 } } }

/-- The item of a search numbered `n`. -/
def item (n : Str) : search.SearchItem :=
  { Title := "T".toList ++ n, Link := "https://x.org/".toList ++ n,
    Snippet := "S".toList ++ n }

/-- Search results with six items. -/
def sixResults : search.SearchResults :=
  { SearchTime := quarter, FormattedTotalResults := "6".toList
    Items := [item "1".toList, item "2".toList, item "3".toList, item "4".toList,
      item "5".toList, item "6".toList] }

end Sample

/-! ### Notions used to state the properties -/

/-- An answer to a yes/no prompt is affirmative when, trimmed and lower-cased, it is
empty, `oui`, `yes` or `y`. -/
def Affirmative (lo : Char → Char) (line : Str) : Prop :=
  strings.ToLower lo (strings.TrimSpace line) = [] ∨
    strings.ToLower lo (strings.TrimSpace line) = "oui".toList ∨
    strings.ToLower lo (strings.TrimSpace line) = "yes".toList ∨
    strings.ToLower lo (strings.TrimSpace line) = "y".toList

instance (lo : Char → Char) (line : Str) : Decidable (Affirmative lo line) :=
  inferInstanceAs (Decidable (_ ∨ _ ∨ _ ∨ _))

/-- The command text holds one of the indicators of a privileged operation: `sudo`,
`/etc/`, `apt`, `yum` or `systemctl`, compared on the lower-cased text. -/
def Privileged (lo : Char → Char) (cmd : Str) : Prop :=
  strings.Contains (strings.ToLower lo cmd) "sudo".toList = true ∨
    strings.Contains (strings.ToLower lo cmd) "/etc/".toList = true ∨
    strings.Contains (strings.ToLower lo cmd) "apt".toList = true ∨
    strings.Contains (strings.ToLower lo cmd) "yum".toList = true ∨
    strings.Contains (strings.ToLower lo cmd) "systemctl".toList = true

instance (lo : Char → Char) (cmd : Str) : Decidable (Privileged lo cmd) :=
  inferInstanceAs (Decidable (_ ∨ _ ∨ _ ∨ _ ∨ _))

/-- The test of the code on a token: `len(word) > 3`, which counts the bytes of the
token, and no stop word. -/
def Kept (word : Str) : Prop :=
  3 < strings.len word ∧ word ∉ memory.stopWords

instance (word : Str) : Decidable (Kept word) :=
  inferInstanceAs (Decidable (_ ∧ _))

/-- The tokens of a text that pass the test of the code, in the order of the text: the
white-space separated fields of the lower-cased text, trimmed of their punctuation. -/
def keptTokens (lo : Char → Char) (text : Str) : List Str :=
  ((strings.Fields (strings.ToLower lo text)).map
    (fun word => strings.Trim word memory.punctuation)).filter (fun word => decide (Kept word))

/-- A token is accepted as a keyword when it is longer than 3, in characters, and is not
a stop word. -/
def Accepted (word : Str) : Prop :=
  3 < word.length ∧ word ∉ memory.stopWords

instance (word : Str) : Decidable (Accepted word) :=
  inferInstanceAs (Decidable (_ ∧ _))

/-- The accepted tokens of a text, in the order of the text: the white-space separated
fields of the lower-cased text, trimmed of their punctuation, that are accepted. -/
def acceptedTokens (lo : Char → Char) (text : Str) : List Str :=
  ((strings.Fields (strings.ToLower lo text)).map
    (fun word => strings.Trim word memory.punctuation)).filter
    (fun word => decide (Accepted word))

/-- The elements of a list in the order of their first occurrence: the head is kept and
its later occurrences are dropped. -/
def firstOccurrences : List Str → List Str
  | [] => []
  | a :: l => a :: (firstOccurrences l).filter (fun b => decide (b ≠ a))

/-- The task shows the intent of a search: lower-cased, it holds `cherche`, `recherche`
or `trouve`. -/
def SearchIntent (lo : Char → Char) (task : Str) : Prop :=
  strings.Contains (strings.ToLower lo task) "cherche".toList = true ∨
    strings.Contains (strings.ToLower lo task) "recherche".toList = true ∨
    strings.Contains (strings.ToLower lo task) "trouve".toList = true

instance (lo : Char → Char) (task : Str) : Decidable (SearchIntent lo task) :=
  inferInstanceAs (Decidable (_ ∨ _ ∨ _))

/-- The task holds a cue of recency: lower-cased, it holds `récemment`, `dernières`,
`2024` or `2025`. -/
def RecencyCue (lo : Char → Char) (task : Str) : Prop :=
  strings.Contains (strings.ToLower lo task) "récemment".toList = true ∨
    strings.Contains (strings.ToLower lo task) "dernières".toList = true ∨
    strings.Contains (strings.ToLower lo task) "2024".toList = true ∨
    strings.Contains (strings.ToLower lo task) "2025".toList = true

instance (lo : Char → Char) (task : Str) : Decidable (RecencyCue lo task) :=
  inferInstanceAs (Decidable (_ ∨ _ ∨ _ ∨ _))

/-- The confirmations that open the gate of `executeCommand`, read off the scanner: the
first answer it delivers is affirmative and, for a privileged command, so is the
second. -/
def Confirmed (lo : Char → Char) (cmd : Str) (input : bufio.Scanner) : Prop :=
  ∃ first pending, input.Scan = (some first, pending) ∧ Affirmative lo first ∧
    (Privileged lo cmd → ∃ second pending2, pending.Scan = (some second, pending2) ∧
      Affirmative lo second)

/-- The notice `executeCommand` and `performWebSearch` print when a prompt is answered by
a blank line. -/
def defaultNotice : Str := "✅ (confirmation par défaut)\n".toList

/-- An answer to a yes/no prompt that reads `oui`, `yes` or `y` once it is trimmed and
lower-cased. -/
def ExplicitYes (lo : Char → Char) (line : Str) : Prop :=
  strings.ToLower lo (strings.TrimSpace line) = "oui".toList ∨
    strings.ToLower lo (strings.TrimSpace line) = "yes".toList ∨
    strings.ToLower lo (strings.TrimSpace line) = "y".toList

instance (lo : Char → Char) (line : Str) : Decidable (ExplicitYes lo line) :=
  inferInstanceAs (Decidable (_ ∨ _ ∨ _))

/-- The world `wb` is the world `wy` with the notice of the default confirmation printed
once more, somewhere in the standard output; everything else is the same. -/
def NoticeInserted (wb wy : World) : Prop :=
  ∃ before after, wy.stdout = before ++ after ∧
    wb = { wy with stdout := before ++ defaultNotice :: after }

/-- Two outcomes of `executeCommand` with the same error and the same agent, in worlds
that differ by one notice of the default confirmation. -/
def SameButNotice (rb ry : Option Str × Agent × World) : Prop :=
  rb.1 = ry.1 ∧ rb.2.1 = ry.2.1 ∧ NoticeInserted rb.2.2 ry.2.2

/-- Two outcomes of a flow of the agent that are the same panic, or returns with the same
agent in worlds that differ by one notice of the default confirmation. -/
def SameReturnButNotice (rb ry : Except Fault (Agent × World)) : Prop :=
  match rb, ry with
  | .ok rb, .ok ry => rb.1 = ry.1 ∧ NoticeInserted rb.2 ry.2
  | .error f, .error g => f = g
  | _, _ => False

/-! ## Part II. Theorems -/

open strings

/-! ### The string layer -/

theorem len_append (x y : Str) : len (x ++ y) = len x + len y := by
  induction x with
  | nil => simp [len]
  | cons a x ih => simp [len, ih, Nat.add_assoc]

theorem dropBytes_zero (s : Str) : dropBytes s 0 = .ok s := by
  cases s <;> rfl

theorem dropBytes_cons (c : Char) (s : Str) (n : Nat) (h : c.utf8Size ≤ n) :
    dropBytes (c :: s) n = dropBytes s (n - c.utf8Size) := by
  have hp := Char.utf8Size_pos c
  obtain ⟨m, rfl⟩ : ∃ m, n = m + 1 := ⟨n - 1, by omega⟩
  simp only [dropBytes]
  rw [if_neg (by omega)]

theorem dropBytes_append (x y : Str) : dropBytes (x ++ y) (len x) = .ok y := by
  induction x with
  | nil => simp [len, dropBytes_zero]
  | cons a x ih =>
    rw [List.cons_append, dropBytes_cons _ _ _ (by simp [len])]
    simpa [len] using ih

theorem takeBytes_zero (s : Str) : takeBytes s 0 = .ok [] := by
  cases s <;> rfl

theorem takeBytes_cons (c : Char) (s : Str) (n : Nat) (h : c.utf8Size ≤ n) :
    takeBytes (c :: s) n = (takeBytes s (n - c.utf8Size)).map (c :: ·) := by
  have hp := Char.utf8Size_pos c
  obtain ⟨m, rfl⟩ : ∃ m, n = m + 1 := ⟨n - 1, by omega⟩
  simp only [takeBytes]
  rw [if_neg (by omega)]

theorem takeBytes_append (y z : Str) : takeBytes (y ++ z) (len y) = .ok y := by
  induction y with
  | nil => simp [len, takeBytes_zero]
  | cons a y ih =>
    rw [List.cons_append, takeBytes_cons _ _ _ (by simp [len])]
    have : len (a :: y) - a.utf8Size = len y := by simp [len]
    rw [this, ih]
    rfl

theorem sliceFrom_append (x y : Str) : sliceFrom (x ++ y) (len x : Int) = .ok y := by
  unfold sliceFrom
  rw [if_neg (by rw [len_append]; omega)]
  simpa using dropBytes_append x y

theorem slice_append (x y z : Str) :
    slice (x ++ y ++ z) (len x : Int) ((len x : Int) + (len y : Int)) = .ok y := by
  unfold strings.slice
  rw [if_neg (by rw [len_append, len_append]; omega)]
  have h1 : ((len x : Int)).toNat = len x := by simp
  have h2 : ((len x : Int) + (len y : Int) - (len x : Int)).toNat = len y := by omega
  rw [h1, h2, List.append_assoc, dropBytes_append]
  exact takeBytes_append y z

theorem indexOf_of_hasPrefix (s sub : Str) (h : HasPrefix s sub = true) :
    indexOf s sub = some 0 := by
  cases s with
  | nil =>
    have : sub = [] := by simpa [HasPrefix] using h
    simp [indexOf, this]
  | cons c s => simp [indexOf, h]

/-- When `sub` begins at no offset inside `pre` and begins `x`, its first occurrence in
`pre ++ x` is at `len pre`. -/
theorem indexOf_append_eq (pre x sub : Str) (hx : HasPrefix x sub = true)
    (hpre : ∀ u t, pre = u ++ t → t ≠ [] → HasPrefix (t ++ x) sub = false) :
    indexOf (pre ++ x) sub = some (len pre) := by
  induction pre with
  | nil => simpa [len] using indexOf_of_hasPrefix x sub hx
  | cons a p ih =>
    have h0 : HasPrefix (a :: p ++ x) sub = false := hpre [] (a :: p) rfl (by simp)
    have ih' := ih (fun u t hu ht => hpre (a :: u) t (by simp [hu]) ht)
    rw [List.cons_append] at h0 ⊢
    simp [indexOf, h0, ih', len, Nat.add_comm]

/-- When `sub` begins at no offset inside `pre` and does not occur in `x`, it does not
occur in `pre ++ x`. -/
theorem indexOf_append_none (pre x sub : Str) (hx : indexOf x sub = none)
    (hpre : ∀ u t, pre = u ++ t → t ≠ [] → HasPrefix (t ++ x) sub = false) :
    indexOf (pre ++ x) sub = none := by
  induction pre with
  | nil => simpa using hx
  | cons a p ih =>
    have h0 : HasPrefix (a :: p ++ x) sub = false := hpre [] (a :: p) rfl (by simp)
    have ih' := ih (fun u t hu ht => hpre (a :: u) t (by simp [hu]) ht)
    rw [List.cons_append] at h0 ⊢
    simp [indexOf, h0, ih']

theorem indexOf_isSome_of_infix (s sub : Str) (h : sub <:+: s) :
    (indexOf s sub).isSome = true := by
  induction s with
  | nil =>
    have : sub = [] := by simpa using h
    simp [indexOf, this]
  | cons c s ih =>
    rcases List.infix_cons_iff.1 h with h | h
    · have : HasPrefix (c :: s) sub = true := by simpa [HasPrefix] using h
      simp [indexOf, this]
    · by_cases hp : HasPrefix (c :: s) sub = true
      · simp [indexOf, hp]
      · have := ih h
        simp [indexOf, hp, this]

theorem Index_eq_of_indexOf {s sub : Str} {n : Nat} (h : indexOf s sub = some n) :
    Index s sub = (n : Int) := by
  simp [Index, h]

theorem Index_eq_neg_one {s sub : Str} (h : indexOf s sub = none) : Index s sub = -1 := by
  simp [Index, h]

theorem Contains_eq_false_iff (s sub : Str) :
    Contains s sub = false ↔ indexOf s sub = none := by
  unfold Contains Index
  cases indexOf s sub <;> simp

/-- A text that, followed by two backticks, holds no triple backtick: no fence begins
inside it, whatever follows a fence placed right after it. -/
theorem no_fence_start (pre : Str) (h : Contains (pre ++ "``".toList) "```".toList = false)
    (y z : Str) (u t : Str) (hut : pre = u ++ t) (ht : t ≠ []) :
    HasPrefix (t ++ ("```".toList ++ y)) ("```".toList ++ z) = false := by
  by_contra hc
  have hc' : ("```".toList ++ z) <+: (t ++ ("```".toList ++ y)) := by
    simpa [HasPrefix] using hc
  have h1 : "```".toList <+: (t ++ ("```".toList ++ y)) :=
    (List.prefix_append _ _).trans hc'
  have h2 : (t ++ "``".toList) <+: (t ++ ("```".toList ++ y)) :=
    ⟨'`' :: y, by simp⟩
  have h3 : "```".toList <+: (t ++ "``".toList) := by
    refine List.prefix_of_prefix_length_le h1 h2 ?_
    cases t with
    | nil => exact absurd rfl ht
    | cons a t => simp
  have h4 : "```".toList <:+: (pre ++ "``".toList) := by
    obtain ⟨v, hv⟩ := h3
    exact ⟨u, v, by rw [hut, List.append_assoc, hv, List.append_assoc]⟩
  have := indexOf_isSome_of_infix _ _ h4
  rw [(Contains_eq_false_iff _ _).1 h] at this
  simp at this

/-- A text that holds no triple backtick: no tagged fence begins inside it, whatever
follows a fence placed right after it.  The character after the three backticks of the
tagged fence is no backtick. -/
theorem no_tagged_fence_start (pre : Str) (h : Contains pre "```".toList = false)
    (y z : Str) (ch : Char) (hch : ch ≠ '`') (u t : Str) (hut : pre = u ++ t)
    (ht : t ≠ []) :
    HasPrefix (t ++ ("```".toList ++ y)) ("```".toList ++ ch :: z) = false := by
  cases t with
  | nil => exact absurd rfl ht
  | cons a t =>
    cases t with
    | nil =>
      simp only [HasPrefix, List.isPrefixOf, Bool.and_eq_false_imp, String.toList,
        List.cons_append, List.nil_append, beq_iff_eq]
      intro _ _ _ e
      exact absurd e hch
    | cons b t =>
      cases t with
      | nil =>
        simp only [HasPrefix, List.isPrefixOf, Bool.and_eq_false_imp, String.toList,
          List.cons_append, List.nil_append, beq_iff_eq]
        intro _ _ _ e
        exact absurd e hch
      | cons c t =>
        by_contra hc
        have hc2 : a = '`' ∧ b = '`' ∧ c = '`' := by
          simp [HasPrefix, List.isPrefixOf] at hc
          exact ⟨hc.1.symm, hc.2.1.symm, hc.2.2.1.symm⟩
        obtain ⟨rfl, rfl, rfl⟩ := hc2
        have h4 : "```".toList <:+: pre := ⟨u, t, by rw [hut]; simp⟩
        have := indexOf_isSome_of_infix _ _ h4
        rw [(Contains_eq_false_iff _ _).1 h] at this
        simp at this

/-! ### Fenced blocks -/

theorem rdropWhile_cons (p : Char → Bool) (a : Char) (l : Str) :
    List.rdropWhile p (a :: l) =
      if List.rdropWhile p l = [] then (if p a then [] else [a])
      else a :: List.rdropWhile p l := by
  unfold List.rdropWhile
  rw [List.reverse_cons, List.dropWhile_append]
  by_cases h : List.dropWhile p l.reverse = []
  · simp [h, List.dropWhile]
    split <;> simp_all
  · simp [h]

theorem rdropWhile_cons_of_neg (p : Char → Bool) (a : Char) (l : Str) (h : p a = false) :
    List.rdropWhile p (a :: l) = a :: List.rdropWhile p l := by
  rw [rdropWhile_cons]
  split <;> simp_all

theorem dropWhile_rdropWhile_comm (p : Char → Bool) (l : Str) :
    List.dropWhile p (List.rdropWhile p l) = List.rdropWhile p (List.dropWhile p l) := by
  induction l with
  | nil => simp
  | cons a l ih =>
    by_cases ha : p a = true
    · rw [List.dropWhile_cons_of_pos ha, rdropWhile_cons]
      by_cases hr : List.rdropWhile p l = []
      · rw [if_pos hr, if_pos ha, ← ih, hr]
      · rw [if_neg hr, List.dropWhile_cons_of_pos ha, ih]
    · have ha' : p a = false := by simpa using ha
      rw [List.dropWhile_cons_of_neg ha, rdropWhile_cons_of_neg p a l ha',
        List.dropWhile_cons_of_neg ha]

theorem TrimSpace_rdropWhile (l : Str) :
    TrimSpace (List.rdropWhile unicode.IsSpace l) = TrimSpace l := by
  unfold TrimSpace
  rw [dropWhile_rdropWhile_comm, List.rdropWhile_idempotent]

theorem TrimSpace_cons_of_space (a : Char) (l : Str) (h : unicode.IsSpace a = true) :
    TrimSpace (a :: l) = TrimSpace l := by
  unfold TrimSpace
  rw [List.dropWhile_cons_of_pos h]

theorem TrimSpace_cons_of_not_space (a : Char) (l : Str) (h : unicode.IsSpace a = false) :
    TrimSpace (a :: l) = a :: List.rdropWhile unicode.IsSpace l := by
  unfold TrimSpace
  rw [List.dropWhile_cons_of_neg (by simp [h]), rdropWhile_cons_of_neg _ _ _ h]

/-- What is left of a block after a trailing trim does not begin with `sh` when the
block begins with a line break. -/
theorem not_hasPrefix_sh (c : Str) :
    HasPrefix (List.rdropWhile unicode.IsSpace ('\n' :: c)) "sh".toList = false := by
  by_contra h
  have h1 : "sh".toList <+: List.rdropWhile unicode.IsSpace ('\n' :: c) := by
    simpa [HasPrefix] using h
  have h2 := h1.trans (List.rdropWhile_prefix unicode.IsSpace ('\n' :: c))
  obtain ⟨v, hv⟩ := h2
  simp at hv

/-- The four trimming steps of `extractCommandFromResponse` on a block tagged `bash`. -/
theorem trim_block_bash (c : Str) :
    TrimSpace (TrimPrefix (TrimPrefix (TrimSpace ("bash\n".toList ++ c)) "bash".toList)
      "sh".toList) = TrimSpace c := by
  have e1 : TrimSpace ("bash\n".toList ++ c) =
      'b' :: 'a' :: 's' :: 'h' :: List.rdropWhile unicode.IsSpace ('\n' :: c) := by
    show TrimSpace ('b' :: 'a' :: 's' :: 'h' :: '\n' :: c) = _
    rw [TrimSpace_cons_of_not_space _ _ (by decide),
      rdropWhile_cons_of_neg _ _ _ (by decide), rdropWhile_cons_of_neg _ _ _ (by decide),
      rdropWhile_cons_of_neg _ _ _ (by decide)]
  have e2 : TrimPrefix ('b' :: 'a' :: 's' :: 'h' ::
      List.rdropWhile unicode.IsSpace ('\n' :: c)) "bash".toList =
      List.rdropWhile unicode.IsSpace ('\n' :: c) := by
    simp [TrimPrefix, HasPrefix]
  have e3 : TrimPrefix (List.rdropWhile unicode.IsSpace ('\n' :: c)) "sh".toList =
      List.rdropWhile unicode.IsSpace ('\n' :: c) := by
    unfold TrimPrefix
    rw [not_hasPrefix_sh]
    simp
  rw [e1, e2, e3, TrimSpace_rdropWhile, TrimSpace_cons_of_space _ _ (by decide)]

/-- The four trimming steps of `extractCommandFromResponse` on a block tagged `sh`. -/
theorem trim_block_sh (c : Str) :
    TrimSpace (TrimPrefix (TrimPrefix (TrimSpace ("sh\n".toList ++ c)) "bash".toList)
      "sh".toList) = TrimSpace c := by
  have e1 : TrimSpace ("sh\n".toList ++ c) =
      's' :: 'h' :: List.rdropWhile unicode.IsSpace ('\n' :: c) := by
    show TrimSpace ('s' :: 'h' :: '\n' :: c) = _
    rw [TrimSpace_cons_of_not_space _ _ (by decide),
      rdropWhile_cons_of_neg _ _ _ (by decide)]
  have e2 : TrimPrefix ('s' :: 'h' ::
      List.rdropWhile unicode.IsSpace ('\n' :: c)) "bash".toList =
      's' :: 'h' :: List.rdropWhile unicode.IsSpace ('\n' :: c) := by
    simp [TrimPrefix, HasPrefix]
  have e3 : TrimPrefix ('s' :: 'h' ::
      List.rdropWhile unicode.IsSpace ('\n' :: c)) "sh".toList =
      List.rdropWhile unicode.IsSpace ('\n' :: c) := by
    simp [TrimPrefix, HasPrefix]
  rw [e1, e2, e3, TrimSpace_rdropWhile, TrimSpace_cons_of_space _ _ (by decide)]

/-- The first part of `extractCommandFromResponse` on a reply in which the fence found
opens a block `blk` closed by the first fence after it. -/
theorem fencedBlock_eq (pre blk post : Str)
    (hstart : Agent.fenceStart (pre ++ ("```".toList ++ (blk ++ ("```".toList ++ post)))) =
      (len pre : Int))
    (hend : indexOf (blk ++ ("```".toList ++ post)) "```".toList = some (len blk)) :
    Agent.fencedBlock (pre ++ ("```".toList ++ (blk ++ ("```".toList ++ post)))) =
      .ok (some (TrimSpace (TrimPrefix (TrimPrefix (TrimSpace blk) "bash".toList)
        "sh".toList))) := by
  have hs : (len pre : Int) + (len "```".toList : Int) = (len (pre ++ "```".toList) : Int) := by
    rw [len_append]; push_cast; rfl
  have hr : pre ++ ("```".toList ++ (blk ++ ("```".toList ++ post))) =
      (pre ++ "```".toList) ++ (blk ++ ("```".toList ++ post)) := by simp
  have hr2 : pre ++ ("```".toList ++ (blk ++ ("```".toList ++ post))) =
      (pre ++ "```".toList) ++ blk ++ ("```".toList ++ post) := by simp
  have h1 : sliceFrom (pre ++ ("```".toList ++ (blk ++ ("```".toList ++ post))))
      ((len pre : Int) + (len "```".toList : Int)) = .ok (blk ++ ("```".toList ++ post)) := by
    rw [hs, hr]; exact sliceFrom_append _ _
  have h2 : strings.slice (pre ++ ("```".toList ++ (blk ++ ("```".toList ++ post))))
      ((len pre : Int) + (len "```".toList : Int))
      ((len pre : Int) + (len "```".toList : Int) + (len blk : Int)) = .ok blk := by
    rw [hs, hr2]; exact slice_append _ _ _
  have h3 : Index (blk ++ ("```".toList ++ post)) "```".toList = (len blk : Int) :=
    Index_eq_of_indexOf hend
  unfold Agent.fencedBlock
  simp only [hstart]
  rw [if_pos (by omega), h1]
  simp only [Except.bind, h3]
  rw [if_pos (by omega), h2]

theorem indexOf_cons_of_ne (a : Char) (s sub : Str) (h : HasPrefix (a :: s) sub = false) :
    indexOf (a :: s) sub = (indexOf s sub).map (· + a.utf8Size) := by
  simp [indexOf, h]

/-- The closing fence is the first fence after a body that, followed by two backticks,
holds no triple backtick. -/
theorem indexOf_closing_fence (c post : Str)
    (hbody : Contains (c ++ "``".toList) "```".toList = false) :
    indexOf (c ++ ("```".toList ++ post)) "```".toList = some (len c) := by
  refine indexOf_append_eq c _ _ (by simp [HasPrefix]) ?_
  intro u t hut ht
  have := no_fence_start c hbody post [] u t hut ht
  simpa using this

/-- No fence tagged `bash` begins in a body that, followed by two backticks, holds no
triple backtick, when none begins at or after the closing fence. -/
theorem indexOf_bash_body (c post : Str)
    (hbody : Contains (c ++ "``".toList) "```".toList = false)
    (hclose : Contains ("```".toList ++ post) "```bash".toList = false) :
    indexOf (c ++ ("```".toList ++ post)) "```bash".toList = none := by
  refine indexOf_append_none c _ _ ((Contains_eq_false_iff _ _).1 hclose) ?_
  intro u t hut ht
  exact no_fence_start c hbody post "bash".toList u t hut ht

theorem fenceStart_bash (pre rest : Str)
    (hpre : Contains pre "```".toList = false) :
    Agent.fenceStart (pre ++ ("```".toList ++ ("bash".toList ++ rest))) = (len pre : Int) := by
  have h : indexOf (pre ++ ("```".toList ++ ("bash".toList ++ rest))) "```bash".toList =
      some (len pre) := by
    refine indexOf_append_eq pre _ _ (by simp [HasPrefix]) ?_
    intro u t hut ht
    exact no_tagged_fence_start pre hpre ("bash".toList ++ rest) "ash".toList 'b'
      (by decide) u t hut ht
  unfold Agent.fenceStart
  simp only [Index_eq_of_indexOf h]
  rw [if_neg (by omega), if_neg (by omega)]

theorem fenceStart_sh (pre c post : Str)
    (hpre : Contains pre "```".toList = false)
    (hbody : Contains (c ++ "``".toList) "```".toList = false)
    (hclose : Contains ("```".toList ++ post) "```bash".toList = false) :
    Agent.fenceStart (pre ++ ("```".toList ++ ("sh\n".toList ++ c ++ ("```".toList ++ post)))) =
      (len pre : Int) := by
  have h0 : indexOf (pre ++ ("```".toList ++ ("sh\n".toList ++ c ++ ("```".toList ++ post))))
      "```bash".toList = none := by
    refine indexOf_append_none pre _ _ ?_ ?_
    · show indexOf ('`' :: '`' :: '`' :: 's' :: 'h' :: '\n' :: (c ++ ("```".toList ++ post)))
        "```bash".toList = none
      rw [indexOf_cons_of_ne _ _ _ (by simp [HasPrefix, List.isPrefixOf]),
        indexOf_cons_of_ne _ _ _ (by simp [HasPrefix, List.isPrefixOf]),
        indexOf_cons_of_ne _ _ _ (by simp [HasPrefix, List.isPrefixOf]),
        indexOf_cons_of_ne _ _ _ (by simp [HasPrefix, List.isPrefixOf]),
        indexOf_cons_of_ne _ _ _ (by simp [HasPrefix, List.isPrefixOf]),
        indexOf_cons_of_ne _ _ _ (by simp [HasPrefix, List.isPrefixOf]),
        indexOf_bash_body c post hbody hclose]
      rfl
    · intro u t hut ht
      exact no_tagged_fence_start pre hpre _ "ash".toList 'b' (by decide) u t hut ht
  have h1 : indexOf (pre ++ ("```".toList ++ ("sh\n".toList ++ c ++ ("```".toList ++ post))))
      "```sh".toList = some (len pre) := by
    refine indexOf_append_eq pre _ _ (by simp [HasPrefix]) ?_
    intro u t hut ht
    exact no_tagged_fence_start pre hpre _ "h".toList 's' (by decide) u t hut ht
  unfold Agent.fenceStart
  have hne : ¬ ((len pre : Int) = -1) := by omega
  rw [Index_eq_neg_one h0, Index_eq_of_indexOf h1]
  simp [hne]

theorem indexOf_closing_fence_bash (c post : Str)
    (hbody : Contains (c ++ "``".toList) "```".toList = false) :
    indexOf ("bash\n".toList ++ c ++ ("```".toList ++ post)) "```".toList =
      some (len ("bash\n".toList ++ c)) := by
  show indexOf ('b' :: 'a' :: 's' :: 'h' :: '\n' :: (c ++ ("```".toList ++ post)))
    "```".toList = some (len ('b' :: 'a' :: 's' :: 'h' :: '\n' :: c))
  rw [indexOf_cons_of_ne _ _ _ (by simp [HasPrefix, List.isPrefixOf]),
    indexOf_cons_of_ne _ _ _ (by simp [HasPrefix, List.isPrefixOf]),
    indexOf_cons_of_ne _ _ _ (by simp [HasPrefix, List.isPrefixOf]),
    indexOf_cons_of_ne _ _ _ (by simp [HasPrefix, List.isPrefixOf]),
    indexOf_cons_of_ne _ _ _ (by simp [HasPrefix, List.isPrefixOf]),
    indexOf_closing_fence c post hbody]
  simp [len]
  omega

theorem indexOf_closing_fence_sh (c post : Str)
    (hbody : Contains (c ++ "``".toList) "```".toList = false) :
    indexOf ("sh\n".toList ++ c ++ ("```".toList ++ post)) "```".toList =
      some (len ("sh\n".toList ++ c)) := by
  show indexOf ('s' :: 'h' :: '\n' :: (c ++ ("```".toList ++ post)))
    "```".toList = some (len ('s' :: 'h' :: '\n' :: c))
  rw [indexOf_cons_of_ne _ _ _ (by simp [HasPrefix, List.isPrefixOf]),
    indexOf_cons_of_ne _ _ _ (by simp [HasPrefix, List.isPrefixOf]),
    indexOf_cons_of_ne _ _ _ (by simp [HasPrefix, List.isPrefixOf]),
    indexOf_closing_fence c post hbody]
  simp [len]
  omega

/-! ### Command execution -/

theorem append_singleton_ne_self {α : Type} (l : List α) (x : α) : l ++ [x] ≠ l := by
  intro h
  have := congrArg List.length h
  simp at this

theorem needsSudo_iff (lo : Char → Char) (cmd : Str) :
    Agent.needsSudo lo cmd = true ↔ Privileged lo cmd := by
  simp [Agent.needsSudo, Privileged, or_assoc]

theorem runCommand_procs (H : Host) (a : Agent) (w : World) (argv : List Str) :
    (Agent.runCommand H a w argv).2.2.procs = w.procs ++ [argv] ∧
      (Agent.runCommand H a w argv).2.1 = a := by
  unfold Agent.runCommand
  cases H.run argv <;> simp [World.print]

theorem not_affirmative_iff (lo : Char → Char) (line : Str) :
    ¬ Affirmative lo line ↔
      (ToLower lo (TrimSpace line) ≠ [] ∧ ToLower lo (TrimSpace line) ≠ "oui".toList ∧
        ToLower lo (TrimSpace line) ≠ "yes".toList ∧
        ToLower lo (TrimSpace line) ≠ "y".toList) := by
  simp [Affirmative, not_or]

/-- The outcome of `executeCommand` by cases on what the scanner delivers. -/
theorem executeCommand_cases (H : Host) (a : Agent) (w : World) (cmd : Str) :
    (a.scanner.Scan.1 = none ∧
        (Agent.executeCommand H a w cmd).1 = some Agent.errInterrupted ∧
        (Agent.executeCommand H a w cmd).2.2.procs = w.procs) ∨
    (∃ first pending, a.scanner.Scan = (some first, pending) ∧
        ¬ Affirmative H.lower first ∧
        (Agent.executeCommand H a w cmd).1 = some Agent.errCancelled ∧
        (Agent.executeCommand H a w cmd).2.2.procs = w.procs) ∨
    (∃ first pending, a.scanner.Scan = (some first, pending) ∧ pending.Scan.1 = none ∧
        Affirmative H.lower first ∧ Privileged H.lower cmd ∧
        (Agent.executeCommand H a w cmd).1 = some Agent.errInterrupted ∧
        (Agent.executeCommand H a w cmd).2.2.procs = w.procs) ∨
    (∃ first second pending pending2, a.scanner.Scan = (some first, pending) ∧
        pending.Scan = (some second, pending2) ∧
        Affirmative H.lower first ∧ Privileged H.lower cmd ∧ ¬ Affirmative H.lower second ∧
        (Agent.executeCommand H a w cmd).1 = some Agent.errCancelled ∧
        (Agent.executeCommand H a w cmd).2.2.procs = w.procs) ∨
    (∃ first second pending pending2, a.scanner.Scan = (some first, pending) ∧
        pending.Scan = (some second, pending2) ∧
        Affirmative H.lower first ∧ Privileged H.lower cmd ∧ Affirmative H.lower second ∧
        (Agent.executeCommand H a w cmd).2.2.procs =
          w.procs ++ [["sudo".toList, "-S".toList, "sh".toList, "-c".toList,
            ReplaceAll cmd "sudo ".toList []]]) ∨
    (∃ first pending, a.scanner.Scan = (some first, pending) ∧
        Affirmative H.lower first ∧ ¬ Privileged H.lower cmd ∧
        (Agent.executeCommand H a w cmd).2.2.procs =
          w.procs ++ [["sh".toList, "-c".toList, cmd]]) := by
  unfold Agent.executeCommand
  rcases hs : a.scanner.Scan with ⟨_ | first, pending⟩
  · left
    exact ⟨rfl, rfl, rfl⟩
  · right
    dsimp only
    by_cases h1 : Affirmative H.lower first
    · right
      have h1' := h1
      by_cases hp : Privileged H.lower cmd
      · have hn : Agent.needsSudo H.lower cmd = true := (needsSudo_iff _ _).2 hp
        rcases hs2 : pending.Scan with ⟨_ | second, pending2⟩
        · left
          refine ⟨first, pending, rfl, by rw [hs2], h1, hp, ?_⟩
          simp only [Affirmative] at h1'
          rcases h1' with h | h | h | h <;> simp [h, hn, World.print]
        · right
          by_cases h2 : Affirmative H.lower second
          · right; left
            refine ⟨first, second, pending, pending2, rfl, hs2, h1, hp, h2, ?_⟩
            have h2' := h2
            simp only [Affirmative] at h1' h2'
            rcases h1' with h | h | h | h <;> rcases h2' with g | g | g | g <;>
              simp [h, g, hn, World.print, (runCommand_procs _ _ _ _).1]
          · left
            refine ⟨first, second, pending, pending2, rfl, hs2, h1, hp, h2, ?_⟩
            have h2' := (not_affirmative_iff _ _).1 h2
            simp only [Affirmative] at h1'
            simp at h2'
            rcases h1' with h | h | h | h <;> simp [h, h2', hn, World.print]
      · right; right; right
        have hn : Agent.needsSudo H.lower cmd = false := by
          cases hh : Agent.needsSudo H.lower cmd
          · rfl
          · exact absurd ((needsSudo_iff _ _).1 hh) hp
        refine ⟨first, pending, rfl, h1, hp, ?_⟩
        simp only [Affirmative] at h1'
        rcases h1' with h | h | h | h <;>
          simp [h, hn, World.print, (runCommand_procs _ _ _ _).1]
    · left
      refine ⟨first, pending, rfl, h1, ?_⟩
      have h2 := (not_affirmative_iff _ _).1 h1
      simp at h2
      simp [h2, World.print]

theorem executeCommand_messages (H : Host) (a : Agent) (w : World) (cmd : Str)
    (msgs : List types.Message) :
    Agent.executeCommand H { a with messages := msgs } w cmd =
      ((Agent.executeCommand H a w cmd).1,
        { (Agent.executeCommand H a w cmd).2.1 with messages := msgs },
        (Agent.executeCommand H a w cmd).2.2) := by
  unfold Agent.executeCommand
  dsimp only
  rcases hs : a.scanner.Scan with ⟨_ | first, pending⟩
  · rfl
  · dsimp only
    rcases hs2 : pending.Scan with ⟨_ | second, pending2⟩
    · split_ifs <;> simp [Agent.runCommand] <;> split <;> simp_all
    · dsimp only
      split_ifs <;> simp [Agent.runCommand] <;> split <;> simp_all

/-- C1. Command execution gate.  Whatever the command text, the input the scanner reads
and the transcript: `executeCommand` starts a process exactly when the first answer is
affirmative and, for a command text holding a privileged indicator, the second answer is
affirmative too, and then it starts a single one; on a first answer that is not
affirmative, and on a second answer that is not affirmative for a privileged command, it
returns the cancellation error and starts nothing; the transcript plays no part, in
particular not the message that `yes-to-all` appends. -/
theorem C1_executeCommand_gate (H : Host) (a : Agent) (w : World) (cmd : Str) :
    ((Agent.executeCommand H a w cmd).2.2.procs ≠ w.procs ↔
        Confirmed H.lower cmd a.scanner) ∧
    ((Agent.executeCommand H a w cmd).2.2.procs = w.procs ∨
        ∃ argv, (Agent.executeCommand H a w cmd).2.2.procs = w.procs ++ [argv]) ∧
    (∀ first pending, a.scanner.Scan = (some first, pending) →
        ¬ Affirmative H.lower first →
        (Agent.executeCommand H a w cmd).1 = some Agent.errCancelled ∧
        (Agent.executeCommand H a w cmd).2.2.procs = w.procs) ∧
    (∀ first second pending pending2, a.scanner.Scan = (some first, pending) →
        pending.Scan = (some second, pending2) →
        Affirmative H.lower first → Privileged H.lower cmd → ¬ Affirmative H.lower second →
        (Agent.executeCommand H a w cmd).1 = some Agent.errCancelled ∧
        (Agent.executeCommand H a w cmd).2.2.procs = w.procs) ∧
    (∀ msgs : List types.Message,
        (Agent.executeCommand H { a with messages := msgs } w cmd).1 =
          (Agent.executeCommand H a w cmd).1 ∧
        (Agent.executeCommand H { a with messages := msgs } w cmd).2.2 =
          (Agent.executeCommand H a w cmd).2.2) ∧
    (∀ enabled : Bool,
        (Agent.executeCommand H (Agent.enableAutoConfirm a enabled) w cmd).1 =
          (Agent.executeCommand H a w cmd).1 ∧
        (Agent.executeCommand H (Agent.enableAutoConfirm a enabled) w cmd).2.2 =
          (Agent.executeCommand H a w cmd).2.2) := by
  have hmsg : ∀ msgs : List types.Message,
      (Agent.executeCommand H { a with messages := msgs } w cmd).1 =
        (Agent.executeCommand H a w cmd).1 ∧
      (Agent.executeCommand H { a with messages := msgs } w cmd).2.2 =
        (Agent.executeCommand H a w cmd).2.2 := by
    intro msgs
    rw [executeCommand_messages]
    exact ⟨rfl, rfl⟩
  refine ⟨?_, ?_, ?_, ?_, hmsg, ?_⟩
  · rcases executeCommand_cases H a w cmd with
      ⟨hs, -, hp⟩ | ⟨f, p, hs, hf, -, hp⟩ | ⟨f, p, hs, hs2, hf, hpr, -, hp⟩ |
      ⟨f, g, p, q, hs, hs2, hf, hpr, hg, -, hp⟩ | ⟨f, g, p, q, hs, hs2, hf, hpr, hg, hp⟩ |
      ⟨f, p, hs, hf, hpr, hp⟩
    · refine ⟨fun h => absurd hp h, ?_⟩
      rintro ⟨f, p, hf, -⟩
      rw [hf] at hs
      cases hs
    · refine ⟨fun h => absurd hp h, ?_⟩
      rintro ⟨f2, p2, hf2, ha, -⟩
      rw [hs] at hf2
      cases hf2
      exact absurd ha hf
    · refine ⟨fun h => absurd hp h, ?_⟩
      rintro ⟨f2, p2, hf2, -, hq⟩
      rw [hs] at hf2
      cases hf2
      obtain ⟨g, q, hg, -⟩ := hq hpr
      rw [hg] at hs2
      cases hs2
    · refine ⟨fun h => absurd hp h, ?_⟩
      rintro ⟨f2, p2, hf2, -, hq⟩
      rw [hs] at hf2
      cases hf2
      obtain ⟨g2, q2, hg2, hag⟩ := hq hpr
      rw [hs2] at hg2
      cases hg2
      exact absurd hag hg
    · rw [hp]
      exact ⟨fun _ => ⟨f, p, hs, hf, fun _ => ⟨g, q, hs2, hg⟩⟩,
        fun _ => append_singleton_ne_self _ _⟩
    · rw [hp]
      exact ⟨fun _ => ⟨f, p, hs, hf, fun h => absurd h hpr⟩,
        fun _ => append_singleton_ne_self _ _⟩
  · rcases executeCommand_cases H a w cmd with
      ⟨-, -, hp⟩ | ⟨f, p, -, -, -, hp⟩ | ⟨f, p, -, -, -, -, -, hp⟩ |
      ⟨f, g, p, q, -, -, -, -, -, -, hp⟩ | ⟨f, g, p, q, -, -, -, -, -, hp⟩ |
      ⟨f, p, -, -, -, hp⟩
    · exact Or.inl hp
    · exact Or.inl hp
    · exact Or.inl hp
    · exact Or.inl hp
    · exact Or.inr ⟨_, hp⟩
    · exact Or.inr ⟨_, hp⟩
  · intro first pending hs hf
    rcases executeCommand_cases H a w cmd with
      ⟨hs', -, -⟩ | ⟨f, p, hs', -, he, hp⟩ | ⟨f, p, hs', -, hf', -, -, -⟩ |
      ⟨f, g, p, q, hs', -, hf', -, -, -, -⟩ | ⟨f, g, p, q, hs', -, hf', -, -, -⟩ |
      ⟨f, p, hs', hf', -, -⟩
    · rw [hs] at hs'
      cases hs'
    · exact ⟨he, hp⟩
    all_goals
      rw [hs] at hs'
      cases hs'
      exact absurd hf' hf
  · intro first second pending pending2 hs hs2 hf hpr hg
    rcases executeCommand_cases H a w cmd with
      ⟨hs', -, -⟩ | ⟨f, p, hs', hf', -, -⟩ | ⟨f, p, hs', hs2', -, -, -, -⟩ |
      ⟨f, g, p, q, hs', hs2', -, -, -, he, hp⟩ | ⟨f, g, p, q, hs', hs2', -, -, hg', -⟩ |
      ⟨f, p, hs', -, hpr', -⟩
    · rw [hs] at hs'
      cases hs'
    · rw [hs] at hs'
      cases hs'
      exact absurd hf hf'
    · rw [hs] at hs'
      cases hs'
      rw [hs2] at hs2'
      cases hs2'
    · exact ⟨he, hp⟩
    · rw [hs] at hs'
      cases hs'
      rw [hs2] at hs2'
      cases hs2'
      exact absurd hg' hg
    · exact absurd hpr hpr'
  · intro enabled
    cases enabled
    · exact hmsg _
    · exact hmsg _

/-- C2, as amended.  Let the reply be `pre`, an opening fence tagged `bash` or `sh`, a
line break, the body `c`, a closing fence, `post`, where `pre` holds no triple backtick,
where no triple backtick begins in `c`, the closing fence counted in (`c` holds no triple
backtick and does not end with a backtick), and where, for the tag `sh`, no fence tagged
`bash` begins at the closing fence or after it.  Then `extractCommandFromResponse`
returns `c` with leading and trailing white space removed, and `true`. -/
theorem C2_tagged_fenced_block (lo : Char → Char) (pre tag c post : Str)
    (htag : tag = "bash".toList ∨ tag = "sh".toList)
    (hpre : Contains pre "```".toList = false)
    (hbody : Contains (c ++ "``".toList) "```".toList = false)
    (hclose : tag = "sh".toList →
      Contains ("```".toList ++ post) "```bash".toList = false) :
    Agent.extractCommandFromResponse lo
        (pre ++ "```".toList ++ tag ++ "\n".toList ++ c ++ "```".toList ++ post) =
      .ok (TrimSpace c, true) := by
  rcases htag with rfl | rfl
  · have hr : pre ++ "```".toList ++ "bash".toList ++ "\n".toList ++ c ++ "```".toList ++ post =
        pre ++ ("```".toList ++ (("bash\n".toList ++ c) ++ ("```".toList ++ post))) := by
      simp
    have hs := fenceStart_bash pre ("\n".toList ++ c ++ ("```".toList ++ post)) hpre
    have hs' : Agent.fenceStart
        (pre ++ ("```".toList ++ (("bash\n".toList ++ c) ++ ("```".toList ++ post)))) =
        (len pre : Int) := hs
    unfold Agent.extractCommandFromResponse
    rw [hr, fencedBlock_eq pre _ post hs' (indexOf_closing_fence_bash c post hbody),
      trim_block_bash]
    rfl
  · have hr : pre ++ "```".toList ++ "sh".toList ++ "\n".toList ++ c ++ "```".toList ++ post =
        pre ++ ("```".toList ++ (("sh\n".toList ++ c) ++ ("```".toList ++ post))) := by
      simp
    have hs := fenceStart_sh pre c post hpre hbody (hclose rfl)
    unfold Agent.extractCommandFromResponse
    rw [hr, fencedBlock_eq pre _ post hs (indexOf_closing_fence_sh c post hbody),
      trim_block_sh]
    rfl

/-- C2, the scenario of the specification: the reply made of a `bash` block holding
`ls -la` yields exactly `ls -la`. -/
theorem C2_tagged_fenced_block_witness :
    ("bash".toList = "bash".toList ∨ "bash".toList = "sh".toList) ∧
    Contains ([] : Str) "```".toList = false ∧
    Contains ("ls -la\n".toList ++ "``".toList) "```".toList = false ∧
    Agent.extractCommandFromResponse unicode.toLowerLatin1 "```bash\nls -la\n```".toList =
      .ok ("ls -la".toList, true) :=
  ⟨Or.inl rfl, by decide, by decide,
    C2_tagged_fenced_block unicode.toLowerLatin1 [] "bash".toList "ls -la\n".toList []
      (Or.inl rfl) (by decide) (by decide) (fun h => absurd h (by decide))⟩

set_option maxRecDepth 100000 in
/-- C2 fails as it is stated.  The closing fence is the first triple backtick after the
opening one, and a fence tagged `bash` is looked for before one tagged `sh`, wherever it
stands.  On the reply made of a `bash` block whose body is the command with a backtick at
its end, the closing fence is found one backtick early and the command comes back without
it; on the reply made of an `sh` block whose closing fence is followed by `bash`, that
fence is taken for the opening one and nothing is extracted.  Both bodies hold no triple
backtick. -/
theorem C2_body_ending_in_backtick :
    Agent.extractCommandFromResponse unicode.toLowerLatin1
        ("```bash\n".toList ++ "echo `date`".toList ++ "```".toList) =
      .ok ("echo `date".toList, true) ∧
    TrimSpace "echo `date`".toList = "echo `date`".toList ∧
    Contains "echo `date`".toList "```".toList = false ∧
    "echo `date".toList ≠ "echo `date`".toList ∧
    Agent.extractCommandFromResponse unicode.toLowerLatin1
        ("```sh\n".toList ++ "ls\n".toList ++ "```".toList ++ "bash".toList) =
      .ok ([], false) ∧
    Contains "ls\n".toList "```".toList = false := by
  refine ⟨by decide, by decide, by decide, by decide, by decide, by decide⟩

/-! ### Keyword extraction -/

theorem keywordStep_eq (keywords : List Str) (word : Str) :
    memory.keywordStep keywords word =
      if Kept (Trim word memory.punctuation) then
        (if Trim word memory.punctuation ∈ keywords then keywords
          else keywords ++ [Trim word memory.punctuation])
      else keywords := by
  unfold memory.keywordStep Kept
  by_cases h1 : 3 < len (Trim word memory.punctuation) <;>
    by_cases h2 : Trim word memory.punctuation ∈ memory.stopWords <;>
    by_cases h3 : Trim word memory.punctuation ∈ keywords <;>
    simp [h1, h2, h3, List.any_eq_true]

theorem firstOccurrences_subset (l : List Str) (w : Str) (h : w ∈ firstOccurrences l) :
    w ∈ l := by
  induction l with
  | nil => simp [firstOccurrences] at h
  | cons a l ih =>
    simp only [firstOccurrences, List.mem_cons, List.mem_filter] at h ⊢
    rcases h with h | h
    · exact Or.inl h
    · exact Or.inr (ih h.1)

theorem mem_firstOccurrences (l : List Str) (w : Str) (h : w ∈ l) :
    w ∈ firstOccurrences l := by
  induction l with
  | nil => simp at h
  | cons a l ih =>
    simp only [firstOccurrences, List.mem_cons, List.mem_filter]
    by_cases hw : w = a
    · exact Or.inl hw
    · rcases List.mem_cons.1 h with h | h
      · exact absurd h hw
      · exact Or.inr ⟨ih h, by simpa using hw⟩

theorem firstOccurrences_nodup (l : List Str) : (firstOccurrences l).Nodup := by
  induction l with
  | nil => simp [firstOccurrences]
  | cons a l ih =>
    simp only [firstOccurrences, List.nodup_cons, List.mem_filter]
    exact ⟨fun h => by simpa using h.2, ih.filter _⟩

/-- The loop of `extractKeywords` started on the keywords `acc`: it appends the first
occurrences of the accepted tokens that are not in `acc`. -/
theorem foldl_keywordStep (words : List Str) (acc : List Str) :
    words.foldl memory.keywordStep acc =
      acc ++ (firstOccurrences
        ((words.map (fun word => Trim word memory.punctuation)).filter
          (fun word => decide (Kept word)))).filter (fun b => decide (b ∉ acc)) := by
  induction words generalizing acc with
  | nil => simp [firstOccurrences]
  | cons w ws ih =>
    rw [List.foldl_cons, ih, keywordStep_eq]
    by_cases ha : Kept (Trim w memory.punctuation)
    · by_cases hm : Trim w memory.punctuation ∈ acc
      · simp only [ha, hm, if_true, List.map_cons, List.filter_cons, decide_True,
          firstOccurrences, not_true_eq_false, decide_False, List.filter_filter]
        congr 1
        apply List.filter_congr
        intro x _
        by_cases hx : x ∈ acc
        · simp [hx]
        · have : x ≠ Trim w memory.punctuation := fun e => hx (e ▸ hm)
          simp [hx, this]
      · simp only [ha, hm, if_true, if_false, List.map_cons, List.filter_cons, decide_True,
          firstOccurrences, not_false_eq_true, List.filter_filter, List.append_assoc,
          List.singleton_append]
        congr 2
        apply List.filter_congr
        intro x _
        by_cases hx : x ∈ acc <;> by_cases hx2 : x = Trim w memory.punctuation <;>
          simp [hx, hx2]
    · simp [ha, List.filter_cons, firstOccurrences]

theorem agent_keywordStep_eq : Agent.keywordStep = memory.keywordStep := rfl

/-- Keyword extraction emits no duplicate and keeps the order of first occurrence: for
every text, the list returned by `extractKeywords` (in `memory` and, identically, the
method of the agent) has pairwise distinct elements and is the sequence of the tokens of
the text that pass the test of the code (fields of the lower-cased text, trimmed of
punctuation, longer than 3 bytes, no stop word), each kept at its first occurrence. -/
theorem extractKeywords_first_occurrences (lo : Char → Char) (text : Str) :
    (memory.extractKeywords lo text).Nodup ∧
    memory.extractKeywords lo text = firstOccurrences (keptTokens lo text) ∧
    (∀ w, w ∈ memory.extractKeywords lo text ↔ w ∈ keptTokens lo text) ∧
    Agent.extractKeywords lo text = memory.extractKeywords lo text := by
  have h : memory.extractKeywords lo text = firstOccurrences (keptTokens lo text) := by
    unfold memory.extractKeywords keptTokens
    simp only [foldl_keywordStep, List.nil_append]
    apply List.filter_eq_self.2
    intro x _
    simp
  refine ⟨h ▸ firstOccurrences_nodup _, h, fun w => ?_, ?_⟩
  · rw [h]
    exact ⟨firstOccurrences_subset _ _, mem_firstOccurrences _ _⟩
  · unfold Agent.extractKeywords memory.extractKeywords
    rw [agent_keywordStep_eq]

/-! ### The knowledge base -/

theorem generateID_world (H : Host) (w : World) :
    (memory.generateID H w).2 = { w with tick := w.tick + 2 } := by
  simp [memory.generateID, World.timeNow]

/-- What `save` leaves in the file: the encoding when it is longer than the buffer of the
writer, nothing otherwise. -/
theorem save_file (H : Host) (kb : memory.KnowledgeBase) (w : World)
    (hok : w.denied kb.filePath = false) :
    (memory.save H kb w).1 = none ∧
    (memory.save H kb w).2.denied = w.denied ∧
    (memory.save H kb w).2.files kb.filePath =
      some (if bufio.defaultBufSize < len (H.encodeEntries kb.entries)
        then H.encodeEntries kb.entries else []) := by
  unfold memory.save os.Create
  rw [if_neg (by simp [hok])]
  refine ⟨rfl, rfl, ?_⟩
  simp only [os.write, bufio.Write, if_true, Option.getD_some, List.nil_append]
  split <;> rfl

theorem add_filePath (H : Host) (kb : memory.KnowledgeBase) (w : World)
    (category key value : Str) (metadata : Option (List (Str × Str))) :
    (memory.Add H kb w category key value metadata).1.filePath = kb.filePath := by
  simp [memory.Add]

/-- The world after `Add` is the world after `save` of the new base, started once the
clock has been read three times. -/
theorem add_world (H : Host) (kb : memory.KnowledgeBase) (w : World)
    (category key value : Str) (metadata : Option (List (Str × Str))) :
    (memory.Add H kb w category key value metadata).2 =
      (memory.save H (memory.Add H kb w category key value metadata).1
        { w with tick := w.tick + 3 }).2 := by
  simp [memory.Add, memory.generateID, World.timeNow]

/-- After `Add` the file is empty whenever the encoding of the map fits the buffer of the
writer. -/
theorem add_file_of_small_encoding (H : Host) (kb : memory.KnowledgeBase) (w : World)
    (category key value : Str) (metadata : Option (List (Str × Str)))
    (hok : w.denied kb.filePath = false)
    (hsmall : len (H.encodeEntries (memory.Add H kb w category key value metadata).1.entries) ≤
      bufio.defaultBufSize) :
    (memory.Add H kb w category key value metadata).2.files kb.filePath = some [] := by
  have h := (save_file H (memory.Add H kb w category key value metadata).1
    { w with tick := w.tick + 3 } (by rw [add_filePath]; exact hok)).2.2
  rw [add_filePath] at h
  rw [add_world, h, if_neg (by omega)]

/-- C6 fails on the code.  `Add` ends with `save`, whose buffered writer is never
flushed: whenever the encoding of the map fits the buffer of 4096 bytes, the file is left
with no byte at all when `Add` returns, while the encoding stays in the buffer. -/
theorem C6_add_leaves_file_empty (H : Host) (kb : memory.KnowledgeBase) (w : World)
    (category key value : Str) (metadata : Option (List (Str × Str)))
    (hok : w.denied kb.filePath = false)
    (hsmall : len (H.encodeEntries (memory.Add H kb w category key value metadata).1.entries) ≤
      bufio.defaultBufSize) :
    (memory.Add H kb w category key value metadata).2.files kb.filePath = some [] :=
  add_file_of_small_encoding H kb w category key value metadata hok hsmall

set_option maxRecDepth 100000 in
/-- C6 at a concrete input: a first `Add` to the empty base of the sample host.  The
encoding has 166 bytes and the file is empty afterwards. -/
theorem C6_add_leaves_file_empty_witness :
    Sample.world.denied Sample.kb.filePath = false ∧
    len (Sample.host.encodeEntries (memory.Add Sample.host Sample.kb Sample.world
      "c".toList "k".toList "v".toList none).1.entries) = 166 ∧
    (memory.Add Sample.host Sample.kb Sample.world
      "c".toList "k".toList "v".toList none).2.files Sample.kb.filePath = some [] :=
  ⟨rfl, by decide,
    C6_add_leaves_file_empty Sample.host Sample.kb Sample.world
      "c".toList "k".toList "v".toList none rfl (by decide)⟩

/-- C7 fails on the code, by the defect of C6.  After an `Add` whose encoding fits the
buffer of the writer the file is empty, and `NewKnowledgeBase` on it fails with `EOF`
instead of returning a base that holds the entry. -/
theorem C7_reload_fails_after_add (H : Host) (kb : memory.KnowledgeBase) (w : World)
    (category key value : Str) (metadata : Option (List (Str × Str)))
    (hok : w.denied kb.filePath = false)
    (hsmall : len (H.encodeEntries (memory.Add H kb w category key value metadata).1.entries) ≤
      bufio.defaultBufSize) :
    memory.NewKnowledgeBase H (memory.Add H kb w category key value metadata).2 kb.filePath =
      .error "EOF".toList := by
  have hfile := add_file_of_small_encoding H kb w category key value metadata hok hsmall
  have hden : (memory.Add H kb w category key value metadata).2.denied kb.filePath = false := by
    rw [add_world, (save_file H _ _ (by rw [add_filePath]; exact hok)).2.1]
    exact hok
  simp [memory.NewKnowledgeBase, os.Stat, memory.load, os.Open, hfile, hden]

set_option maxRecDepth 100000 in
/-- C7 at a concrete input: the base reloaded after a first `Add` on the sample host. -/
theorem C7_reload_fails_after_add_witness :
    Sample.world.denied Sample.kb.filePath = false ∧
    len (Sample.host.encodeEntries (memory.Add Sample.host Sample.kb Sample.world
      "c".toList "k".toList "v".toList none).1.entries) ≤ bufio.defaultBufSize ∧
    memory.NewKnowledgeBase Sample.host (memory.Add Sample.host Sample.kb Sample.world
      "c".toList "k".toList "v".toList none).2 Sample.kb.filePath = .error "EOF".toList :=
  ⟨rfl, by decide,
    C7_reload_fails_after_add Sample.host Sample.kb Sample.world
      "c".toList "k".toList "v".toList none rfl (by decide)⟩

theorem mapGet_isSome_any (m : List (Str × memory.KnowledgeEntry)) (k : Str)
    (old : memory.KnowledgeEntry) (h : memory.mapGet m k = some old) :
    m.any (fun b => b.1 == k) = true := by
  induction m with
  | nil => simp [memory.mapGet] at h
  | cons b m ih =>
    by_cases hb : (b.1 == k) = true
    · simp [List.any_cons, hb]
    · have hm : memory.mapGet m k = some old := by
        unfold memory.mapGet at h ⊢
        simpa [List.find?, hb] using h
      simp [List.any_cons, ih hm]

theorem mapGet_map_replace (m : List (Str × memory.KnowledgeEntry)) (k : Str)
    (v : memory.KnowledgeEntry) (h : m.any (fun b => b.1 == k) = true) :
    memory.mapGet (m.map (fun b => if (b.1 == k) = true then (k, v) else b)) k = some v := by
  induction m with
  | nil => simp at h
  | cons b m ih =>
    unfold memory.mapGet
    by_cases hb : (b.1 == k) = true
    · simp [List.find?, hb]
    · have hm : m.any (fun b => b.1 == k) = true := by
        simpa [List.any_cons, hb] using h
      have := ih hm
      unfold memory.mapGet at this
      simpa [List.find?, hb] using this

/-- C8 fails on the code.  The identifier is the second of the clock followed by one of
26 letters; when it is already bound in the map, `Add` replaces the entry bound to it:
the number of entries does not grow and the entry that was there is gone. -/
theorem C8_add_overwrites_on_collision (H : Host) (kb : memory.KnowledgeBase) (w : World)
    (category key value : Str) (metadata : Option (List (Str × Str)))
    (old : memory.KnowledgeEntry)
    (hold : memory.mapGet kb.entries (memory.generateID H w).1 = some old) :
    (memory.Add H kb w category key value metadata).1.entries.length = kb.entries.length ∧
    memory.mapGet (memory.Add H kb w category key value metadata).1.entries
        (memory.generateID H w).1 =
      some { ID := (memory.generateID H w).1, Timestamp := H.now (w.tick + 2),
             Category := category, Key := key, Value := value, Metadata := metadata } := by
  have hany := mapGet_isSome_any _ _ _ hold
  have hid : (memory.generateID H w).1 =
      (H.now w.tick).stamp ++ "-".toList ++
        [Char.ofNat (Int.tmod (H.now (w.tick + 1)).unixNano 26 + 97).toNat] := by
    simp [memory.generateID, World.timeNow]
  rw [hid] at hany hold ⊢
  constructor
  · simp only [memory.Add, memory.generateID, World.timeNow, memory.mapSet]
    rw [if_pos hany, List.length_map]
  · simp only [memory.Add, memory.generateID, World.timeNow, memory.mapSet]
    rw [if_pos hany]
    exact mapGet_map_replace _ _ _ hany

/-- When the identifier is not bound in the map yet, `Add` appends one binding and leaves
the others as they are. -/
theorem add_of_fresh_id (H : Host) (kb : memory.KnowledgeBase) (w : World)
    (category key value : Str) (metadata : Option (List (Str × Str)))
    (hfresh : kb.entries.any (fun b => b.1 == (memory.generateID H w).1) = false) :
    (memory.Add H kb w category key value metadata).1.entries =
      kb.entries ++ [((memory.generateID H w).1,
        { ID := (memory.generateID H w).1, Timestamp := H.now (w.tick + 2),
          Category := category, Key := key, Value := value, Metadata := metadata })] := by
  have hid : (memory.generateID H w).1 =
      (H.now w.tick).stamp ++ "-".toList ++
        [Char.ofNat (Int.tmod (H.now (w.tick + 1)).unixNano 26 + 97).toNat] := by
    simp [memory.generateID, World.timeNow]
  rw [hid] at hfresh ⊢
  simp only [memory.Add, memory.generateID, World.timeNow, memory.mapSet]
  rw [if_neg (by rw [hfresh]; exact Bool.false_ne_true)]

set_option maxRecDepth 100000 in
/-- C8 at a concrete input: on the sample host, a second `Add` within the same second
gets the identifier of the first; the base still holds one entry and the first entry
(key `k`) has been replaced by the second (key `k2`). -/
theorem C8_add_overwrites_on_collision_witness :
    memory.mapGet (memory.Add Sample.host Sample.kb Sample.world
        "c".toList "k".toList "v".toList none).1.entries
      (memory.generateID Sample.host (memory.Add Sample.host Sample.kb Sample.world
        "c".toList "k".toList "v".toList none).2).1 =
      some { ID := "20240101120000-i".toList, Timestamp := Sample.clock 2,
             Category := "c".toList, Key := "k".toList, Value := "v".toList,
             Metadata := none } ∧
    (memory.Add Sample.host
      (memory.Add Sample.host Sample.kb Sample.world
        "c".toList "k".toList "v".toList none).1
      (memory.Add Sample.host Sample.kb Sample.world
        "c".toList "k".toList "v".toList none).2
      "c2".toList "k2".toList "v2".toList none).1.entries.length = 1 ∧
    ((memory.Add Sample.host
      (memory.Add Sample.host Sample.kb Sample.world
        "c".toList "k".toList "v".toList none).1
      (memory.Add Sample.host Sample.kb Sample.world
        "c".toList "k".toList "v".toList none).2
      "c2".toList "k2".toList "v2".toList none).1.entries.map (fun b => b.2.Key)) =
      ["k2".toList] :=
  ⟨by decide,
    (C8_add_overwrites_on_collision Sample.host
      (memory.Add Sample.host Sample.kb Sample.world
        "c".toList "k".toList "v".toList none).1
      (memory.Add Sample.host Sample.kb Sample.world
        "c".toList "k".toList "v".toList none).2
      "c2".toList "k2".toList "v2".toList none
      { ID := "20240101120000-i".toList, Timestamp := Sample.clock 2,
        Category := "c".toList, Key := "k".toList, Value := "v".toList,
        Metadata := none } (by decide)).1,
    by decide⟩

set_option maxRecDepth 100000 in
/-- C9 fails on the code, by the defect of C8.  On the sample host an interaction with
the three keywords `bonjour`, `monde` and `salut` is learnt within one second: the three
calls of `Add` get the same identifier and the base grows by one entry, not by three. -/
theorem C9_learn_stores_one_entry_for_three_keywords :
    memory.extractKeywords Sample.host.lower
        ("bonjour monde".toList ++ " ".toList ++ "salut".toList) =
      ["bonjour".toList, "monde".toList, "salut".toList] ∧
    (memory.LearnFromInteraction Sample.host Sample.kb Sample.world
      "bonjour monde".toList "salut".toList).1.entries.map (fun b => (b.1, b.2.Key)) =
      [("20240101120000-i".toList, "salut".toList)] := by
  decide

/-! ### Command extraction on an untagged block -/

set_option maxRecDepth 100000 in
theorem fencedBlock_shutdown :
    Agent.fencedBlock "```\nshutdown now\n```".toList = .ok (some "utdown now".toList) := by
  decide

set_option maxRecDepth 100000 in
/-- C3 fails on the code.  On the reply made of an untagged block that holds
`shutdown now`, `extractCommandFromResponse` returns `utdown now`: the step that strips a
tag `sh` from the block strips the first two letters of the command. -/
theorem C3_untagged_block_command_altered (lo : Char → Char) :
    Agent.extractCommandFromResponse lo "```\nshutdown now\n```".toList =
      .ok ("utdown now".toList, true) ∧
    TrimSpace "shutdown now\n".toList = "shutdown now".toList := by
  refine ⟨?_, by decide⟩
  unfold Agent.extractCommandFromResponse
  rw [fencedBlock_shutdown]
  rfl

set_option maxRecDepth 100000 in
/-- On a reply whose block tagged `sh` is closed by a fence that `bash` follows at once,
the fence looked for first is found at the end and no command is extracted. -/
theorem extract_sh_block_closed_by_tagged_fence :
    Agent.extractCommandFromResponse unicode.toLowerLatin1 "```sh\nls\n```bash".toList =
      .ok ([], false) := by
  decide

/-- What the code does on an untagged block: the body is trimmed, then a leading `bash`
and a leading `sh` are removed from it, and the rest is trimmed again.  The reply is
`pre`, a fence, a line break, the body `c`, a fence, `post`, where no triple backtick
begins in `pre` nor in `c` and no tagged fence begins at the closing fence or after. -/
theorem untagged_fenced_block (lo : Char → Char) (pre c post : Str)
    (hpre : Contains (pre ++ "``".toList) "```".toList = false)
    (hbody : Contains (c ++ "``".toList) "```".toList = false)
    (hbash : Contains ("```".toList ++ post) "```bash".toList = false)
    (hsh : Contains ("```".toList ++ post) "```sh".toList = false) :
    Agent.extractCommandFromResponse lo
        (pre ++ "```".toList ++ "\n".toList ++ c ++ "```".toList ++ post) =
      .ok (TrimSpace (TrimPrefix (TrimPrefix (TrimSpace c) "bash".toList) "sh".toList),
        true) := by
  have hr : pre ++ "```".toList ++ "\n".toList ++ c ++ "```".toList ++ post =
      pre ++ ("```".toList ++ (("\n".toList ++ c) ++ ("```".toList ++ post))) := by
    simp
  have hsh_body : indexOf (c ++ ("```".toList ++ post)) "```sh".toList = none := by
    refine indexOf_append_none c _ _ ((Contains_eq_false_iff _ _).1 hsh) ?_
    intro u t hut ht
    exact no_fence_start c hbody post "sh".toList u t hut ht
  have h0 : indexOf (pre ++ ("```".toList ++ (("\n".toList ++ c) ++ ("```".toList ++ post))))
      "```bash".toList = none := by
    refine indexOf_append_none pre _ _ ?_ ?_
    · show indexOf ('`' :: '`' :: '`' :: '\n' :: (c ++ ("```".toList ++ post)))
        "```bash".toList = none
      rw [indexOf_cons_of_ne _ _ _ (by simp [HasPrefix, List.isPrefixOf]),
        indexOf_cons_of_ne _ _ _ (by simp [HasPrefix, List.isPrefixOf]),
        indexOf_cons_of_ne _ _ _ (by simp [HasPrefix, List.isPrefixOf]),
        indexOf_cons_of_ne _ _ _ (by simp [HasPrefix, List.isPrefixOf]),
        indexOf_bash_body c post hbody hbash]
      rfl
    · intro u t hut ht
      exact no_fence_start pre hpre _ "bash".toList u t hut ht
  have h1 : indexOf (pre ++ ("```".toList ++ (("\n".toList ++ c) ++ ("```".toList ++ post))))
      "```sh".toList = none := by
    refine indexOf_append_none pre _ _ ?_ ?_
    · show indexOf ('`' :: '`' :: '`' :: '\n' :: (c ++ ("```".toList ++ post)))
        "```sh".toList = none
      rw [indexOf_cons_of_ne _ _ _ (by simp [HasPrefix, List.isPrefixOf]),
        indexOf_cons_of_ne _ _ _ (by simp [HasPrefix, List.isPrefixOf]),
        indexOf_cons_of_ne _ _ _ (by simp [HasPrefix, List.isPrefixOf]),
        indexOf_cons_of_ne _ _ _ (by simp [HasPrefix, List.isPrefixOf]),
        hsh_body]
      rfl
    · intro u t hut ht
      exact no_fence_start pre hpre _ "sh".toList u t hut ht
  have h2 : indexOf (pre ++ ("```".toList ++ (("\n".toList ++ c) ++ ("```".toList ++ post))))
      "```".toList = some (len pre) := by
    refine indexOf_append_eq pre _ _ (by simp [HasPrefix]) ?_
    intro u t hut ht
    have := no_fence_start pre hpre (("\n".toList ++ c) ++ ("```".toList ++ post)) [] u t hut ht
    simpa using this
  have hs : Agent.fenceStart
      (pre ++ ("```".toList ++ (("\n".toList ++ c) ++ ("```".toList ++ post)))) =
      (len pre : Int) := by
    unfold Agent.fenceStart
    rw [Index_eq_neg_one h0, Index_eq_neg_one h1, Index_eq_of_indexOf h2]
    simp
  have hend : indexOf (("\n".toList ++ c) ++ ("```".toList ++ post)) "```".toList =
      some (len ("\n".toList ++ c)) := by
    show indexOf ('\n' :: (c ++ ("```".toList ++ post))) "```".toList =
      some (len ('\n' :: c))
    rw [indexOf_cons_of_ne _ _ _ (by simp [HasPrefix, List.isPrefixOf]),
      indexOf_closing_fence c post hbody]
    simp [len]
    omega
  have ht : TrimSpace ("\n".toList ++ c) = TrimSpace c :=
    TrimSpace_cons_of_space _ _ (by decide)
  unfold Agent.extractCommandFromResponse
  rw [hr, fencedBlock_eq pre _ post hs hend, ht]
  rfl

/-! ### Task routing -/

theorem C4_routing_search (H : Host) (a : Agent) (w : World) (task : Str)
    (h : SearchIntent H.lower task) :
    Agent.processTask H a w task = Agent.performWebSearch H a w task := by
  unfold Agent.processTask
  exact if_pos h

/-- C4. Task routing.  `processTask` hands the task to the web search when its
lower-cased text holds `cherche`, `recherche` or `trouve`; otherwise to the web search
when it holds `récemment`, `dernières`, `2024` or `2025` or the API key is empty;
otherwise to the AI completion.  The task `cherche la météo à Paris` goes to the web
search whatever the API key (and the rest of the agent) is. -/
theorem C4_task_routing (H : Host) (a : Agent) (w : World) (task : Str) :
    (SearchIntent H.lower task →
      Agent.processTask H a w task = Agent.performWebSearch H a w task) ∧
    (¬ SearchIntent H.lower task → (RecencyCue H.lower task ∨ a.APIConfig.APIKey = []) →
      Agent.processTask H a w task = Agent.performWebSearch H a w task) ∧
    (¬ SearchIntent H.lower task → ¬ RecencyCue H.lower task → a.APIConfig.APIKey ≠ [] →
      Agent.processTask H a w task = Agent.processWithAI H a w task) ∧
    SearchIntent unicode.toLowerLatin1 "cherche la météo à Paris".toList ∧
    Agent.processTask { H with lower := unicode.toLowerLatin1 } a w
        "cherche la météo à Paris".toList =
      Agent.performWebSearch { H with lower := unicode.toLowerLatin1 } a w
        "cherche la météo à Paris".toList := by
  have key : ∀ (H : Host) (task : Str), SearchIntent H.lower task →
      Agent.processTask H a w task = Agent.performWebSearch H a w task := by
    intro H task h
    unfold Agent.processTask
    exact if_pos h
  have hex : SearchIntent unicode.toLowerLatin1 "cherche la météo à Paris".toList := by
    decide
  refine ⟨key H task, ?_, ?_, hex, key { H with lower := unicode.toLowerLatin1 } _ hex⟩
  · intro hs hr
    unfold Agent.processTask
    refine (if_neg hs).trans ?_
    have : ((Contains (ToLower H.lower task) "récemment".toList ||
        Contains (ToLower H.lower task) "dernières".toList ||
        Contains (ToLower H.lower task) "2024".toList ||
        Contains (ToLower H.lower task) "2025".toList) = true ∨ a.APIConfig.APIKey = []) := by
      rcases hr with hr | hr
      · left
        simpa [RecencyCue, or_assoc] using hr
      · exact Or.inr hr
    simp only [this, if_true]
  · intro hs hr hk
    unfold Agent.processTask
    refine (if_neg hs).trans ?_
    have : ¬ ((Contains (ToLower H.lower task) "récemment".toList ||
        Contains (ToLower H.lower task) "dernières".toList ||
        Contains (ToLower H.lower task) "2024".toList ||
        Contains (ToLower H.lower task) "2025".toList) = true ∨ a.APIConfig.APIKey = []) := by
      rintro (h | h)
      · exact hr (by simpa [RecencyCue, or_assoc] using h)
      · exact hk h
    simp only [this, if_false]

/-! ### The web search without a search key -/

theorem detectSystemInfo_env (H : Host) (w : World) :
    (Agent.detectSystemInfo H w).2.env = w.env := by
  unfold Agent.detectSystemInfo
  split
  · rfl
  · split
    · rfl
    · dsimp only
      split <;> rfl

theorem initKnowledge_searcher (H : Host) (a : Agent) (w : World) :
    (Agent.initKnowledge H a w).1.webSearcher = a.webSearcher ∧
    (Agent.initKnowledge H a w).2.env = w.env := by
  unfold Agent.initKnowledge
  dsimp only
  split
  · exact ⟨rfl, rfl⟩
  · split <;> exact ⟨rfl, rfl⟩

theorem print_env (w : World) (chunk : Str) : (w.print chunk).env = w.env := rfl

theorem getenv_congr (w w2 : World) (h : w.env = w2.env) (k : Str) :
    os.Getenv w k = os.Getenv w2 k := by
  simp [os.Getenv, h]

/-- The searcher of the agent `NewAgent` builds: none when the variable `SEARCH_API_KEY`
is empty or not set. -/
theorem newAgent_searcher (H : Host) (w w' : World) (stdin : List Str) (a : Agent)
    (hnew : Agent.NewAgent H w stdin = .ok (a, w')) :
    a.webSearcher =
      if os.Getenv w' "SEARCH_API_KEY".toList ≠ [] then
        some (search.NewWebSearcher (os.Getenv w' "SEARCH_API_KEY".toList) "google".toList)
      else none := by
  unfold Agent.NewAgent at hnew
  cases hl : Agent.loadEnvFile w with
  | error f => rw [hl] at hnew; cases hnew
  | ok w1 =>
    rw [hl] at hnew
    simp only [Except.bind] at hnew
    injection hnew with hnew
    have ha := congrArg Prod.fst hnew
    have hw := congrArg Prod.snd hnew
    simp only at ha hw
    have he : w'.env = w1.env := by
      rw [← hw, (initKnowledge_searcher _ _ _).2]
      simp only [apply_ite World.env, print_env, detectSystemInfo_env, ite_self]
    have h3 : ∀ x y : Str, os.Getenv (((Agent.detectSystemInfo H w1).2.print x).print y)
        "SEARCH_API_KEY".toList = os.Getenv w' "SEARCH_API_KEY".toList := fun x y =>
      getenv_congr _ _ (by rw [he, print_env, print_env, detectSystemInfo_env]) _
    rw [← ha, (initKnowledge_searcher _ _ _).1]
    simp only [h3, apply_ite Agent.webSearcher]

/-- C5 fails on the code.  When no search key is configured, `NewAgent` leaves the
searcher nil, and `performWebSearch` calls `Search` on that nil searcher: the first read
of a field panics, for every task, instead of reporting a configuration error.  `Search`
itself, on a searcher with an empty key, does return the configuration error. -/
theorem C5_search_without_key_panics (H : Host) (w w' : World) (stdin : List Str)
    (a : Agent) (hnew : Agent.NewAgent H w stdin = .ok (a, w'))
    (hkey : os.Getenv w' "SEARCH_API_KEY".toList = []) :
    a.webSearcher = none ∧
    (∀ (w2 : World) (task : Str),
      Agent.performWebSearch H a w2 task = .error .nilDereference) ∧
    (∀ (w2 : World) (task : Str), SearchIntent H.lower task →
      Agent.processTask H a w2 task = .error .nilDereference) ∧
    (∀ (ws : search.WebSearcher) (query : Str), ws.apiKey = [] →
      search.Search H (some ws) query =
        .ok (.error "clé API de recherche non configurée".toList)) := by
  have hs : a.webSearcher = none := by
    rw [newAgent_searcher H w w' stdin a hnew, hkey]
    rfl
  have hp : ∀ (w2 : World) (task : Str),
      Agent.performWebSearch H a w2 task = .error .nilDereference := by
    intro w2 task
    unfold Agent.performWebSearch
    rw [hs]
    rfl
  refine ⟨hs, hp, ?_, ?_⟩
  · intro w2 task h
    rw [(C4_routing_search H a w2 task h), hp]
  · intro ws query h
    unfold search.Search
    simp [h]

set_option maxRecDepth 100000 in
/-- C5 at a concrete input: the agent started on the sample host, where no search key is
configured, and the task `cherche la météo à Paris`. -/
theorem C5_search_without_key_panics_witness :
    Agent.NewAgent Sample.host Sample.world [] = .ok (Sample.started.1, Sample.started.2) ∧
    os.Getenv Sample.started.2 "SEARCH_API_KEY".toList = [] ∧
    Agent.processTask Sample.host Sample.started.1 Sample.started.2
      "cherche la météo à Paris".toList = .error .nilDereference :=
  ⟨rfl, by decide,
    (C5_search_without_key_panics Sample.host Sample.world Sample.started.2 []
      Sample.started.1 rfl (by decide)).2.2.1 Sample.started.2
      "cherche la météo à Paris".toList (by decide)⟩

/-! ### Length of the keywords -/

/-- Every keyword passes the test of the code: it is longer than 3 bytes and is no stop
word. -/
theorem extractKeywords_accepted (lo : Char → Char) (text w : Str)
    (h : w ∈ memory.extractKeywords lo text) : 3 < len w ∧ w ∉ memory.stopWords := by
  have h1 : memory.extractKeywords lo text = firstOccurrences (keptTokens lo text) := by
    unfold memory.extractKeywords keptTokens
    simp only [foldl_keywordStep, List.nil_append]
    apply List.filter_eq_self.2
    intro x _
    simp
  rw [h1] at h
  have h2 := firstOccurrences_subset _ _ h
  unfold keptTokens at h2
  have h3 := (List.mem_filter.1 h2).2
  simpa [Kept] using h3

set_option maxRecDepth 100000 in
/-- C11 fails on the code.  The test `len(word) > 3` counts bytes: on the text `été` both
copies of `extractKeywords` return the keyword `été`, which has 5 bytes and 3 characters,
not more than 3. -/
theorem C11_keyword_of_three_characters :
    memory.extractKeywords unicode.toLowerLatin1 "été".toList = ["été".toList] ∧
    Agent.extractKeywords unicode.toLowerLatin1 "été".toList = ["été".toList] ∧
    "été".toList.length = 3 ∧ len "été".toList = 5 := by
  decide

/-! ### The clients on a status other than 200 -/

/-- C12. Chat client on a status other than 200.  When the request is encoded and the
server answers with a status code other than 200, whatever the body, `ChatCompletion`
returns no response but an error whose text holds the decimal status code and the whole
body. -/
theorem C12_chat_non200 (H : Host) (w : World) (c : api.Client)
    (messages : List types.Message) (jsonBody status body : Str) (code : Int)
    (henc : H.encodeChat (api.requestBody w c messages) = .ok jsonBody)
    (hpost : H.post (c.baseURL ++ "/chat/completions".toList) c.apiKey jsonBody =
      .response status code body)
    (hcode : code ≠ 200) :
    ∃ err, api.ChatCompletion H w (some c) messages = .ok (.error err) ∧
      decimal code <:+: err ∧ body <:+: err ∧
      Contains err (decimal code) = true ∧ Contains err body = true := by
  refine ⟨"erreur API: ".toList ++ status ++ " (code: ".toList ++ decimal code ++
    ") - ".toList ++ body, ?_, ?_, ?_, ?_, ?_⟩
  · unfold api.ChatCompletion
    simp only [henc, hpost]
    rw [if_pos hcode]
  · exact ⟨"erreur API: ".toList ++ status ++ " (code: ".toList, ") - ".toList ++ body,
      by simp⟩
  · exact ⟨"erreur API: ".toList ++ status ++ " (code: ".toList ++ decimal code ++
      ") - ".toList, [], by simp⟩
  · have h : decimal code <:+: "erreur API: ".toList ++ status ++ " (code: ".toList ++
        decimal code ++ ") - ".toList ++ body :=
      ⟨"erreur API: ".toList ++ status ++ " (code: ".toList, ") - ".toList ++ body,
        by simp⟩
    have := indexOf_isSome_of_infix _ _ h
    unfold Contains Index
    cases hi : indexOf ("erreur API: ".toList ++ status ++ " (code: ".toList ++
        decimal code ++ ") - ".toList ++ body) (decimal code) with
    | none => rw [hi] at this; simp at this
    | some n => simp
  · have h : body <:+: "erreur API: ".toList ++ status ++ " (code: ".toList ++
        decimal code ++ ") - ".toList ++ body :=
      ⟨"erreur API: ".toList ++ status ++ " (code: ".toList ++ decimal code ++
        ") - ".toList, [], by simp⟩
    have := indexOf_isSome_of_infix _ _ h
    unfold Contains Index
    cases hi : indexOf ("erreur API: ".toList ++ status ++ " (code: ".toList ++
        decimal code ++ ") - ".toList ++ body) body with
    | none => rw [hi] at this; simp at this
    | some n => simp

set_option maxRecDepth 100000 in
/-- C12 at a concrete input: the chat endpoint answers 503 with the body
`engine_overloaded`. -/
theorem C12_chat_non200_witness :
    Sample.busyHost.encodeChat (api.requestBody Sample.world Sample.client []) =
      .ok "\x7b\x7d".toList ∧
    (503 : Int) ≠ 200 ∧
    ∃ err, api.ChatCompletion Sample.busyHost Sample.world (some Sample.client) [] =
        .ok (.error err) ∧
      decimal 503 <:+: err ∧ "engine_overloaded".toList <:+: err ∧
      Contains err (decimal 503) = true ∧ Contains err "engine_overloaded".toList = true :=
  ⟨rfl, by decide,
    C12_chat_non200 Sample.busyHost Sample.world Sample.client [] "\x7b\x7d".toList
      "503 Service Unavailable".toList "engine_overloaded".toList 503 rfl rfl (by decide)⟩

/-- The error of `Search` on a status other than 200: the status line and the status
code; the body plays no part in it. -/
theorem search_non200 (H : Host) (ws : search.WebSearcher) (query status body : Str)
    (code : Int) (hkey : ws.apiKey ≠ [])
    (hget : H.get "https://serpapi.com/search".toList
      [("q".toList, query), ("api_key".toList, ws.apiKey), ("engine".toList, ws.engine),
        ("num".toList, "10".toList)] = .response status code body)
    (hcode : code ≠ 200) :
    search.Search H (some ws) query =
      .ok (.error ("erreur de recherche: ".toList ++ status ++ " (code: ".toList ++
        decimal code ++ ")".toList)) := by
  unfold search.Search
  simp only [hkey, if_false, hget]
  rw [if_pos hcode]

set_option maxRecDepth 100000 in
/-- C13 fails on the code.  On the search endpoint answering 429 with the body
`quota exhausted`, `Search` returns the error
`erreur de recherche: 429 Too Many Requests (code: 429)`: it holds the status code but not
the body, which the chat client does put in its error. -/
theorem C13_search_error_lacks_body :
    search.Search Sample.busyHost (some Sample.searcher) "golang".toList =
      .ok (.error "erreur de recherche: 429 Too Many Requests (code: 429)".toList) ∧
    Contains "erreur de recherche: 429 Too Many Requests (code: 429)".toList
      (decimal 429) = true ∧
    Contains "erreur de recherche: 429 Too Many Requests (code: 429)".toList
      "quota exhausted".toList = false := by
  decide

/-! ### Masking of the API key -/

theorem len_of_ascii (s : Str) (h : ∀ c ∈ s, c.utf8Size = 1) : len s = s.length := by
  induction s with
  | nil => rfl
  | cons a s ih =>
    simp only [len, List.length_cons]
    rw [h a (by simp), ih (fun c hc => h c (by simp [hc]))]
    omega

/-- On a string of one-byte runes `maskString` is the fixed mask up to 8 runes, and the
first 4 runes, three dots and the last 4 runes beyond. -/
theorem maskString_ascii (s : Str) (h : ∀ c ∈ s, c.utf8Size = 1) :
    Agent.maskString s =
      .ok (if s.length ≤ 8 then "********".toList
        else s.take 4 ++ "...".toList ++ s.drop (s.length - 4)) := by
  unfold Agent.maskString
  rw [len_of_ascii s h]
  by_cases hl : s.length ≤ 8
  · rw [if_pos hl, if_pos hl]
  · rw [if_neg hl, if_neg hl]
    have h4 : len (s.take 4) = 4 := by
      rw [len_of_ascii _ (fun c hc => h c (List.mem_of_mem_take hc)), List.length_take]
      omega
    have hd : len (s.take (s.length - 4)) = s.length - 4 := by
      rw [len_of_ascii _ (fun c hc => h c (List.mem_of_mem_take hc)), List.length_take]
      omega
    have e1 : strings.slice s 0 4 = .ok (s.take 4) := by
      have := slice_append [] (s.take 4) (s.drop 4)
      rw [h4] at this
      simpa [len] using this
    have e2 : sliceFrom s ((s.length : Int) - 4) = .ok (s.drop (s.length - 4)) := by
      have := sliceFrom_append (s.take (s.length - 4)) (s.drop (s.length - 4))
      rw [hd, List.take_append_drop] at this
      have hc : ((s.length - 4 : Nat) : Int) = (s.length : Int) - 4 := by omega
      rw [hc] at this
      exact this
    rw [e1, e2]
    rfl

set_option maxRecDepth 100000 in
/-- C14 fails on the code.  The length and the slices of `maskString` count bytes: the
key `ééééé` has 5 characters, at most 8, yet its 10 bytes are more than 8 and the mask
printed is `éé...éé`, its first two and last two characters, not the fixed `********`. -/
theorem C14_mask_counts_bytes :
    Agent.maskString "ééééé".toList = .ok "éé...éé".toList ∧
    "ééééé".toList.length = 5 ∧ len "ééééé".toList = 10 := by
  decide

set_option maxRecDepth 100000 in
/-- The scenario of the specification: after `set-api-key ABC123` the command `config`
prints the fixed mask. -/
theorem config_after_set_api_key :
    ∃ a w a2 w2,
      Agent.handleCommand Sample.host { Sample.started.1 with apiClient := some Sample.client }
        Sample.world "set-api-key ABC123".toList = .ok (a, w) ∧
      Agent.handleCommand Sample.host a w "config".toList = .ok (a2, w2) ∧
      a.APIConfig.APIKey = "ABC123".toList ∧
      "  API Key: ********\n".toList ∈ w2.stdout := by
  refine ⟨_, _, _, _, rfl, rfl, ?_, ?_⟩
  · decide
  · decide

/-! ### Lookups in the knowledge base -/

theorem infix_of_indexOf (s sub : Str) (n : Nat) (h : indexOf s sub = some n) :
    sub <:+: s := by
  induction s generalizing n with
  | nil =>
    by_cases hs : sub = []
    · simp [hs]
    · simp [indexOf, hs] at h
  | cons c s ih =>
    by_cases hp : HasPrefix (c :: s) sub = true
    · have : sub <+: c :: s := by simpa [HasPrefix] using hp
      exact this.isInfix
    · cases hi : indexOf s sub with
      | none => simp [indexOf, hp, hi] at h
      | some m => exact List.infix_cons (ih m hi)

/-- The function `strings.Contains` decides whether `sub` is a substring of `s`. -/
theorem Contains_iff_substring (s sub : Str) : Contains s sub = true ↔ sub <:+: s := by
  constructor
  · intro h
    cases hi : indexOf s sub with
    | none =>
      have := (Contains_eq_false_iff s sub).2 hi
      rw [h] at this
      cases this
    | some n => exact infix_of_indexOf s sub n hi
  · intro h
    have := indexOf_isSome_of_infix s sub h
    cases hi : indexOf s sub with
    | none => simp [hi] at this
    | some n => simp [Contains, Index, hi]

/-- A loop that appends the image of the elements passing a test is the filter. -/
theorem foldl_append_filter {α β : Type} (p : α → Bool) (f : α → β) (l : List α)
    (acc : List β) :
    l.foldl (fun results b => if p b = true then results ++ [f b] else results) acc =
      acc ++ (l.filter p).map f := by
  induction l generalizing acc with
  | nil => simp
  | cons a l ih =>
    rw [List.foldl_cons, ih]
    by_cases h : p a = true
    · simp [h]
    · simp [h]

theorem getAll_eq (kb : memory.KnowledgeBase) :
    memory.GetAll kb = kb.entries.map Prod.snd := by
  have := foldl_append_filter (fun _ => true) Prod.snd kb.entries []
  simpa [memory.GetAll] using this

theorem getByKey_eq (kb : memory.KnowledgeBase) (key : Str) :
    memory.GetByKey kb key =
      (kb.entries.map Prod.snd).filter (fun e => decide (e.Key = key)) := by
  have := foldl_append_filter (fun b : Str × memory.KnowledgeEntry => decide (b.2.Key = key))
    Prod.snd kb.entries []
  simp only [decide_eq_true_eq, List.nil_append] at this
  rw [memory.GetByKey, this, List.filter_map]
  rfl

theorem getByCategory_eq (kb : memory.KnowledgeBase) (category : Str) :
    memory.GetByCategory kb category =
      (kb.entries.map Prod.snd).filter (fun e => decide (e.Category = category)) := by
  have := foldl_append_filter
    (fun b : Str × memory.KnowledgeEntry => decide (b.2.Category = category))
    Prod.snd kb.entries []
  simp only [decide_eq_true_eq, List.nil_append] at this
  rw [memory.GetByCategory, this, List.filter_map]
  rfl

theorem searchKnowledge_eq (lo : Char → Char) (kb : memory.KnowledgeBase) (query : Str) :
    memory.SearchKnowledge lo kb query =
      (kb.entries.map Prod.snd).filter (fun e =>
        Contains (ToLower lo e.Value) (ToLower lo query) ||
          Contains (ToLower lo e.Key) (ToLower lo query)) := by
  have := foldl_append_filter (fun e : memory.KnowledgeEntry =>
      Contains (ToLower lo e.Value) (ToLower lo query) ||
        Contains (ToLower lo e.Key) (ToLower lo query)) id (memory.GetAll kb) []
  simp only [id, List.nil_append, List.map_id_fun] at this
  rw [memory.SearchKnowledge, this, getAll_eq]

/-- C16.  `SearchKnowledge` is the case-insensitive substring filter: its result is the
list of the stored entries, each as often as it is stored and in the order of the store,
for which the lower-cased query is a substring of the lower-cased key or of the
lower-cased value; the empty query returns every stored entry; and two queries with the
same lower-casing have the same result. -/
theorem C16_searchKnowledge_filter (lo : Char → Char) (kb : memory.KnowledgeBase)
    (query : Str) :
    memory.SearchKnowledge lo kb query =
        (kb.entries.map Prod.snd).filter (fun e =>
          decide (ToLower lo query <:+: ToLower lo e.Key ∨
            ToLower lo query <:+: ToLower lo e.Value)) ∧
      (∀ e, e ∈ memory.SearchKnowledge lo kb query ↔
        e ∈ kb.entries.map Prod.snd ∧
          (ToLower lo query <:+: ToLower lo e.Key ∨
            ToLower lo query <:+: ToLower lo e.Value)) ∧
      memory.SearchKnowledge lo kb [] = kb.entries.map Prod.snd ∧
      (∀ other, ToLower lo other = ToLower lo query →
        memory.SearchKnowledge lo kb other = memory.SearchKnowledge lo kb query) := by
  have hfilter : memory.SearchKnowledge lo kb query =
      (kb.entries.map Prod.snd).filter (fun e =>
        decide (ToLower lo query <:+: ToLower lo e.Key ∨
          ToLower lo query <:+: ToLower lo e.Value)) := by
    rw [searchKnowledge_eq]
    apply List.filter_congr
    intro e _
    rw [Bool.eq_iff_iff]
    simp only [Bool.or_eq_true, Contains_iff_substring, decide_eq_true_eq]
    exact Or.comm
  refine ⟨hfilter, ?_, ?_, ?_⟩
  · intro e
    rw [hfilter, List.mem_filter, decide_eq_true_eq]
  · rw [searchKnowledge_eq]
    have : ∀ x : Str, Contains x (ToLower lo []) = true := fun x =>
      (Contains_iff_substring x _).2 (by simp [ToLower])
    simp [this]
  · intro other h
    rw [searchKnowledge_eq, searchKnowledge_eq, h]

/-- C17.  The lookups of the store are exact filters: `GetAll` returns the stored
entries, each once, so as many as the store has bindings; `GetByKey` returns the stored
entries whose key is the one asked, `GetByCategory` those whose category is the one
asked; and when the store is ranged over in another order the three results are
permutations of these.  The three functions return a list only: the store is not among
their results. -/
theorem C17_store_lookups (kb : memory.KnowledgeBase) (key category : Str) :
    memory.GetAll kb = kb.entries.map Prod.snd ∧
      (memory.GetAll kb).length = kb.entries.length ∧
      memory.GetByKey kb key =
        (kb.entries.map Prod.snd).filter (fun e => decide (e.Key = key)) ∧
      memory.GetByCategory kb category =
        (kb.entries.map Prod.snd).filter (fun e => decide (e.Category = category)) ∧
      (∀ other : memory.KnowledgeBase, other.entries.Perm kb.entries →
        (memory.GetAll other).Perm (memory.GetAll kb) ∧
        (memory.GetByKey other key).Perm (memory.GetByKey kb key) ∧
        (memory.GetByCategory other category).Perm (memory.GetByCategory kb category)) := by
  refine ⟨getAll_eq kb, ?_, getByKey_eq kb key, getByCategory_eq kb category, ?_⟩
  · rw [getAll_eq, List.length_map]
  · intro other h
    rw [getAll_eq, getAll_eq, getByKey_eq, getByKey_eq, getByCategory_eq, getByCategory_eq]
    exact ⟨h.map _, (h.map _).filter _, (h.map _).filter _⟩

/-! ### Formatting of the search results -/

theorem take_five_eq_nil {α : Type} (l : List α) : l.take 5 = [] ↔ l = [] := by
  cases l <;> simp

set_option maxRecDepth 100000 in
/-- The text of `FormatSearchResults` on six items: the header, then the blocks of the
first five items, numbered from 1, each with its title, its snippet and its link. -/
theorem format_six_results :
    search.FormatSearchResults Sample.host (some Sample.sixResults) =
      "Résultats de recherche:\nTemps de recherche: 0.25 secondes\n".toList ++
        "Résultats totaux: 6\n\n".toList ++
        "1. T1\n   S1\n   [https://x.org/1]\n\n".toList ++
        "2. T2\n   S2\n   [https://x.org/2]\n\n".toList ++
        "3. T3\n   S3\n   [https://x.org/3]\n\n".toList ++
        "4. T4\n   S4\n   [https://x.org/4]\n\n".toList ++
        "5. T5\n   S5\n   [https://x.org/5]\n\n".toList := by
  decide

/-- C18.  `FormatSearchResults` renders the first five items only: on the nil result and
on a result without items it returns the fixed sentence, whatever the other fields; on a
result with `n > 0` items it returns the header followed by `min n 5` blocks, the block of
index `i` being the number `i + 1`, a dot and the title of the item of index `i` on one
line, its snippet on the next, its link between square brackets on the third, and an
empty line; and two results with the same search time, the same total and the same first
five items are formatted alike. -/
theorem C18_format_first_five (H : Host) :
    search.FormatSearchResults H none =
        "Aucun résultat trouvé pour cette recherche.".toList ∧
      (∀ r : search.SearchResults, r.Items = [] →
        search.FormatSearchResults H (some r) =
          "Aucun résultat trouvé pour cette recherche.".toList) ∧
      (∀ r : search.SearchResults, r.Items ≠ [] →
        ∃ blocks : List Str,
          blocks.length = min r.Items.length 5 ∧
          (∀ i (hb : i < blocks.length) (hi : i < r.Items.length),
            blocks.get ⟨i, hb⟩ =
              decimal (i + 1) ++ ". ".toList ++ (r.Items.get ⟨i, hi⟩).Title ++
                "\n".toList ++
                "   ".toList ++ (r.Items.get ⟨i, hi⟩).Snippet ++ "\n".toList ++
                "   [".toList ++ (r.Items.get ⟨i, hi⟩).Link ++ "]\n\n".toList) ∧
          search.FormatSearchResults H (some r) =
            "Résultats de recherche:\n".toList ++
              ("Temps de recherche: ".toList ++ H.formatFixed2 r.SearchTime ++
                " secondes\n".toList) ++
              ("Résultats totaux: ".toList ++ r.FormattedTotalResults ++ "\n\n".toList) ++
              blocks.foldl (· ++ ·) []) ∧
      (∀ r r2 : search.SearchResults, r.SearchTime = r2.SearchTime →
        r.FormattedTotalResults = r2.FormattedTotalResults →
        r.Items.take 5 = r2.Items.take 5 →
        search.FormatSearchResults H (some r) = search.FormatSearchResults H (some r2)) ∧
      decimal 1 = "1".toList ∧ decimal 5 = "5".toList := by
  refine ⟨rfl, ?_, ?_, ?_, by decide, by decide⟩
  · intro r h
    unfold search.FormatSearchResults
    exact if_pos (by rw [h]; rfl)
  · intro r h
    refine ⟨(r.Items.take 5).enum.map fun p => search.formatItem p.1 p.2, ?_, ?_, ?_⟩
    · rw [List.length_map, List.enum_length, List.length_take, Nat.min_comm]
    · intro i hb hi
      simp only [List.get_eq_getElem, List.getElem_map, List.getElem_enum,
        List.getElem_take, search.formatItem]
    · unfold search.FormatSearchResults
      exact if_neg (by simpa using h)
  · intro r r2 ht hf hi
    unfold search.FormatSearchResults
    have he : r.Items.length = 0 ↔ r2.Items.length = 0 := by
      rw [List.length_eq_zero, List.length_eq_zero, ← take_five_eq_nil r.Items,
        ← take_five_eq_nil r2.Items, hi]
    by_cases h0 : r.Items.length = 0
    · exact (if_pos h0).trans (if_pos (he.1 h0)).symm
    · refine (if_neg h0).trans (Eq.trans ?_ (if_neg (fun h => h0 (he.2 h))).symm)
      rw [ht, hf, hi]

/-! ### The arguments of the command `email` -/

/-- With fewer than three fields `handleEmailCommand` prints the usage and hands no
message to a server. -/
theorem handleEmailCommand_short (H : Host) (a : Agent) (w : World) (emailArgs : Str)
    (h : (Fields emailArgs).length < 3) :
    Agent.handleEmailCommand H a w emailArgs =
        w.print "\nUsage: email <destinataire> <sujet> <corps>\n\n".toList ∧
      (Agent.handleEmailCommand H a w emailArgs).mails = w.mails := by
  have e : Agent.handleEmailCommand H a w emailArgs =
      w.print "\nUsage: email <destinataire> <sujet> <corps>\n\n".toList := by
    unfold Agent.handleEmailCommand
    exact if_pos h
  exact ⟨e, by rw [e]; rfl⟩

/-- With a subject that does not begin with a double quote, the subject is the second
field and the body is the remaining fields joined by one space. -/
theorem emailFields_unquoted (t subject b : Str) (bs : List Str)
    (h : HasPrefix subject "\"".toList = false) :
    Agent.emailFields (t :: subject :: b :: bs) =
      (t, subject, Join (b :: bs) " ".toList) := by
  have h2 : HasPrefix subject ['"'] = false := h
  unfold Agent.emailFields
  simp [h2]

set_option maxRecDepth 100000 in
/-- C19 fails on the code for a quoted subject of one word.  The search for the field
that closes the quote starts at the third field, after the subject: on
`bob@x.org "Hello" see you` the subject sent is `Hello" see` and the body is `you`, where
the subject `Hello` and the body `see you` are claimed.  A quoted subject of two words is
read as claimed. -/
theorem C19_one_word_quoted_subject :
    Fields "bob@x.org \"Hello\" see you".toList =
        ["bob@x.org".toList, "\"Hello\"".toList, "see".toList, "you".toList] ∧
      Agent.emailFields (Fields "bob@x.org \"Hello\" see you".toList) =
        ("bob@x.org".toList, "Hello\" see".toList, "you".toList) ∧
      (Agent.handleEmailCommand Sample.host Sample.mailer Sample.world
          "bob@x.org \"Hello\" see you".toList).mails.map (fun m => (m.recipients, m.msg)) =
        [(["bob@x.org".toList],
          "From: me@x.org\r\nTo: bob@x.org\r\nSubject: Hello\" see\r\nMIME-Version: 1.0\r\nContent-Type: text/plain; charset=utf-8\r\n\r\nyou".toList)] ∧
      Agent.emailFields (Fields "bob@x.org \"Hello there\" see you".toList) =
        ("bob@x.org".toList, "Hello there".toList, "see you".toList) := by
  refine ⟨by decide, by decide, by decide, by decide⟩

/-! ### The transcript -/

theorem executeCommand_keeps_messages (H : Host) (a : Agent) (w : World) (cmd : Str) :
    (Agent.executeCommand H a w cmd).2.1.messages = a.messages := by
  have h := executeCommand_messages H a w cmd a.messages
  have h2 := congrArg (fun r => r.2.1.messages) h
  exact h2

theorem runExtracted_messages (H : Host) (a : Agent) (w : World) (content tail : Str)
    (a' : Agent) (w' : World) (h : Agent.runExtracted H a w content tail = .ok (a', w')) :
    a'.messages = a.messages := by
  unfold Agent.runExtracted at h
  split at h
  · cases h
  · split_ifs at h
    · have hk := executeCommand_keeps_messages H a w ‹Str›
      split at h
      · next heq =>
        rw [heq] at hk
        cases h
        exact hk
      · next heq =>
        rw [heq] at hk
        cases h
        exact hk
    · cases h
      rfl

theorem rememberInteraction_messages (H : Host) (a : Agent) (w : World) (u r : Str) :
    (Agent.rememberInteraction H a w u r).1.messages = a.messages := by
  unfold Agent.rememberInteraction
  split <;> rfl

theorem processWithAIBasedOnSearch_messages (H : Host) (a : Agent) (w : World)
    (task results : Str) (a' : Agent) (w' : World)
    (h : Agent.processWithAIBasedOnSearch H a w task results = .ok (a', w')) :
    a.messages <+: a'.messages := by
  unfold Agent.processWithAIBasedOnSearch at h
  split_ifs at h
  · cases h
    exact List.prefix_refl _
  · simp only at h
    split at h
    · cases h
    · cases h
      exact List.prefix_append _ _
    · split at h
      · cases h
      · rw [runExtracted_messages _ _ _ _ _ _ _ h, List.append_assoc]
        exact List.prefix_append _ _

theorem performWebSearch_messages (H : Host) (a : Agent) (w : World) (task : Str)
    (a' : Agent) (w' : World) (h : Agent.performWebSearch H a w task = .ok (a', w')) :
    a.messages <+: a'.messages := by
  unfold Agent.performWebSearch at h
  simp only at h
  split at h
  · cases h
  · cases h
    exact List.prefix_refl _
  · split at h
    · cases h
      exact List.prefix_refl _
    · split_ifs at h
      all_goals first
        | exact (show _ from processWithAIBasedOnSearch_messages _ _ _ _ _ _ _ h :)
        | (cases h; exact List.prefix_refl _)

theorem processWithAI_messages (H : Host) (a : Agent) (w : World) (task : Str)
    (a' : Agent) (w' : World) (h : Agent.processWithAI H a w task = .ok (a', w')) :
    a.messages <+: a'.messages := by
  unfold Agent.processWithAI at h
  split_ifs at h
  · cases h
    exact List.prefix_refl _
  · simp only at h
    split at h
    · cases h
    · split_ifs at h
      · have hp := performWebSearch_messages _ _ _ _ _ _ h
        exact (List.prefix_append _ _).trans hp
      · cases h
        exact List.prefix_append _ _
    · split at h
      · cases h
      · rw [runExtracted_messages _ _ _ _ _ _ _ h, rememberInteraction_messages,
          List.append_assoc]
        exact List.prefix_append _ _

theorem processTask_messages (H : Host) (a : Agent) (w : World) (task : Str)
    (a' : Agent) (w' : World) (h : Agent.processTask H a w task = .ok (a', w')) :
    a.messages <+: a'.messages := by
  unfold Agent.processTask at h
  split_ifs at h
  · exact performWebSearch_messages _ _ _ _ _ _ h
  · simp only at h
    split_ifs at h
    · exact performWebSearch_messages _ _ _ _ _ _ h
    · exact processWithAI_messages _ _ _ _ _ _ h

theorem orPanic_ok {α : Type} (r : Except Fault α) (x : α)
    (h : Agent.orPanic r = .ok x) : r = .ok x := by
  cases r with
  | error f => cases h
  | ok y =>
    cases h
    rfl

theorem setAPIKey_messages (a : Agent) (w : World) (key : Str) (a' : Agent) (w' : World)
    (h : Agent.setAPIKey a w key = .ok (a', w')) : a'.messages = a.messages := by
  cases hc : a.apiClient with
  | none =>
    simp only [Agent.setAPIKey, hc, api.SetCredentials, bind, Except.bind] at h
    cases h
  | some c =>
    simp only [Agent.setAPIKey, hc, api.SetCredentials, bind, Except.bind] at h
    split_ifs at h <;> cases h <;> rfl

theorem setBaseURL_messages (a : Agent) (w : World) (url : Str) (a' : Agent) (w' : World)
    (h : Agent.setBaseURL a w url = .ok (a', w')) : a'.messages = a.messages := by
  cases hc : a.apiClient with
  | none =>
    simp only [Agent.setBaseURL, hc, api.SetCredentials, bind, Except.bind] at h
    split_ifs at h
    cases h
    rfl
  | some c =>
    simp only [Agent.setBaseURL, hc, api.SetCredentials, bind, Except.bind] at h
    split_ifs at h <;> cases h <;> rfl

theorem setModel_messages (a : Agent) (w : World) (model : Str) (a' : Agent) (w' : World)
    (h : Agent.setModel a w model = .ok (a', w')) : a'.messages = a.messages := by
  cases hc : a.apiClient with
  | none =>
    simp only [Agent.setModel, hc, api.SetCredentials, bind, Except.bind] at h
    split_ifs at h
    cases h
    rfl
  | some c =>
    simp only [Agent.setModel, hc, api.SetCredentials, bind, Except.bind] at h
    split_ifs at h <;> cases h <;> rfl

theorem enableAutoConfirm_messages (a : Agent) (enabled : Bool) :
    a.messages <+: (Agent.enableAutoConfirm a enabled).messages := by
  unfold Agent.enableAutoConfirm
  split <;> exact List.prefix_append _ _

theorem handleCommand_messages (H : Host) (a : Agent) (w : World) (input : Str)
    (a' : Agent) (w' : World) (h : Agent.handleCommand H a w input = .ok (a', w')) :
    a.messages <+: a'.messages := by
  unfold Agent.handleCommand at h
  simp only at h
  split_ifs at h
  · cases h
    exact List.prefix_refl _
  · have h2 := orPanic_ok _ _ h
    cases hs : Agent.showConfig a w with
    | error f =>
      rw [hs] at h2
      cases h2
    | ok w2 =>
      rw [hs] at h2
      cases h2
      exact List.prefix_refl _
  · cases h
    exact enableAutoConfirm_messages a true
  · cases h
    exact enableAutoConfirm_messages a false
  · have h2 := orPanic_ok _ _ h
    cases hs : sliceFrom input 6 with
    | error f =>
      rw [hs] at h2
      cases h2
    | ok rest =>
      rw [hs] at h2
      cases h2
      exact List.prefix_refl _
  · have h2 := orPanic_ok _ _ h
    cases hs : sliceFrom input 12 with
    | error f =>
      rw [hs] at h2
      cases h2
    | ok rest =>
      rw [hs] at h2
      rw [setAPIKey_messages _ _ _ _ _ h2]
  · have h2 := orPanic_ok _ _ h
    cases hs : sliceFrom input 13 with
    | error f =>
      rw [hs] at h2
      cases h2
    | ok rest =>
      rw [hs] at h2
      rw [setBaseURL_messages _ _ _ _ _ h2]
  · have h2 := orPanic_ok _ _ h
    cases hs : sliceFrom input 10 with
    | error f =>
      rw [hs] at h2
      cases h2
    | ok rest =>
      rw [hs] at h2
      rw [setModel_messages _ _ _ _ _ h2]
  · exact processTask_messages _ _ _ _ _ _ (orPanic_ok _ _ h)

theorem initKnowledge_messages (H : Host) (a : Agent) (w : World) :
    (Agent.initKnowledge H a w).1.messages = a.messages ∧
    (Agent.initKnowledge H a w).1.systemInfo = a.systemInfo := by
  unfold Agent.initKnowledge
  dsimp only
  split
  · exact ⟨rfl, rfl⟩
  · split <;> exact ⟨rfl, rfl⟩

/-- The agent `NewAgent` builds starts with a transcript of one message, the system
message written from the system information it detected. -/
theorem newAgent_messages (H : Host) (w w' : World) (stdin : List Str) (a : Agent)
    (h : Agent.NewAgent H w stdin = .ok (a, w')) :
    a.messages = [Agent.systemMessage a.systemInfo] := by
  unfold Agent.NewAgent at h
  cases he : Agent.loadEnvFile w with
  | error f =>
    rw [he] at h
    cases h
  | ok w1 =>
    rw [he] at h
    simp only [Except.bind] at h
    injection h with h
    have ha := congrArg Prod.fst h
    simp only at ha
    rw [← ha, (initKnowledge_messages _ _ _).1, (initKnowledge_messages _ _ _).2]
    simp only [apply_ite Agent.messages, apply_ite Agent.systemInfo, ite_self]

/-- C20.  The transcript is append-only: whenever `handleCommand` returns, on a built-in
command, on a completion or on a completion after a search, the API call having succeeded
or failed, the messages before the step are a prefix of the messages after it; so the
first message, which `NewAgent` seeds with the system message, stays the first. -/
theorem C20_transcript_append_only (H : Host) (a : Agent) (w : World) (input : Str)
    (a' : Agent) (w' : World) (h : Agent.handleCommand H a w input = .ok (a', w')) :
    a.messages <+: a'.messages ∧
      ∀ m, a.messages.head? = some m → a'.messages.head? = some m := by
  have hp := handleCommand_messages H a w input a' w' h
  refine ⟨hp, ?_⟩
  intro m hm
  obtain ⟨t, ht⟩ := hp
  rw [← ht]
  cases hl : a.messages with
  | nil =>
    rw [hl] at hm
    cases hm
  | cons x l =>
    rw [hl] at hm
    simpa using hm

set_option maxRecDepth 100000 in
/-- A step on which C20 applies: on the sample host the chat endpoint cannot be reached,
the task `bonjour` returns, and the transcript has grown by the message of the user. -/
theorem C20_transcript_append_only_witness :
    ∃ a' w',
      Agent.handleCommand Sample.host Sample.ready Sample.world "bonjour".toList =
        .ok (a', w') ∧
      a'.messages.length = Sample.ready.messages.length + 1 ∧
      Sample.ready.messages <+: a'.messages ∧
      ∀ m, Sample.ready.messages.head? = some m → a'.messages.head? = some m :=
  ⟨_, _, rfl, by decide,
    C20_transcript_append_only Sample.host Sample.ready Sample.world "bonjour".toList _ _ rfl⟩

/-! ### The blank line at a prompt -/

theorem noticeInserted_base (w : World) : NoticeInserted (w.print defaultNotice) w :=
  ⟨w.stdout, [], by simp, rfl⟩

theorem noticeInserted_print {wb wy : World} (h : NoticeInserted wb wy) (c : Str) :
    NoticeInserted (wb.print c) (wy.print c) := by
  obtain ⟨before, after, h1, h2⟩ := h
  refine ⟨before, after ++ [c], ?_, ?_⟩
  · simp [World.print, h1]
  · rw [h2]
    simp [World.print]

theorem noticeInserted_procs {wb wy : World} (h : NoticeInserted wb wy) (c : List Str) :
    NoticeInserted { wb with procs := wb.procs ++ [c] } { wy with procs := wy.procs ++ [c] } := by
  obtain ⟨before, after, h1, h2⟩ := h
  refine ⟨before, after, h1, ?_⟩
  rw [h2]

theorem noticeInserted_env {wb wy : World} (h : NoticeInserted wb wy) : wb.env = wy.env := by
  obtain ⟨before, after, _, h2⟩ := h
  rw [h2]

theorem runCommand_notice (H : Host) (a : Agent) (wb wy : World) (argv : List Str)
    (h : NoticeInserted wb wy) :
    SameButNotice (Agent.runCommand H a wb argv) (Agent.runCommand H a wy argv) := by
  unfold Agent.runCommand
  cases H.run argv with
  | none => exact ⟨rfl, rfl, noticeInserted_print (noticeInserted_procs h _) _⟩
  | some err => exact ⟨rfl, rfl, noticeInserted_print (noticeInserted_procs h _) _⟩

/-- The standard output plays no part in `executeCommand`: in two worlds that differ by
one notice, its outcomes differ by that notice. -/
theorem executeCommand_notice (H : Host) (a : Agent) (wb wy : World) (cmd : Str)
    (h : NoticeInserted wb wy) :
    SameButNotice (Agent.executeCommand H a wb cmd) (Agent.executeCommand H a wy cmd) := by
  unfold Agent.executeCommand
  rcases hs : a.scanner.Scan with ⟨_ | first, pending⟩
  · exact ⟨rfl, rfl, by repeat (first | exact h | apply noticeInserted_print)⟩
  · dsimp only
    rcases hs2 : pending.Scan with ⟨_ | second, pending2⟩
    · dsimp only
      split_ifs
      all_goals first
        | (refine runCommand_notice _ _ _ _ _ ?_
           repeat (first | exact h | apply noticeInserted_print))
        | (refine ⟨rfl, rfl, ?_⟩
           repeat (first | exact h | apply noticeInserted_print))
    · dsimp only
      split_ifs
      all_goals first
        | (refine runCommand_notice _ _ _ _ _ ?_
           repeat (first | exact h | apply noticeInserted_print))
        | (refine ⟨rfl, rfl, ?_⟩
           repeat (first | exact h | apply noticeInserted_print))

theorem chatCompletion_env (H : Host) (wb wy : World) (c : Option api.Client)
    (messages : List types.Message) (h : wb.env = wy.env) :
    api.ChatCompletion H wb c messages = api.ChatCompletion H wy c messages := by
  have hm : api.maxTokens wb = api.maxTokens wy := by
    unfold api.maxTokens
    rw [h]
  unfold api.ChatCompletion api.requestBody
  rw [hm]

theorem sameReturnButNotice_ok {ab ay : Agent} {wb wy : World} (ha : ab = ay)
    (h : NoticeInserted wb wy) :
    SameReturnButNotice (.ok (ab, wb)) (.ok (ay, wy)) := ⟨ha, h⟩

theorem runExtracted_notice (H : Host) (a : Agent) (wb wy : World) (content tail : Str)
    (h : NoticeInserted wb wy) :
    SameReturnButNotice (Agent.runExtracted H a wb content tail)
      (Agent.runExtracted H a wy content tail) := by
  unfold Agent.runExtracted
  cases he : Agent.extractCommandFromResponse H.lower content with
  | error f => exact rfl
  | ok r =>
    obtain ⟨cmd, found⟩ := r
    dsimp only
    cases found with
    | false => exact sameReturnButNotice_ok rfl h
    | true =>
      obtain ⟨h1, h2, h3⟩ := executeCommand_notice H a wb wy cmd h
      rcases hb : Agent.executeCommand H a wb cmd with ⟨eb, ab, wb2⟩
      rcases hy : Agent.executeCommand H a wy cmd with ⟨ey, ay, wy2⟩
      rw [hb, hy] at h1 h2 h3
      dsimp only at h1 h2 h3
      subst h1 h2
      cases eb with
      | none => exact sameReturnButNotice_ok rfl (noticeInserted_print h3 _)
      | some err => exact sameReturnButNotice_ok rfl (noticeInserted_print h3 _)

theorem processWithAIBasedOnSearch_notice (H : Host) (a : Agent) (wb wy : World)
    (task results : Str) (h : NoticeInserted wb wy) :
    SameReturnButNotice (Agent.processWithAIBasedOnSearch H a wb task results)
      (Agent.processWithAIBasedOnSearch H a wy task results) := by
  unfold Agent.processWithAIBasedOnSearch
  split_ifs
  · exact sameReturnButNotice_ok rfl (noticeInserted_print h _)
  · dsimp only
    rw [chatCompletion_env H (wb.print _) (wy.print _) _ _
      (noticeInserted_env (noticeInserted_print h _))]
    split
    · exact rfl
    · exact sameReturnButNotice_ok rfl (noticeInserted_print (noticeInserted_print h _) _)
    · split
      · exact rfl
      · exact runExtracted_notice _ _ _ _ _ _
          (noticeInserted_print (noticeInserted_print h _) _)

theorem explicitYes_ne_nil (lo : Char → Char) (line : Str) (h : ExplicitYes lo line) :
    ToLower lo (TrimSpace line) ≠ [] := by
  rcases h with h | h | h <;> rw [h] <;> decide

theorem explicitYes_accepted (lo : Char → Char) (line : Str) (h : ExplicitYes lo line) :
    ¬ (ToLower lo (TrimSpace line) ≠ "oui".toList ∧
      ToLower lo (TrimSpace line) ≠ "yes".toList ∧
      ToLower lo (TrimSpace line) ≠ "y".toList) := by
  rintro ⟨h1, h2, h3⟩
  rcases h with h | h | h
  · exact h1 h
  · exact h2 h
  · exact h3 h

theorem oui_accepted :
    ¬ ("oui".toList ≠ "oui".toList ∧ "oui".toList ≠ "yes".toList ∧
      "oui".toList ≠ "y".toList) :=
  fun h => h.1 rfl

theorem toLower_blank (lo : Char → Char) (line : Str) (h : TrimSpace line = []) :
    ToLower lo (TrimSpace line) = [] := by
  rw [h]
  rfl

/-! ### The scanner -/

theorem TrimSpace_append_cr (l : Str) : TrimSpace (l ++ ['\r']) = TrimSpace l := by
  rw [← TrimSpace_rdropWhile (l ++ ['\r']), List.rdropWhile_concat_pos _ _ _ (by decide),
    TrimSpace_rdropWhile]

/-- The carriage return that `ScanLines` drops is white space: it makes no difference
once the token is trimmed. -/
theorem TrimSpace_dropCR (l : Str) : TrimSpace (bufio.dropCR l) = TrimSpace l := by
  unfold bufio.dropCR
  split_ifs with h
  · have hl := List.dropLast_append_getLast? '\r' (by simpa using h)
    rw [← TrimSpace_append_cr l.dropLast, hl]
  · rfl

/-- A line shorter than the buffer is delivered, without its carriage return. -/
theorem scan_line (line : Str) (rest : List Str)
    (h : len line < bufio.MaxScanTokenSize) :
    (bufio.NewScanner (line :: rest)).Scan =
      (some (bufio.dropCR line), bufio.NewScanner rest) := by
  unfold bufio.Scanner.Scan bufio.NewScanner
  dsimp only
  rw [if_pos h]

/-- On a line that fills the buffer `Scan` fails and reads no further. -/
theorem scan_long_line (line : Str) (rest : List Str)
    (h : bufio.MaxScanTokenSize ≤ len line) :
    (bufio.NewScanner (line :: rest)).Scan =
      (none, { lines := [], held := some (bufio.firstBytes bufio.MaxScanTokenSize line) }) := by
  unfold bufio.Scanner.Scan bufio.NewScanner
  dsimp only
  rw [if_neg (by omega)]

theorem len_replicate_space (n : Nat) : len (List.replicate n ' ') = n := by
  have h := len_of_ascii (List.replicate n ' ')
    (fun c hc => by rw [List.eq_of_mem_replicate hc]; decide)
  rw [h, List.length_replicate]

theorem TrimSpace_replicate_space (n : Nat) : TrimSpace (List.replicate n ' ') = [] := by
  induction n with
  | zero => rfl
  | succ n ih => rw [List.replicate_succ, TrimSpace_cons_of_space _ _ (by decide), ih]

/-- When the scanner delivers nothing, `executeCommand` returns the error of the
interrupted input once its prompt is printed, and starts nothing. -/
theorem executeCommand_of_scan_failed (H : Host) (a : Agent) (w : World) (cmd : Str)
    (s : bufio.Scanner) (h : a.scanner.Scan = (none, s)) :
    (Agent.executeCommand H a w cmd).1 = some Agent.errInterrupted ∧
    (Agent.executeCommand H a w cmd).2.1 = { a with scanner := s } ∧
    (Agent.executeCommand H a w cmd).2.2.procs = w.procs := by
  unfold Agent.executeCommand
  rw [h]
  exact ⟨rfl, rfl, rfl⟩

/-! ### The blank answer and the explicit yes -/

/-- The execute prompt: a blank first answer and a first answer that reads yes lead to
the same outcome, up to the notice. -/
theorem executeCommand_blank_first (H : Host) (a : Agent) (w : World) (cmd : Str)
    (sb sy s : bufio.Scanner) (blank yes : Str)
    (hsb : sb.Scan = (some blank, s)) (hsy : sy.Scan = (some yes, s))
    (hb : TrimSpace blank = []) (hy : ExplicitYes H.lower yes) :
    SameButNotice (Agent.executeCommand H { a with scanner := sb } w cmd)
      (Agent.executeCommand H { a with scanner := sy } w cmd) := by
  have hb2 := toLower_blank H.lower blank hb
  have hne := explicitYes_ne_nil H.lower yes hy
  have hacc := explicitYes_accepted H.lower yes hy
  unfold Agent.executeCommand
  dsimp only
  rw [hsb, hsy]
  dsimp only
  rcases hs2 : s.Scan with ⟨_ | second, pending⟩
  · simp only [hb2, if_true, if_neg hne, if_neg hacc, if_neg oui_accepted]
    split_ifs
    all_goals first
      | (refine runCommand_notice _ _ _ _ _ ?_
         repeat (first | exact noticeInserted_base _ | apply noticeInserted_print))
      | (refine ⟨rfl, rfl, ?_⟩
         repeat (first | exact noticeInserted_base _ | apply noticeInserted_print))
  · dsimp only
    simp only [hb2, if_true, if_neg hne, if_neg hacc, if_neg oui_accepted]
    split_ifs
    all_goals first
      | (refine runCommand_notice _ _ _ _ _ ?_
         repeat (first | exact noticeInserted_base _ | apply noticeInserted_print))
      | (refine ⟨rfl, rfl, ?_⟩
         repeat (first | exact noticeInserted_base _ | apply noticeInserted_print))

/-- The sudo prompt: on a privileged command whose execute prompt was answered in the
affirmative, a blank second answer and a second answer that reads yes lead to the same
outcome, up to the notice. -/
theorem executeCommand_blank_second (H : Host) (a : Agent) (w : World) (cmd : Str)
    (sb sy sb1 sy1 s : bufio.Scanner) (first blank yes : Str)
    (hsb : sb.Scan = (some first, sb1)) (hsy : sy.Scan = (some first, sy1))
    (hsb1 : sb1.Scan = (some blank, s)) (hsy1 : sy1.Scan = (some yes, s))
    (hb : TrimSpace blank = [])
    (hy : ExplicitYes H.lower yes) (hp : Privileged H.lower cmd)
    (hf : Affirmative H.lower first) :
    SameButNotice (Agent.executeCommand H { a with scanner := sb } w cmd)
      (Agent.executeCommand H { a with scanner := sy } w cmd) := by
  have hb2 := toLower_blank H.lower blank hb
  have hne := explicitYes_ne_nil H.lower yes hy
  have hacc := explicitYes_accepted H.lower yes hy
  have hn : Agent.needsSudo H.lower cmd = true := (needsSudo_iff _ _).2 hp
  unfold Agent.executeCommand
  dsimp only
  rw [hsb, hsy]
  dsimp only
  rw [hsb1, hsy1]
  dsimp only
  by_cases hf0 : ToLower H.lower (TrimSpace first) = []
  · simp only [hf0, hb2, hn, if_true, if_neg hne, if_neg hacc, if_neg oui_accepted]
    refine runCommand_notice _ _ _ _ _ ?_
    repeat (first | exact noticeInserted_base _ | apply noticeInserted_print)
  · have hfacc : ¬ (ToLower H.lower (TrimSpace first) ≠ "oui".toList ∧
        ToLower H.lower (TrimSpace first) ≠ "yes".toList ∧
        ToLower H.lower (TrimSpace first) ≠ "y".toList) := by
      rintro ⟨h1, h2, h3⟩
      rcases hf with h | h | h | h
      · exact hf0 h
      · exact h1 h
      · exact h2 h
      · exact h3 h
    simp only [hb2, hn, if_true, if_neg hf0, if_neg hfacc, if_neg hne, if_neg hacc,
      if_neg oui_accepted]
    refine runCommand_notice _ _ _ _ _ ?_
    repeat (first | exact noticeInserted_base _ | apply noticeInserted_print)

/-- The prompt of `performWebSearch`: once the search has returned results, a blank answer
and an answer that reads yes lead to the same outcome, up to the notice. -/
theorem performWebSearch_blank (H : Host) (a : Agent) (w : World) (task : Str)
    (sb sy s : bufio.Scanner) (blank yes : Str) (results : search.SearchResults)
    (hsb : sb.Scan = (some blank, s)) (hsy : sy.Scan = (some yes, s))
    (hb : TrimSpace blank = []) (hy : ExplicitYes H.lower yes)
    (hs : search.Search H a.webSearcher (Agent.extractSearchQuery H.lower task) =
      .ok (.ok results)) :
    SameReturnButNotice (Agent.performWebSearch H { a with scanner := sb } w task)
      (Agent.performWebSearch H { a with scanner := sy } w task) := by
  have hb2 := toLower_blank H.lower blank hb
  have hne := explicitYes_ne_nil H.lower yes hy
  have hacc : ToLower H.lower (TrimSpace yes) = "oui".toList ∨
      ToLower H.lower (TrimSpace yes) = "yes".toList ∨
      ToLower H.lower (TrimSpace yes) = "y".toList := hy
  have houi : "oui".toList = "oui".toList ∨ "oui".toList = "yes".toList ∨
      "oui".toList = "y".toList := Or.inl rfl
  unfold Agent.performWebSearch
  dsimp only
  rw [hs]
  dsimp only
  rw [hsb, hsy]
  dsimp only
  simp only [hb2, if_true, if_neg hne, if_pos hacc, if_pos houi]
  exact processWithAIBasedOnSearch_notice _ _ _ _ _ _ (noticeInserted_base _)

theorem explicitYes_dropCR (lo : Char → Char) (line : Str) (h : ExplicitYes lo line) :
    ExplicitYes lo (bufio.dropCR line) := by
  unfold ExplicitYes at h ⊢
  rw [TrimSpace_dropCR]
  exact h

theorem affirmative_dropCR (lo : Char → Char) (line : Str) (h : Affirmative lo line) :
    Affirmative lo (bufio.dropCR line) := by
  unfold Affirmative at h ⊢
  rw [TrimSpace_dropCR]
  exact h

/-- C15, as amended.  At each of the three yes/no prompts an input line that is blank,
empty or of white space only, and shorter than the 65536 bytes of the buffer of the
scanner, leads to the same decision and the same behaviour afterwards as an input line,
shorter than the buffer too, that reads `oui`, `yes` or `y`: at the execute prompt of
`executeCommand`; at its sudo prompt, reached on a privileged command once the execute
prompt is answered in the affirmative; and at the prompt of `performWebSearch`, reached
once the search has returned results.  The error returned, the agent and the world are
the same, the processes started among them, but for the one notice
`✅ (confirmation par défaut)` that the blank line adds to the standard output. -/
theorem C15_blank_line_is_yes (H : Host) (a : Agent) (w : World) (blank yes : Str)
    (rest : List Str) (hb : TrimSpace blank = [])
    (hbl : len blank < bufio.MaxScanTokenSize) (hy : ExplicitYes H.lower yes)
    (hyl : len yes < bufio.MaxScanTokenSize) :
    (∀ cmd,
      SameButNotice
        (Agent.executeCommand H { a with scanner := bufio.NewScanner (blank :: rest) } w cmd)
        (Agent.executeCommand H { a with scanner := bufio.NewScanner (yes :: rest) } w cmd)) ∧
    (∀ cmd first, Privileged H.lower cmd → Affirmative H.lower first →
      len first < bufio.MaxScanTokenSize →
      SameButNotice
        (Agent.executeCommand H
          { a with scanner := bufio.NewScanner (first :: blank :: rest) } w cmd)
        (Agent.executeCommand H
          { a with scanner := bufio.NewScanner (first :: yes :: rest) } w cmd)) ∧
    (∀ task results,
      search.Search H a.webSearcher (Agent.extractSearchQuery H.lower task) =
        .ok (.ok results) →
      SameReturnButNotice
        (Agent.performWebSearch H
          { a with scanner := bufio.NewScanner (blank :: rest) } w task)
        (Agent.performWebSearch H
          { a with scanner := bufio.NewScanner (yes :: rest) } w task)) := by
  have hb2 : TrimSpace (bufio.dropCR blank) = [] := by rw [TrimSpace_dropCR]; exact hb
  have hy2 := explicitYes_dropCR H.lower yes hy
  refine ⟨fun cmd => ?_, fun cmd first hp hf hfl => ?_, fun task results hs => ?_⟩
  · exact executeCommand_blank_first H a w cmd _ _ _ _ _ (scan_line blank rest hbl)
      (scan_line yes rest hyl) hb2 hy2
  · exact executeCommand_blank_second H a w cmd _ _ _ _ _ _ _ _
      (scan_line first (blank :: rest) hfl) (scan_line first (yes :: rest) hfl)
      (scan_line blank rest hbl) (scan_line yes rest hyl) hb2 hy2 hp
      (affirmative_dropCR H.lower first hf)
  · exact performWebSearch_blank H a w task _ _ _ _ _ results (scan_line blank rest hbl)
      (scan_line yes rest hyl) hb2 hy2 hs

set_option maxRecDepth 100000 in
/-- The property C15 at work on a host that answers the search and the completion: the
blank line is two spaces, the explicit answer is `oui`, the command of the execute prompt
is `ls`, the privileged command is `sudo ls`, the task of the search is `cherche go`. -/
theorem C15_blank_line_is_yes_witness :
    TrimSpace "  ".toList = [] ∧ len "  ".toList < bufio.MaxScanTokenSize ∧
    ExplicitYes Sample.answeringHost.lower "oui".toList ∧
    len "oui".toList < bufio.MaxScanTokenSize ∧
    SameButNotice
      (Agent.executeCommand Sample.answeringHost
        { Sample.searching with
          scanner := bufio.NewScanner ("  ".toList :: ["y".toList]) } Sample.world
        "ls".toList)
      (Agent.executeCommand Sample.answeringHost
        { Sample.searching with
          scanner := bufio.NewScanner ("oui".toList :: ["y".toList]) } Sample.world
        "ls".toList) ∧
    SameButNotice
      (Agent.executeCommand Sample.answeringHost
        { Sample.searching with
          scanner := bufio.NewScanner ("yes".toList :: "  ".toList :: ["y".toList]) }
        Sample.world "sudo ls".toList)
      (Agent.executeCommand Sample.answeringHost
        { Sample.searching with
          scanner := bufio.NewScanner ("yes".toList :: "oui".toList :: ["y".toList]) }
        Sample.world "sudo ls".toList) ∧
    SameReturnButNotice
      (Agent.performWebSearch Sample.answeringHost
        { Sample.searching with
          scanner := bufio.NewScanner ("  ".toList :: ["y".toList]) } Sample.world
        "cherche go".toList)
      (Agent.performWebSearch Sample.answeringHost
        { Sample.searching with
          scanner := bufio.NewScanner ("oui".toList :: ["y".toList]) } Sample.world
        "cherche go".toList) :=
  have h := C15_blank_line_is_yes Sample.answeringHost Sample.searching Sample.world
    "  ".toList "oui".toList ["y".toList] (by decide) (by decide) (by decide) (by decide)
  ⟨by decide, by decide, by decide, by decide, h.1 "ls".toList,
    h.2.1 "sudo ls".toList "yes".toList (by decide) (by decide) (by decide),
    h.2.2 "cherche go".toList _ rfl⟩

set_option maxRecDepth 100000 in
/-- C15 fails as it is stated.  The scanner delivers no line of 65536 bytes or more: on a
line of 65536 spaces, which is white space only, `Scan` fails, `executeCommand` returns
the error of the interrupted input and starts nothing, where the line `oui` starts the
command.  And on the empty line, which starts the command as `oui` does, the notice of the
default confirmation is printed, which it is not on `oui`. -/
theorem C15_blank_line_of_64_KiB :
    TrimSpace (List.replicate 65536 ' ') = [] ∧
    (Agent.executeCommand Sample.host
        { Sample.ready with scanner := bufio.NewScanner [List.replicate 65536 ' '] }
        Sample.world "ls".toList).1 = some Agent.errInterrupted ∧
    (Agent.executeCommand Sample.host
        { Sample.ready with scanner := bufio.NewScanner [List.replicate 65536 ' '] }
        Sample.world "ls".toList).2.2.procs = [] ∧
    (Agent.executeCommand Sample.host
        { Sample.ready with scanner := bufio.NewScanner ["oui".toList] }
        Sample.world "ls".toList).1 = none ∧
    (Agent.executeCommand Sample.host
        { Sample.ready with scanner := bufio.NewScanner ["oui".toList] }
        Sample.world "ls".toList).2.2.procs = [["sh".toList, "-c".toList, "ls".toList]] ∧
    defaultNotice ∈ (Agent.executeCommand Sample.host
        { Sample.ready with scanner := bufio.NewScanner [[]] }
        Sample.world "ls".toList).2.2.stdout ∧
    defaultNotice ∉ (Agent.executeCommand Sample.host
        { Sample.ready with scanner := bufio.NewScanner ["oui".toList] }
        Sample.world "ls".toList).2.2.stdout := by
  have hl := scan_long_line (List.replicate 65536 ' ') []
    (by rw [len_replicate_space]; decide)
  have h := executeCommand_of_scan_failed Sample.host
    { Sample.ready with scanner := bufio.NewScanner [List.replicate 65536 ' '] }
    Sample.world "ls".toList _ hl
  exact ⟨TrimSpace_replicate_space 65536, h.1, h.2.2, by decide, by decide, by decide,
    by decide⟩

/-! ### The error of `save` in `Add` -/

theorem save_denied (H : Host) (kb : memory.KnowledgeBase) (w : World)
    (hd : w.denied kb.filePath = true) :
    memory.save H kb w =
      (some ("open ".toList ++ kb.filePath ++ ": permission denied".toList), w) := by
  unfold memory.save os.Create
  rw [if_pos hd]

theorem save_stdout (H : Host) (kb : memory.KnowledgeBase) (w : World) :
    (memory.save H kb w).2.stdout = w.stdout := by
  unfold memory.save os.Create
  split_ifs <;> rfl

theorem add_base (H : Host) (kb : memory.KnowledgeBase) (w : World)
    (category key value : Str) (metadata : Option (List (Str × Str)))
    (denied : Str → Bool) :
    (memory.Add H kb { w with denied := denied } category key value metadata).1 =
      (memory.Add H kb w category key value metadata).1 := by
  simp [memory.Add, memory.generateID, World.timeNow]

/-- C21 fails on the code.  When the knowledge file cannot be created, `save` returns an
error inside `Add`, and `Add` drops it: `Add` and `Remember` return nothing but the base,
which is the one they return when the file can be written, and they print nothing; the
world is left as it was, but for the clock.  The caller cannot tell the failure from a
success. -/
theorem C21_add_drops_save_error (H : Host) (kb : memory.KnowledgeBase) (w : World)
    (category key value : Str) (metadata : Option (List (Str × Str)))
    (hd : w.denied kb.filePath = true) :
    (memory.save H (memory.Add H kb w category key value metadata).1
        { w with tick := w.tick + 3 }).1 =
      some ("open ".toList ++ kb.filePath ++ ": permission denied".toList) ∧
    (memory.Add H kb w category key value metadata).2 = { w with tick := w.tick + 3 } ∧
    (memory.Add H kb w category key value metadata).1 =
      (memory.Add H kb { w with denied := fun _ => false } category key value metadata).1 ∧
    (memory.Add H kb w category key value metadata).2.stdout =
      (memory.Add H kb { w with denied := fun _ => false }
        category key value metadata).2.stdout ∧
    memory.Remember H kb w category key value metadata =
      memory.Add H kb w category key value metadata := by
  have hs := save_denied H (memory.Add H kb w category key value metadata).1
    { w with tick := w.tick + 3 } (by rw [add_filePath]; exact hd)
  rw [add_filePath] at hs
  refine ⟨?_, ?_, (add_base H kb w category key value metadata _).symm, ?_, rfl⟩
  · rw [hs]
  · rw [add_world, hs]
  · rw [add_world, add_world, save_stdout, save_stdout]

set_option maxRecDepth 100000 in
/-- The property C21 at work: an entry is added to the empty base in a world where the
knowledge file may not be opened for writing. -/
theorem C21_add_drops_save_error_witness :
    Sample.lockedWorld.denied Sample.kb.filePath = true ∧
    (memory.Add Sample.host Sample.kb Sample.lockedWorld "note".toList "clef".toList
        "valeur".toList none).2 = { Sample.lockedWorld with tick := 3 } ∧
    (memory.Add Sample.host Sample.kb Sample.lockedWorld "note".toList "clef".toList
        "valeur".toList none).1.entries.length = 1 :=
  ⟨by decide,
    (C21_add_drops_save_error Sample.host Sample.kb Sample.lockedWorld "note".toList
      "clef".toList "valeur".toList none (by decide)).2.1,
    by decide⟩

/-! ### The command after the cue `commande :` -/

set_option maxRecDepth 100000 in
/-- C22 fails on the code.  When no newline follows the cue, the end of the slice is set
to `len(response) - start`, a length, and used as an offset into the reply: on
`Utilisez la commande : ls -la` the slice is `response[22:7]` and the code panics; when
the cue stands early enough for the slice to exist, the command is cut short, as on
`commande : ls -la /home/user`, which yields `ls -la`.  With a newline after the command
the text of the line is returned. -/
theorem C22_inline_command_without_newline :
    Agent.extractCommandFromResponse unicode.toLowerLatin1
        "Utilisez la commande : ls -la".toList = .error .sliceBounds ∧
    Agent.extractCommandFromResponse unicode.toLowerLatin1
        "commande : ls -la /home/user".toList = .ok ("ls -la".toList, true) ∧
    Agent.extractCommandFromResponse unicode.toLowerLatin1
        "Utilisez la commande : ls -la\nMerci".toList = .ok ("ls -la".toList, true) := by
  refine ⟨by decide, by decide, by decide⟩

/-! ### The query of a search -/

theorem TrimSpace_idempotent (l : Str) : TrimSpace (TrimSpace l) = TrimSpace l := by
  unfold TrimSpace
  rw [dropWhile_rdropWhile_comm, List.dropWhile_idempotent, List.rdropWhile_idempotent]

/-- The query of `extractSearchQuery` is trimmed: it has no white space left to remove at
its ends. -/
theorem extractSearchQuery_trimmed (lo : Char → Char) (task : Str) :
    TrimSpace (Agent.extractSearchQuery lo task) = Agent.extractSearchQuery lo task := by
  unfold Agent.extractSearchQuery
  exact TrimSpace_idempotent _

/-- When the lower-cased task holds none of the search terms, the query is the task,
trimmed. -/
theorem extractSearchQuery_no_term (lo : Char → Char) (task : Str)
    (h : ∀ term ∈ Agent.searchTerms, Contains (ToLower lo task) term = false) :
    Agent.extractSearchQuery lo task = TrimSpace task := by
  unfold Agent.extractSearchQuery
  have key : ∀ (terms : List Str) (acc : Str),
      (∀ term ∈ terms, Contains (ToLower lo task) term = false) →
      terms.foldl (fun result term =>
        if Contains (ToLower lo task) term = true then ReplaceAll result term [] else result)
        acc = acc := by
    intro terms
    induction terms with
    | nil => intro acc _; rfl
    | cons t ts ih =>
      intro acc ht
      rw [List.foldl_cons, if_neg (by simp [ht t (by simp)])]
      exact ih acc (fun term hm => ht term (by simp [hm]))
  exact congrArg TrimSpace (key _ task h)

set_option maxRecDepth 100000 in
/-- C23 fails on the code.  The terms are looked for in the lower-cased task and removed
from the task as it is written: on `Cherche golang` the term `cherche` is detected and
nothing is removed, so the query still holds it, compared without case.  The removals
also follow one another: on `recherche golang` the term `cherche` goes first and leaves
`re golang`; on `trtrouveouve golang` the removal of `trouve` leaves `trouve golang`. -/
theorem C23_query_keeps_search_term :
    Agent.extractSearchQuery unicode.toLowerLatin1 "Cherche golang".toList =
        "Cherche golang".toList ∧
    Contains (ToLower unicode.toLowerLatin1 "Cherche golang".toList) "cherche".toList =
        true ∧
    Contains (ToLower unicode.toLowerLatin1
        (Agent.extractSearchQuery unicode.toLowerLatin1 "Cherche golang".toList))
        "cherche".toList = true ∧
    Agent.extractSearchQuery unicode.toLowerLatin1 "recherche golang".toList =
        "re golang".toList ∧
    Agent.extractSearchQuery unicode.toLowerLatin1 "trtrouveouve golang".toList =
        "trouve golang".toList := by
  refine ⟨by decide, by decide, by decide, by decide, by decide⟩

/-! ### The fields of `uname -srm` -/

/-- C24 fails on the code.  Of the three fields `uname -srm` prints, the name of the
kernel, its release and the machine, `detectSystemInfo` stores the third, the machine, as
`KernelVersion` and the second, the release, as `Architecture`: the two indices are
swapped, and the system message reports the machine as the kernel and the release as the
architecture. -/
theorem C24_uname_fields_swapped (H : Host) (w : World) (data out : Str)
    (name release machine : Str)
    (hos : os.Open w "/etc/os-release".toList = .ok data)
    (hout : H.output ["uname".toList, "-srm".toList] = .ok out)
    (hf : Fields (TrimSpace out) = [name, release, machine]) :
    (Agent.detectSystemInfo H w).1.KernelVersion = machine ∧
    (Agent.detectSystemInfo H w).1.Architecture = release ∧
    ("  - Kernel: ".toList ++ machine ++ "\n".toList) <:+:
      (Agent.systemMessage (Agent.detectSystemInfo H w).1).Content ∧
    ("  - Architecture: ".toList ++ release ++ "\n".toList) <:+:
      (Agent.systemMessage (Agent.detectSystemInfo H w).1).Content := by
  have hk : (Agent.detectSystemInfo H w).1.KernelVersion = machine := by
    unfold Agent.detectSystemInfo
    rw [hos]
    dsimp only
    rw [hout]
    dsimp only
    rw [hf]
    rfl
  have ha : (Agent.detectSystemInfo H w).1.Architecture = release := by
    unfold Agent.detectSystemInfo
    rw [hos]
    dsimp only
    rw [hout]
    dsimp only
    rw [hf]
    rfl
  refine ⟨hk, ha, ?_, ?_⟩
  · unfold Agent.systemMessage
    rw [hk]
    exact (List.infix_append _ _ _).trans (List.prefix_append _ _).isInfix
  · unfold Agent.systemMessage
    rw [ha]
    exact List.infix_append _ _ _

set_option maxRecDepth 100000 in
/-- The property C24 at work: `uname -srm` prints `Linux 6.1.0 x86_64`, and the agent
`NewAgent` builds holds `x86_64` as the version of the kernel and `6.1.0` as the
architecture. -/
theorem C24_uname_fields_swapped_witness :
    Fields (TrimSpace "Linux 6.1.0 x86_64\n".toList) =
        ["Linux".toList, "6.1.0".toList, "x86_64".toList] ∧
    (Agent.detectSystemInfo Sample.host Sample.linuxWorld).1.KernelVersion =
        "x86_64".toList ∧
    (Agent.detectSystemInfo Sample.host Sample.linuxWorld).1.Architecture =
        "6.1.0".toList ∧
    (Agent.NewAgent Sample.host Sample.linuxWorld []).map
        (fun r => (r.1.systemInfo.KernelVersion, r.1.systemInfo.Architecture)) =
      .ok ("x86_64".toList, "6.1.0".toList) :=
  have h := C24_uname_fields_swapped Sample.host Sample.linuxWorld
    "NAME=\"Arch Linux\"\nID=arch\nBUILD_ID=rolling\n".toList "Linux 6.1.0 x86_64\n".toList
    "Linux".toList "6.1.0".toList "x86_64".toList (by decide) rfl (by decide)
  ⟨by decide, h.1, h.2.1, by decide⟩

/-! ### The port of the mail server -/

theorem initKnowledge_smtp (H : Host) (a : Agent) (w : World) :
    (Agent.initKnowledge H a w).1.SMTPConfig = a.SMTPConfig := by
  unfold Agent.initKnowledge
  dsimp only
  split
  · rfl
  · split <;> rfl

theorem newAgent_port (H : Host) (w w' : World) (stdin : List Str) (a : Agent)
    (h : Agent.NewAgent H w stdin = .ok (a, w')) : a.SMTPConfig.Port = 587 := by
  unfold Agent.NewAgent at h
  cases he : Agent.loadEnvFile w with
  | error f =>
    rw [he] at h
    cases h
  | ok w1 =>
    rw [he] at h
    simp only [Except.bind] at h
    injection h with h
    have ha := congrArg Prod.fst h
    simp only at ha
    rw [← ha, initKnowledge_smtp]
    simp only [apply_ite Agent.SMTPConfig, ite_self]

/-- With the port 587 and a complete account, `sendMessage` hands the message to
`smtp.SendMail`, at the address of the host with port 587. -/
theorem sendMessage_of_port_587 (H : Host) (a : Agent) (w : World)
    (recipient subject body : Str) (hport : a.SMTPConfig.Port = 587)
    (hh : a.SMTPConfig.Host ≠ []) (hu : a.SMTPConfig.Username ≠ [])
    (hp : a.SMTPConfig.Password ≠ []) :
    ∃ m : Mail,
      Agent.sendMessage H a w recipient subject body =
        (H.sendMail m, { w with mails := w.mails ++ [m] }) ∧
      m.ssl = false ∧ m.addr = a.SMTPConfig.Host ++ ":587".toList := by
  unfold Agent.sendMessage
  rw [if_neg (by simp [hh, hu, hp])]
  dsimp only
  rw [if_neg (by rw [hport]; decide)]
  refine ⟨_, rfl, ?_, ?_⟩
  · simp [hport]
  · dsimp only
    rw [hport, List.append_assoc]
    have hd : ":".toList ++ decimal 587 = ":587".toList := by decide
    rw [hd]

/-- C25 fails on the code.  `NewAgent` reads the host, the user, the password and the
sender of the mail account from the environment and sets the port to the constant 587,
whatever the environment holds: the agent it builds never has the port 465, and
`sendMessage` on it never takes the path of `sendMailSSL`, written for that port. -/
theorem C25_smtp_port_is_constant (H : Host) (w w' : World) (stdin : List Str) (a : Agent)
    (hnew : Agent.NewAgent H w stdin = .ok (a, w')) :
    a.SMTPConfig.Port = 587 ∧
    (a.SMTPConfig.Host ≠ [] → a.SMTPConfig.Username ≠ [] → a.SMTPConfig.Password ≠ [] →
      ∀ (w2 : World) (recipient subject body : Str),
        ∃ m : Mail,
          Agent.sendMessage H a w2 recipient subject body =
            (H.sendMail m, { w2 with mails := w2.mails ++ [m] }) ∧
          m.ssl = false ∧ m.addr = a.SMTPConfig.Host ++ ":587".toList) :=
  ⟨newAgent_port H w w' stdin a hnew,
    fun hh hu hp w2 recipient subject body =>
      sendMessage_of_port_587 H a w2 recipient subject body
        (newAgent_port H w w' stdin a hnew) hh hu hp⟩

set_option maxRecDepth 100000 in
/-- The property C25 at work: the environment holds `SMTP_PORT=465` next to the account,
and the agent `NewAgent` builds has the port 587. -/
theorem C25_smtp_port_is_constant_witness :
    os.Getenv Sample.sslWorld "SMTP_PORT".toList = "465".toList ∧
    ∃ a w', Agent.NewAgent Sample.host Sample.sslWorld [] = .ok (a, w') ∧
      a.SMTPConfig.Host = "smtp.x.org".toList ∧ a.SMTPConfig.Port = 587 :=
  ⟨by decide, _, _, rfl, by decide,
    (C25_smtp_port_is_constant Sample.host Sample.sslWorld _ [] _ rfl).1⟩

/-! ### A response without choices -/

theorem chatCompletion_ok (H : Host) (status respBody : Str) (resp : types.ChatResponse)
    (henc : ∀ req, ∃ json, H.encodeChat req = .ok json)
    (hpost : ∀ url key body, H.post url key body = .response status 200 respBody)
    (hdec : H.decodeChat respBody = .ok resp)
    (w : World) (c : api.Client) (messages : List types.Message) :
    api.ChatCompletion H w (some c) messages = .ok (.ok resp) := by
  obtain ⟨json, hj⟩ := henc (api.requestBody w c messages)
  unfold api.ChatCompletion
  dsimp only
  rw [hj]
  dsimp only
  rw [hpost]
  dsimp only
  rw [if_neg (by decide), hdec]

/-- C26.  A response of status 200 whose body decodes into a response without choices is
returned by `ChatCompletion` as a success, and both completion paths then read the first
element of the empty list of choices: the index is out of range and the Go code
panics. -/
theorem C26_empty_choices_unguarded (H : Host) (status respBody : Str)
    (resp : types.ChatResponse)
    (henc : ∀ req, ∃ json, H.encodeChat req = .ok json)
    (hpost : ∀ url key body, H.post url key body = .response status 200 respBody)
    (hdec : H.decodeChat respBody = .ok resp) (hempty : resp.Choices = []) :
    (∀ (w : World) (c : api.Client) (messages : List types.Message),
      api.ChatCompletion H w (some c) messages = .ok (.ok resp)) ∧
    (∀ (a : Agent) (w : World) (task : Str) (c : api.Client),
      a.APIConfig.APIKey ≠ [] → a.apiClient = some c →
      Agent.processWithAI H a w task = .error .indexRange) ∧
    (∀ (a : Agent) (w : World) (task results : Str) (c : api.Client),
      a.APIConfig.APIKey ≠ [] → a.apiClient = some c →
      Agent.processWithAIBasedOnSearch H a w task results = .error .indexRange) := by
  have hchat := chatCompletion_ok H status respBody resp henc hpost hdec
  refine ⟨hchat, ?_, ?_⟩
  · intro a w task c hkey hc
    unfold Agent.processWithAI
    rw [if_neg hkey]
    dsimp only
    rw [hc, hchat]
    dsimp only
    rw [hempty]
  · intro a w task results c hkey hc
    unfold Agent.processWithAIBasedOnSearch
    rw [if_neg hkey]
    dsimp only
    rw [hc, hchat]
    dsimp only
    rw [hempty]

set_option maxRecDepth 100000 in
/-- The property C26 at work, on a host whose chat endpoint answers with status 200 and
an empty list of choices. -/
theorem C26_empty_choices_unguarded_witness :
    (∃ resp, api.ChatCompletion Sample.emptyChoicesHost Sample.world (some Sample.client)
        Sample.ready.messages = .ok (.ok resp) ∧ resp.Choices = []) ∧
    Agent.processWithAI Sample.emptyChoicesHost Sample.ready Sample.world
        "bonjour".toList = .error .indexRange ∧
    Agent.processWithAIBasedOnSearch Sample.emptyChoicesHost Sample.ready Sample.world
        "bonjour".toList "Aucun résultat".toList = .error .indexRange :=
  have h := C26_empty_choices_unguarded Sample.emptyChoicesHost "200 OK".toList
    "\x7b\"choices\":[]\x7d".toList
    { ID := "c1".toList, Object := "chat.completion".toList, Created := 0
      Model := "asi1-mini".toList, Choices := []
      Usage := { PromptTokens := 1, CompletionTokens := 0, TotalTokens := 1 } }
    (fun _ => ⟨_, rfl⟩) (fun _ _ _ => rfl) rfl rfl
  ⟨⟨_, h.1 Sample.world Sample.client Sample.ready.messages, rfl⟩,
    h.2.1 Sample.ready Sample.world "bonjour".toList Sample.client (by decide) rfl,
    h.2.2 Sample.ready Sample.world "bonjour".toList "Aucun résultat".toList Sample.client
      (by decide) rfl⟩

/-! ### The keywords of an accented text -/

/-- On a token of one-byte characters the test of the code is the acceptance: bytes and
characters are counted alike. -/
theorem kept_iff_accepted_of_ascii (word : Str) (h : ∀ c ∈ word, c.utf8Size = 1) :
    Kept word ↔ Accepted word := by
  unfold Kept Accepted
  rw [len_of_ascii word h]

set_option maxRecDepth 100000 in
/-- C10 fails on the code.  The keywords have no duplicate and stand in the order of
their first occurrence, but they are not the accepted tokens: the test `len(word) > 3`
counts bytes, so on the text `un été à Paris` both copies of `extractKeywords` return
`été` and `paris`, where `paris` is the one token longer than 3 that is no stop word. -/
theorem C10_keywords_of_accented_text :
    memory.extractKeywords unicode.toLowerLatin1 "un été à Paris".toList =
        ["été".toList, "paris".toList] ∧
    Agent.extractKeywords unicode.toLowerLatin1 "un été à Paris".toList =
        ["été".toList, "paris".toList] ∧
    firstOccurrences (acceptedTokens unicode.toLowerLatin1 "un été à Paris".toList) =
        ["paris".toList] ∧
    "été".toList.length = 3 := by
  refine ⟨by decide, by decide, by decide, by decide⟩

end Asione
